import Mathlib

/-!
# Presplitting of primitive references (`kernels/builders/primrefgen_presplit.h`)

A shallow embedding of the presplit pass of the BVH builder and the properties
checked against it.

Modelling conventions

* `float` values are exact rationals (`ℚ`); `0.2f` is `1/5`.  A priority that is
  NaN is not one of them: the part of the pass that handles priorities is
  repeated for a `float` that is a number or NaN in the namespace `ieee` at
  the end of the definitions.
* `unsigned int` / `size_t` values are natural numbers.  Subtractions that can
  go below zero in the source (`a - b`, `x--`) wrap modulo `2^64`
  (`sizeSub`); the packed `data` word is reduced modulo `2^32`.  Additions are
  assumed not to overflow and primitive indices are assumed to fit the
  `unsigned int` they are stored in.
* `assert(c)` does not change control flow (release build); every function
  that contains asserts also returns the list of source lines whose assert was
  violated during the run.
* `parallel_for` / `parallel_reduce` are run sequentially in index order.
* Code that lives outside this header (the geometry specific splitter, the
  lane conversion `vint4(Vec3fa)`, `bitInterleave`, `area`,
  `projectedPrimitiveArea`, `powf`, `radix_sort_u32`, `BBox3fa::empty`) is a
  field of the environment `Env`.
-/

namespace embree

/-! ## Constants (lines 29-37) -/

def GRID_SIZE : ℕ := 1024
def MAX_PRESPLITS_PER_PRIMITIVE_LOG : ℕ := 5
def MAX_PRESPLITS_PER_PRIMITIVE : ℕ := 1 <<< MAX_PRESPLITS_PER_PRIMITIVE_LOG
def PRIORITY_CUTOFF_THRESHOLD : ℚ := 1
def PRIORITY_BINARY_SEACH_THRESHOLD : ℚ := 1

/-! ## Data model -/

/-- Three float lanes (`Vec3fa`). -/
structure Vec3fa where
  x : ℚ
  y : ℚ
  z : ℚ
deriving DecidableEq, Inhabited

/-- Three int lanes (`Vec3ia`). -/
structure Vec3ia where
  x : ℤ
  y : ℤ
  z : ℤ
deriving DecidableEq, Inhabited

/-- Lane access `v[dim]`. -/
def Vec3fa.get (v : Vec3fa) (dim : ℕ) : ℚ :=
  if dim = 0 then v.x else if dim = 1 then v.y else v.z

/-- Lane access `v[dim]`. -/
def Vec3ia.get (v : Vec3ia) (dim : ℕ) : ℤ :=
  if dim = 0 then v.x else if dim = 1 then v.y else v.z

/-- Axis aligned box (`BBox3fa`). -/
structure BBox3fa where
  lower : Vec3fa
  upper : Vec3fa
deriving DecidableEq, Inhabited

/-- Extent of a box, `BBox3fa::size()`. -/
def BBox3fa.size (b : BBox3fa) : Vec3fa :=
  ⟨b.upper.x - b.lower.x, b.upper.y - b.lower.y, b.upper.z - b.lower.z⟩

/-- Primitive reference: a box with the geometry and primitive identifiers. -/
structure PrimRef where
  lower : Vec3fa
  upper : Vec3fa
  geomID : ℕ
  primID : ℕ
deriving DecidableEq, Inhabited

/-- Bounds of a reference, `PrimRef::bounds()`. -/
def PrimRef.bounds (p : PrimRef) : BBox3fa := ⟨p.lower, p.upper⟩

/-- Constructor `PrimRef(bounds, geomID, primID)`. -/
def PrimRef.ofBounds (b : BBox3fa) (geomID primID : ℕ) : PrimRef :=
  ⟨b.lower, b.upper, geomID, primID⟩

/-- The union `{ float priority; unsigned int data; }` of `PresplitItem`. -/
inductive PresplitValue where
  | priority (p : ℚ)
  | data (d : ℕ)
deriving DecidableEq, Inhabited

/-- Presplit candidate (lines 44-80). -/
structure PresplitItem where
  value : PresplitValue
  index : ℕ
deriving DecidableEq, Inhabited

/-- Read of the member `priority`; the rational model has no bit pattern to
reinterpret, an item that holds `data` reads as `0`. -/
def PresplitItem.priority (it : PresplitItem) : ℚ :=
  match it.value with
  | .priority p => p
  | .data _ => 0

/-- Read of the member `data`; an item that holds a priority reads as `0`. -/
def PresplitItem.data (it : PresplitItem) : ℕ :=
  match it.value with
  | .priority _ => 0
  | .data d => d

/-- The part of `PrimInfo` read by the presplit pass. -/
structure PrimInfo where
  size : ℕ
  geomBounds : BBox3fa
deriving Inhabited

/-- Code used by the header but declared elsewhere. -/
structure Env where
  /-- The call `Splitter(prim)(bounds, dim, pos, left, right)`. -/
  Splitter : PrimRef → BBox3fa → ℕ → ℚ → BBox3fa × BBox3fa
  /-- Lane conversion `vint4(Vec3fa)` from float to int. -/
  vint4 : ℚ → ℤ
  /-- Morton code `bitInterleave(x, y, z)` of three unsigned coordinates. -/
  bitInterleave : ℕ → ℕ → ℕ → ℕ
  /-- Surface area `area(BBox3fa)`. -/
  area : BBox3fa → ℚ
  /-- The call `projectedPrimitiveArea(primID)` on the mesh `geomID`. -/
  projectedPrimitiveArea : ℕ → ℕ → ℚ
  /-- The libm function `powf`. -/
  powf : ℚ → ℚ → ℚ
  /-- The call `radix_sort_u32(presplitItem, tmp, numPrimitives, 1024)`. -/
  radix_sort_u32 : List PresplitItem → List PresplitItem
  /-- The method `BBox3fa::empty()`. -/
  empty : BBox3fa → Bool

/-! ## Machine arithmetic and asserts -/

/-- Subtraction of `size_t` values, wrapping modulo `2^64`. -/
def sizeSub (a b : ℕ) : ℕ := (a + 2 ^ 64 - b) % 2 ^ 64

/-- Conversion of an `int` to `unsigned int`. -/
def toUInt32 (i : ℤ) : ℕ := (i % 2 ^ 32).toNat

/-- Number of zero bits of `x` above its highest set bit, among the bits
`k-1 .. 0`. -/
def lzcntAux : ℕ → ℕ → ℕ
  | 0, _ => 0
  | k + 1, x => if x.testBit k then 0 else 1 + lzcntAux k x

/-- Count of leading zero bits of a 32 bit value. -/
def lzcnt (x : ℕ) : ℕ := lzcntAux 32 x

/-- The unsigned expression `31 - lzcnt(x)`. -/
def highBit (x : ℕ) : ℕ := (31 + 2 ^ 32 - lzcnt x) % 2 ^ 32

/-- Record of `assert(c)` at source line `line`. -/
def assertAt (line : ℕ) (c : Prop) [Decidable c] (failed : List ℕ) : List ℕ :=
  if c then failed else failed ++ [line]

/-! ## Grid codes (lines 180-196) -/

/-- Source function `computeMC`; the pair is `(mc.x, mc.y)`. -/
def computeMC (E : Env) (grid_base : Vec3fa) (grid_scale : ℚ) (ref : PrimRef) : ℕ × ℕ :=
  let lower := ref.lower
  let upper := ref.upper
  let glower : Vec3fa :=
    ⟨(lower.x - grid_base.x) * grid_scale + 1/5, (lower.y - grid_base.y) * grid_scale + 1/5,
     (lower.z - grid_base.z) * grid_scale + 1/5⟩
  let gupper : Vec3fa :=
    ⟨(upper.x - grid_base.x) * grid_scale - 1/5, (upper.y - grid_base.y) * grid_scale - 1/5,
     (upper.z - grid_base.z) * grid_scale - 1/5⟩
  let ilower : Vec3ia := ⟨⌊glower.x⌋, ⌊glower.y⌋, ⌊glower.z⌋⟩
  let iupper : Vec3ia := ⟨⌊gupper.x⌋, ⌊gupper.y⌋, ⌊gupper.z⌋⟩
  let iupper : Vec3ia :=
    ⟨if E.vint4 glower.x ≥ E.vint4 gupper.x then ilower.x else iupper.x,
     if E.vint4 glower.y ≥ E.vint4 gupper.y then ilower.y else iupper.y,
     if E.vint4 glower.z ≥ E.vint4 gupper.z then ilower.z else iupper.z⟩
  let lower_code := E.bitInterleave (toUInt32 ilower.x) (toUInt32 ilower.y) (toUInt32 ilower.z)
  let upper_code := E.bitInterleave (toUInt32 iupper.x) (toUInt32 iupper.y) (toUInt32 iupper.z)
  (lower_code, upper_code)

/-! ## Recursive splitter (lines 86-155) -/

/-- The output parameters `subPrims`, `numSubPrims` of `splitPrimitive`:
`subPrims` holds the entries `subPrims[0 .. numSubPrims)` written so far, so
that `numSubPrims` is its length and `subPrims[numSubPrims++] = prim` appends. -/
structure SubPrimBuffer where
  subPrims : List PrimRef
  failed : List ℕ
deriving DecidableEq, Inhabited

/-- The counter `numSubPrims`. -/
def SubPrimBuffer.numSubPrims (b : SubPrimBuffer) : ℕ := b.subPrims.length

/-- Grid coordinates and codes of the box inside `splitPrimitive` (lines
106-118): `(ilower, iupper, lower_code, upper_code)`. -/
def splitPrimitiveCodes (E : Env) (grid_base : Vec3fa) (grid_scale : ℚ) (prim : PrimRef) :
    Vec3ia × Vec3ia × ℕ × ℕ :=
  let lower := prim.lower
  let upper := prim.upper
  let glower : Vec3fa :=
    ⟨(lower.x - grid_base.x) * grid_scale + 1/5, (lower.y - grid_base.y) * grid_scale + 1/5,
     (lower.z - grid_base.z) * grid_scale + 1/5⟩
  let gupper : Vec3fa :=
    ⟨(upper.x - grid_base.x) * grid_scale - 1/5, (upper.y - grid_base.y) * grid_scale - 1/5,
     (upper.z - grid_base.z) * grid_scale - 1/5⟩
  let ilower : Vec3ia := ⟨⌊glower.x⌋, ⌊glower.y⌋, ⌊glower.z⌋⟩
  let iupper : Vec3ia := ⟨⌊gupper.x⌋, ⌊gupper.y⌋, ⌊gupper.z⌋⟩
  let iupper : Vec3ia :=
    ⟨if E.vint4 glower.x ≥ E.vint4 gupper.x then ilower.x else iupper.x,
     if E.vint4 glower.y ≥ E.vint4 gupper.y then ilower.y else iupper.y,
     if E.vint4 glower.z ≥ E.vint4 gupper.z then ilower.z else iupper.z⟩
  let lower_code := E.bitInterleave (toUInt32 ilower.x) (toUInt32 ilower.y) (toUInt32 ilower.z)
  let upper_code := E.bitInterleave (toUInt32 iupper.x) (toUInt32 iupper.y) (toUInt32 iupper.z)
  (ilower, iupper, lower_code, upper_code)

/-- Split axis and grid position of the split of a box whose codes differ
(lines 128-135): `(dim, isplit)`.  The expression
`iupper[dim] & ~((1<<level)-1)` is taken on the 32 bit patterns, where `~m` is
`2^32 - 1 - m`. -/
def splitGridPosition (iupper : Vec3ia) (lower_code upper_code : ℕ) : ℕ × ℕ :=
  let diff := highBit (lower_code ^^^ upper_code)
  let level := diff / 3
  let dim := diff % 3
  let isplit := toUInt32 (iupper.get dim) &&& (2 ^ 32 - 1 - ((1 <<< level) - 1))
  (dim, isplit)

/-- World space split plane of a box whose codes differ (lines 128-139):
`(dim, fsplit)`. -/
def splitPlane (grid_base : Vec3fa) (grid_extend : ℚ) (iupper : Vec3ia)
    (lower_code upper_code : ℕ) : ℕ × ℚ :=
  let pos := splitGridPosition iupper lower_code upper_code
  let dim := pos.1
  let isplit := pos.2
  let inv_grid_size : ℚ := 1 / GRID_SIZE
  let fsplit := grid_base.get dim + isplit * inv_grid_size * grid_extend
  (dim, fsplit)

/-- Source function `splitPrimitive`. -/
def splitPrimitive (E : Env) (prim : PrimRef) (geomID primID : ℕ) (split_level : ℕ)
    (grid_base : Vec3fa) (grid_scale grid_extend : ℚ) (buf : SubPrimBuffer) : SubPrimBuffer :=
  match split_level with
  | 0 =>
    let failed := assertAt 98 (0 ≤ MAX_PRESPLITS_PER_PRIMITIVE_LOG) buf.failed
    let failed := assertAt 101 (buf.numSubPrims < MAX_PRESPLITS_PER_PRIMITIVE) failed
    ⟨buf.subPrims ++ [prim], failed⟩
  | level + 1 =>
    let failed := assertAt 98 (level + 1 ≤ MAX_PRESPLITS_PER_PRIMITIVE_LOG) buf.failed
    let codes := splitPrimitiveCodes E grid_base grid_scale prim
    let iupper := codes.2.1
    let lower_code := codes.2.2.1
    let upper_code := codes.2.2.2
    if lower_code = upper_code then
      let failed := assertAt 123 (buf.numSubPrims < MAX_PRESPLITS_PER_PRIMITIVE) failed
      ⟨buf.subPrims ++ [prim], failed⟩
    else
      let plane := splitPlane grid_base grid_extend iupper lower_code upper_code
      let dim := plane.1
      let fsplit := plane.2
      let failed := assertAt 141 (prim.lower.get dim ≤ fsplit ∧ prim.upper.get dim ≥ fsplit) failed
      let lr := E.Splitter prim prim.bounds dim fsplit
      let left := lr.1
      let right := lr.2
      let failed := assertAt 148 (E.empty left = false) failed
      let failed := assertAt 149 (E.empty right = false) failed
      let buf1 := splitPrimitive E (PrimRef.ofBounds left geomID primID) geomID primID level
        grid_base grid_scale grid_extend ⟨buf.subPrims, failed⟩
      splitPrimitive E (PrimRef.ofBounds right geomID primID) geomID primID level
        grid_base grid_scale grid_extend buf1


/-! ## Priority (lines 61-77) -/

/-- Source function `PresplitItem::compute_priority` (branch `NEW_PRIO == 1`) as
a number: the value of the source when the radicand
`(area_aabb - 2*area_prim) * powf(1.5, diff)` is not negative.  For a negative
radicand the source returns NaN, see `ieee.PresplitItem.compute_priority`. -/
def PresplitItem.compute_priority (E : Env) (ref : PrimRef) (mc : ℕ × ℕ) : ℚ :=
  let geomID := ref.geomID
  let primID := ref.primID
  let area_aabb := E.area ref.bounds
  let area_prim := E.projectedPrimitiveArea geomID primID
  let diff := highBit (mc.1 ^^^ mc.2)
  E.powf ((area_aabb - 2 * area_prim) * E.powf (3 / 2) diff) (1 / 4)

/-! ## The scene overload of `createPrimRefArray_presplit` (lines 198-393)

The generation of the references (lines 201-218) is done by the geometries;
the embedding starts from its result, the array `prims` and the summary
`pinfo`. -/

/-- Grid parameters (lines 241-244). -/
structure Grid where
  grid_base : Vec3fa
  grid_scale : ℚ
  grid_extend : ℚ
deriving DecidableEq, Inhabited

/-- Lines 241-244. -/
def computeGrid (pinfo : PrimInfo) : Grid :=
  let grid_base := pinfo.geomBounds.lower
  let grid_diag := pinfo.geomBounds.size
  let grid_extend := max grid_diag.x (max grid_diag.y grid_diag.z)
  let grid_scale := if grid_extend = 0 then 0 else GRID_SIZE / grid_extend
  ⟨grid_base, grid_scale, grid_extend⟩

/-- Lines 249-257: the presplit items of the first `numPrimitives` references. -/
def initPresplitItems (E : Env) (g : Grid) (prims : List PrimRef) (numPrimitives : ℕ) :
    List PresplitItem :=
  (List.range numPrimitives).map fun i =>
    let mc := computeMC E g.grid_base g.grid_scale (prims.getD i default)
    ⟨.priority (if mc.1 ≠ mc.2 then
        PresplitItem.compute_priority E (prims.getD i default) mc else 0), i⟩

/-- The reduction `psum` of lines 247-259. -/
def prioritySum (items : List PresplitItem) : ℚ :=
  (items.map PresplitItem.priority).sum

/-- Search for the least `k` with `x ≤ 2^k`, upwards from `k`. -/
def ceilLog2Aux (x : ℚ) : ℕ → ℕ → ℕ
  | 0, k => k
  | fuel + 1, k => if x ≤ 2 ^ k then k else ceilLog2Aux x fuel (k + 1)

/-- Exact value of `ceilf(logf(x)/logf(2.0f))` for `x ≥ 1`: the least `k`
with `x ≤ 2^k` (which is at most `⌈x⌉`). -/
def ceilLog2 (x : ℚ) : ℕ := ceilLog2Aux x ⌈x⌉₊ 0

/-- Body of the loop of lines 264-275 for one item, with the violated asserts. -/
def assignSplitLevel (numPrimitivesToSplit : ℕ) (inv_psum : ℚ) (item : PresplitItem) :
    PresplitItem × List ℕ :=
  if item.priority > 0 then
    let rel_p := (numPrimitivesToSplit : ℚ) * item.priority * inv_psum
    if rel_p ≥ PRIORITY_CUTOFF_THRESHOLD then
      let p : ℚ := max (min (ceilLog2 rel_p : ℚ) (MAX_PRESPLITS_PER_PRIMITIVE_LOG : ℚ)) 1
      (⟨.priority p, item.index⟩,
        assertAt 271 (p ≥ 1 ∧ p ≤ (MAX_PRESPLITS_PER_PRIMITIVE_LOG : ℚ)) [])
    else
      (⟨.priority 0, item.index⟩, [])
  else
    (item, [])

/-- Lines 262-276. -/
def computeSplitLevels (numPrimitivesToSplit : ℕ) (items : List PresplitItem) :
    List PresplitItem × List ℕ :=
  let inv_psum := 1 / prioritySum items
  let rs := items.map (assignSplitLevel numPrimitivesToSplit inv_psum)
  (rs.map Prod.fst, (rs.map Prod.snd).flatten)

/-- The loop of lines 289-296; returns the final `r`.  The first argument
bounds the number of iterations. -/
def binarySearch (presplitItem : List PresplitItem) : ℕ → ℕ → ℕ → ℕ
  | 0, _, r => r
  | fuel + 1, l, r =>
    if l + 1 < r then
      let mid := (l + r) / 2
      if (presplitItem.getD mid default).priority < PRIORITY_BINARY_SEACH_THRESHOLD then
        binarySearch presplitItem fuel mid r
      else
        binarySearch presplitItem fuel l mid
    else r

/-- Body of the loop of lines 311-326 for one item: the item with its packed
`data`, the number of extra sub-primitives and the violated asserts. -/
def measureItem (E : Env) (g : Grid) (prims : List PrimRef) (item : PresplitItem) :
    PresplitItem × ℕ × List ℕ :=
  let failed := assertAt 314 (item.priority ≥ 1) []
  let primrefID := item.index
  let prio := item.priority
  let geomID := (prims.getD primrefID default).geomID
  let primID := (prims.getD primrefID default).primID
  let split_levels := ⌊prio⌋₊
  let buf := splitPrimitive E (prims.getD primrefID default) geomID primID split_levels
    g.grid_base g.grid_scale g.grid_extend ⟨[], failed⟩
  let numSubPrims := buf.numSubPrims
  let failed := assertAt 322 (numSubPrims ≠ 0) buf.failed
  let numSubPrims := sizeSub numSubPrims 1
  (⟨.data (((numSubPrims <<< MAX_PRESPLITS_PER_PRIMITIVE_LOG) ||| split_levels) % 2 ^ 32),
      item.index⟩, numSubPrims, failed)

/-- Lines 309-328 over the range `[r, numPrimitives)` of the array
`presplitItem` (which has `numPrimitives` entries): the updated array, the sum
`totalNumSubPrims` and the violated asserts. -/
def measureRange (E : Env) (g : Grid) (prims : List PrimRef) (presplitItem : List PresplitItem)
    (r : ℕ) : List PresplitItem × ℕ × List ℕ :=
  let ms := (presplitItem.drop r).map (measureItem E g prims)
  (presplitItem.take r ++ ms.map (fun m => m.1), (ms.map (fun m => m.2.1)).sum,
    (ms.map (fun m => m.2.2)).flatten)

/-- The loop of line 335-340; returns `new_r` at the exit of the loop.  The
first argument bounds the number of iterations. -/
def shrinkLoop (presplitItem : List PresplitItem) (r numPrimitivesToSplit : ℕ) :
    ℕ → ℕ → ℕ → ℕ
  | 0, new_r, _ => new_r
  | fuel + 1, new_r, sum =>
    if new_r ≥ r then
      let numSubPrims := (presplitItem.getD new_r default).data >>> MAX_PRESPLITS_PER_PRIMITIVE_LOG
      if sum + numSubPrims ≥ numPrimitivesToSplit then new_r
      else shrinkLoop presplitItem r numPrimitivesToSplit fuel (sizeSub new_r 1)
        (sum + numSubPrims)
    else new_r

/-- Lines 331-343: the start of the range that is committed. -/
def shrinkRange (presplitItem : List PresplitItem) (r numPrimitives numPrimitivesToSplit : ℕ)
    (totalNumSubPrims : ℕ) : ℕ :=
  if totalNumSubPrims > numPrimitivesToSplit then
    let new_r := sizeSub numPrimitives 1
    let new_r := shrinkLoop presplitItem r numPrimitivesToSplit numPrimitives new_r 0
    (new_r + 1) % 2 ^ 64
  else r

/-- State of the commit loop: the array `prims`, the atomic `offset` and the
violated asserts. -/
structure CommitState where
  prims : List PrimRef
  offset : ℕ
  failed : List ℕ
deriving DecidableEq, Inhabited

/-- Body of the loop of lines 350-368 for one item. -/
def commitItem (E : Env) (g : Grid) (numPrimitives alloc_numPrimitives : ℕ) (st : CommitState)
    (item : PresplitItem) : CommitState :=
  let primrefID := item.index
  let geomID := (st.prims.getD primrefID default).geomID
  let primID := (st.prims.getD primrefID default).primID
  let split_levels := item.data &&& ((1 <<< MAX_PRESPLITS_PER_PRIMITIVE_LOG) - 1)
  let failed := assertAt 358 (split_levels ≠ 0) st.failed
  let failed := assertAt 359 (split_levels ≤ MAX_PRESPLITS_PER_PRIMITIVE_LOG) failed
  let buf := splitPrimitive E (st.prims.getD primrefID default) geomID primID split_levels
    g.grid_base g.grid_scale g.grid_extend ⟨[], failed⟩
  let subPrims := buf.subPrims
  let numSubPrims := buf.numSubPrims
  let newID := numPrimitives + st.offset
  let offset := st.offset + sizeSub numSubPrims 1
  let failed := assertAt 364 (newID + numSubPrims ≤ alloc_numPrimitives) buf.failed
  let prims := st.prims.set primrefID (subPrims.getD 0 default)
  let prims := (List.range' 1 (numSubPrims - 1)).foldl
    (fun ps i => ps.set (newID + i - 1) (subPrims.getD i default)) prims
  ⟨prims, offset, failed⟩

/-- Lines 347-369 over the range `[r, numPrimitives)` of `presplitItem`. -/
def commitRange (E : Env) (g : Grid) (numPrimitives alloc_numPrimitives : ℕ)
    (prims : List PrimRef) (presplitItem : List PresplitItem) (r : ℕ) (failed : List ℕ) :
    CommitState :=
  (presplitItem.drop r).foldl (commitItem E g numPrimitives alloc_numPrimitives)
    ⟨prims, 0, failed⟩

/-- Values of one run of `createPrimRefArray_presplit`: the locals named in
the properties and the outputs `prims`, `numPrimitives` (the size of the
returned summary). -/
structure PresplitRun where
  numPrimitivesToSplit : ℕ
  /-- The array `presplitItem` after the sort of line 279. -/
  sorted : List PresplitItem
  /-- The index `r` after the binary search (line 296). -/
  searched : ℕ
  /-- The array `presplitItem` after the measurement (line 328). -/
  presplitItem : List PresplitItem
  totalNumSubPrims : ℕ
  /-- The index `r` at line 346. -/
  r : ℕ
  prims : List PrimRef
  numPrimitives : ℕ
  failed : List ℕ
deriving DecidableEq, Inhabited

/-- Source function `createPrimRefArray_presplit` (scene overload), from line
220 on. -/
def createPrimRefArray_presplit (E : Env) (pinfo : PrimInfo) (prims : List PrimRef) :
    PresplitRun :=
  let numPrimitives := pinfo.size
  let alloc_numPrimitives := prims.length
  let numPrimitivesToSplit := sizeSub alloc_numPrimitives numPrimitives
  let g := computeGrid pinfo
  let presplitItem := initPresplitItems E g prims numPrimitives
  let leveled := computeSplitLevels numPrimitivesToSplit presplitItem
  let presplitItem := E.radix_sort_u32 leveled.1
  let r := binarySearch presplitItem numPrimitives 0 numPrimitives
  if r < numPrimitives then
    let failed := assertAt 306 ((presplitItem.getD r default).priority ≥ 1) leveled.2
    let measured := measureRange E g prims presplitItem r
    let totalNumSubPrims := measured.2.1
    let r1 := shrinkRange measured.1 r numPrimitives numPrimitivesToSplit totalNumSubPrims
    let st := commitRange E g numPrimitives alloc_numPrimitives prims measured.1 r1
      (failed ++ measured.2.2)
    ⟨numPrimitivesToSplit, presplitItem, r, measured.1, totalNumSubPrims, r1, st.prims,
      numPrimitives + st.offset, st.failed⟩
  else
    ⟨numPrimitivesToSplit, presplitItem, r, presplitItem, 0, r, prims, numPrimitives, leveled.2⟩

/-- The two references `splitPrimitive` recurses into when the codes of `prim`
differ (lines 128-153). -/
def splitChildren (E : Env) (prim : PrimRef) (geomID primID : ℕ) (grid_base : Vec3fa)
    (grid_scale grid_extend : ℚ) : PrimRef × PrimRef :=
  let codes := splitPrimitiveCodes E grid_base grid_scale prim
  let plane := splitPlane grid_base grid_extend codes.2.1 codes.2.2.1 codes.2.2.2
  let lr := E.Splitter prim prim.bounds plane.1 plane.2
  (PrimRef.ofBounds lr.1 geomID primID, PrimRef.ofBounds lr.2 geomID primID)

/-! ## Vocabulary of the properties -/

/-- The bounding hull of `boxes` covers `box`: on every axis some box reaches
down to the lower bound of `box` and some box reaches up to its upper bound. -/
def hullCovers (boxes : List BBox3fa) (box : BBox3fa) : Prop :=
  ∀ dim : ℕ, (∃ b ∈ boxes, b.lower.get dim ≤ box.lower.get dim) ∧
    (∃ b ∈ boxes, box.upper.get dim ≤ b.upper.get dim)

/-- The splitter returns two boxes whose hull covers the box it was given. -/
def SplitterCovers (E : Env) : Prop :=
  ∀ (prim : PrimRef) (box : BBox3fa) (dim : ℕ) (pos : ℚ),
    hullCovers [(E.Splitter prim box dim pos).1, (E.Splitter prim box dim pos).2] box

/-- The sort returns its input reordered by ascending priority. -/
def SortSpec (E : Env) : Prop :=
  ∀ items : List PresplitItem,
    (E.radix_sort_u32 items).Perm items ∧
    (E.radix_sort_u32 items).Pairwise (fun a b => a.priority ≤ b.priority)

/-- Number of sub-boxes that `splitPrimitive` writes for the reference
`prims[index]` at split depth `depth`. -/
def yieldOf (E : Env) (g : Grid) (prims : List PrimRef) (index depth : ℕ) : ℕ :=
  (splitPrimitive E (prims.getD index default) (prims.getD index default).geomID
    (prims.getD index default).primID depth g.grid_base g.grid_scale g.grid_extend
    ⟨[], []⟩).subPrims.length

/-- Sub-boxes that `splitPrimitive` writes for the reference `prims[index]` at
split depth `depth`. -/
def subPrimsOf (E : Env) (g : Grid) (prims : List PrimRef) (index depth : ℕ) : List PrimRef :=
  (splitPrimitive E (prims.getD index default) (prims.getD index default).geomID
    (prims.getD index default).primID depth g.grid_base g.grid_scale g.grid_extend
    ⟨[], []⟩).subPrims

/-- Total of `yield - 1` over the items `sel`, the yields taken on the array
`prims` at the depth stored in each item. -/
def extrasOf (E : Env) (g : Grid) (prims : List PrimRef) (sel : List PresplitItem) : ℕ :=
  (sel.map (fun it => yieldOf E g prims it.index (it.data &&& 31) - 1)).sum

/-- Number of extra sub-primitives stored in the packed `data` of an item. -/
def PresplitItem.extra (it : PresplitItem) : ℕ := it.data >>> MAX_PRESPLITS_PER_PRIMITIVE_LOG

/-- Split depth stored in the packed `data` of an item. -/
def PresplitItem.depth (it : PresplitItem) : ℕ :=
  it.data &&& ((1 <<< MAX_PRESPLITS_PER_PRIMITIVE_LOG) - 1)

/-- Sum of the stored extra sub-primitives over the range `[k, numPrimitives)`
of an array `presplitItem` with `numPrimitives` entries. -/
def extraSum (presplitItem : List PresplitItem) (k : ℕ) : ℕ :=
  ((presplitItem.drop k).map PresplitItem.extra).sum

/-- A priority after line 276: not positive, or a split depth between 1 and 5. -/
def IsLevel (it : PresplitItem) : Prop :=
  it.priority ≤ 0 ∨ ∃ d : ℕ, 1 ≤ d ∧ d ≤ 5 ∧ it.value = .priority (d : ℚ)

/-! ## A concrete environment

Used to run the embedding on concrete inputs: boxes are clipped at the split
plane, the Morton code interleaves ten bits per axis with `x` in bit 0, the
lane conversion rounds to the nearest integer, the sort is an insertion sort. -/

/-- Clip of a box at the plane `pos` on axis `dim`. -/
def clipBox (b : BBox3fa) (dim : ℕ) (pos : ℚ) : BBox3fa × BBox3fa :=
  if dim = 0 then
    (⟨b.lower, ⟨pos, b.upper.y, b.upper.z⟩⟩, ⟨⟨pos, b.lower.y, b.lower.z⟩, b.upper⟩)
  else if dim = 1 then
    (⟨b.lower, ⟨b.upper.x, pos, b.upper.z⟩⟩, ⟨⟨b.lower.x, pos, b.lower.z⟩, b.upper⟩)
  else
    (⟨b.lower, ⟨b.upper.x, b.upper.y, pos⟩⟩, ⟨⟨b.lower.x, b.lower.y, pos⟩, b.upper⟩)

/-- Three way interleave of the low `k` bits of `x`, `y`, `z`, with `x` in bit 0. -/
def interleaveBits : ℕ → ℕ → ℕ → ℕ → ℕ
  | 0, _, _, _ => 0
  | k + 1, x, y, z =>
    x % 2 + 2 * (y % 2) + 4 * (z % 2) + 8 * interleaveBits k (x / 2) (y / 2) (z / 2)

/-- Insertion of an item into a list sorted by priority, before its equals. -/
def insertItem (a : PresplitItem) : List PresplitItem → List PresplitItem
  | [] => [a]
  | b :: l => if a.priority ≤ b.priority then a :: b :: l else b :: insertItem a l

/-- Stable insertion sort by ascending priority. -/
def sortItems : List PresplitItem → List PresplitItem
  | [] => []
  | a :: l => insertItem a (sortItems l)

/-- Surface area of a box. -/
def boxArea (b : BBox3fa) : ℚ :=
  let d := b.size
  2 * (d.x * d.y + d.y * d.z + d.z * d.x)

/-- Bit by bit integer square root: the bits `2^(k-1) .. 2^0` are added to `r`
while the square stays at most `n`. -/
def intSqrtAux : ℕ → ℕ → ℕ → ℕ
  | 0, _, r => r
  | k + 1, n, r => if (r + 2 ^ k) * (r + 2 ^ k) ≤ n then intSqrtAux k n (r + 2 ^ k)
      else intSqrtAux k n r

/-- Integer square root, rounded down, of a number below `2^128`. -/
def intSqrt (n : ℕ) : ℕ := intSqrtAux 64 n 0

/-- Square root of a non-negative rational, exact on squares of rationals and
rounded down in numerator and denominator otherwise. -/
def sqrtQ (x : ℚ) : ℚ := (intSqrt x.num.toNat : ℚ) / (intSqrt x.den : ℚ)

/-- Rational stand-in for `powf(x, y)`: the fourth root (two square roots) when
`y` is `1/4`, and the integer power `x ^ y` otherwise. -/
def samplePowf (x y : ℚ) : ℚ := if y = 1 / 4 then sqrtQ (sqrtQ x) else x ^ ⌊y⌋₊

/-- Concrete environment.  The primitives of geometry `0` have projected area
`0`, those of geometry `1` have `741/256` and all others `29973/10000`; with
the unit cube as box this gives priorities in the proportion `5 : 2`. -/
def sampleEnv : Env where
  Splitter := fun _ b dim pos => clipBox b dim pos
  vint4 := fun x => ⌊x + 1 / 2⌋
  bitInterleave := interleaveBits 10
  area := boxArea
  projectedPrimitiveArea := fun geomID _ =>
    if geomID = 0 then 0 else if geomID = 1 then 741 / 256 else 29973 / 10000
  powf := samplePowf
  radix_sort_u32 := sortItems
  empty := fun b =>
    decide (b.lower.x > b.upper.x ∨ b.lower.y > b.upper.y ∨ b.lower.z > b.upper.z)

/-- A point primitive at the origin. -/
def samplePoint : PrimRef := ⟨⟨0, 0, 0⟩, ⟨0, 0, 0⟩, 0, 0⟩

/-- A primitive whose box is the unit cube. -/
def sampleCube : PrimRef := ⟨⟨0, 0, 0⟩, ⟨1, 1, 1⟩, 0, 1⟩

/-- Summary of the two references `samplePoint`, `sampleCube`. -/
def samplePrimInfo : PrimInfo := ⟨2, ⟨⟨0, 0, 0⟩, ⟨1, 1, 1⟩⟩⟩

/-- Input of capacity 5 with two references: a point and the unit cube. -/
def samplePrims : List PrimRef :=
  [samplePoint, sampleCube, default, default, default]

/-- Input of capacity 10 with four references: a point and three unit cubes of
the geometries `1`, `1` and `2`. -/
def samplePrims4 : List PrimRef :=
  [samplePoint, ⟨⟨0, 0, 0⟩, ⟨1, 1, 1⟩, 1, 0⟩, ⟨⟨0, 0, 0⟩, ⟨1, 1, 1⟩, 1, 1⟩,
    ⟨⟨0, 0, 0⟩, ⟨1, 1, 1⟩, 2, 0⟩, default, default, default, default, default, default]

/-- Summary of the four references of `samplePrims4`. -/
def samplePrimInfo4 : PrimInfo := ⟨4, ⟨⟨0, 0, 0⟩, ⟨1, 1, 1⟩⟩⟩

/-- Input of capacity 4 with the unit cube as only reference. -/
def samplePrims1 : List PrimRef := [sampleCube, default, default, default]

/-- Summary of the single reference of `samplePrims1`. -/
def samplePrimInfo1 : PrimInfo := ⟨1, ⟨⟨0, 0, 0⟩, ⟨1, 1, 1⟩⟩⟩

/-- Measured array of the run on `samplePrims4`: a point that was not selected
and three cubes with `(extra, depth)` equal to `(1, 1)`, `(3, 2)`, `(3, 2)`. -/
def sampleMeasured4 : List PresplitItem :=
  [⟨.priority 0, 0⟩, ⟨.data 33, 3⟩, ⟨.data 98, 1⟩, ⟨.data 98, 2⟩]

/-! ## Priorities that may be NaN

The definitions above take every `float` for a number.  The libm function
`powf` returns NaN for a negative base and the exponent `1/4` of line 70, and
a NaN differs from every number in the comparisons, in the sum of line 256, in
the order of the sort keys and in the conversion of line 319.  The definitions
of the namespace `ieee` repeat lines 44-80 and 246-376 for a `float` that is a
number or NaN; a run in which no priority is NaN is the run described by the
definitions above (theorem `run_toIeee`).  Rounding and infinities are not
modelled. -/

namespace ieee

/-- A `float`: a number or NaN. -/
inductive Float32 where
  | num (q : ℚ)
  | nan
deriving DecidableEq

instance : Inhabited Float32 := ⟨.num 0⟩

/-- The sum `a + b`; NaN when an operand is NaN. -/
def Float32.add : Float32 → Float32 → Float32
  | .num a, .num b => .num (a + b)
  | _, _ => .nan

/-- The product `a * b`; NaN when an operand is NaN. -/
def Float32.mul : Float32 → Float32 → Float32
  | .num a, .num b => .num (a * b)
  | _, _ => .nan

/-- The quotient `a / b`; NaN when an operand is NaN. -/
def Float32.div : Float32 → Float32 → Float32
  | .num a, .num b => .num (a / b)
  | _, _ => .nan

/-- The comparison `a < b`; false when an operand is NaN. -/
def Float32.lt : Float32 → Float32 → Bool
  | .num a, .num b => decide (a < b)
  | _, _ => false

/-- The comparison `a <= b`; false when an operand is NaN. -/
def Float32.le : Float32 → Float32 → Bool
  | .num a, .num b => decide (a ≤ b)
  | _, _ => false

/-- The comparison `a > b`; false when an operand is NaN. -/
def Float32.gt (a b : Float32) : Bool := Float32.lt b a

/-- The comparison `a >= b`; false when an operand is NaN. -/
def Float32.ge (a b : Float32) : Bool := Float32.le b a

/-- The function `min(a, b)` as `a < b ? a : b`. -/
def Float32.min (a b : Float32) : Float32 := if Float32.lt a b then a else b

/-- The function `max(a, b)` as `a < b ? b : a`. -/
def Float32.max (a b : Float32) : Float32 := if Float32.lt a b then b else a

/-- The conversion `(unsigned int)a`: a number is truncated.  The conversion of
NaN is undefined in C++; the value 0 is the one the x86-64 conversion through
a 64 bit register (`cvttss2si`, low 32 bits) produces. -/
def Float32.toUInt : Float32 → ℕ
  | .num a => ⌊a⌋₊
  | .nan => 0

/-- The libm function `powf(x, y)`: NaN for a NaN base and for a negative base
with an exponent that is not an integer (the domain error of the C standard),
and the number `E.powf x y` otherwise. -/
def powf (E : Env) : Float32 → ℚ → Float32
  | .num x, y => if x < 0 ∧ y.den ≠ 1 then .nan else .num (E.powf x y)
  | .nan, _ => .nan

/-- The expression `ceilf(logf(x)/logf(2.0f))` for `x ≥ 1`; NaN for NaN. -/
def ceilLog2 : Float32 → Float32
  | .num x => .num (embree.ceilLog2 x)
  | .nan => .nan

/-- The union `{ float priority; unsigned int data; }` of `PresplitItem`. -/
inductive PresplitValue where
  | priority (p : Float32)
  | data (d : ℕ)
deriving DecidableEq, Inhabited

/-- Presplit candidate (lines 44-80). -/
structure PresplitItem where
  value : PresplitValue
  index : ℕ
deriving DecidableEq, Inhabited

/-- Read of the member `priority`; an item that holds `data` reads as `0`. -/
def PresplitItem.priority (it : PresplitItem) : Float32 :=
  match it.value with
  | .priority p => p
  | .data _ => .num 0

/-- Read of the member `data`; an item that holds a priority reads as `0`. -/
def PresplitItem.data (it : PresplitItem) : ℕ :=
  match it.value with
  | .priority _ => 0
  | .data d => d

/-- Source function `PresplitItem::compute_priority` (branch `NEW_PRIO == 1`). -/
def PresplitItem.compute_priority (E : Env) (ref : PrimRef) (mc : ℕ × ℕ) : Float32 :=
  let geomID := ref.geomID
  let primID := ref.primID
  let area_aabb := E.area ref.bounds
  let area_prim := E.projectedPrimitiveArea geomID primID
  let diff := highBit (mc.1 ^^^ mc.2)
  powf E (Float32.mul (.num (area_aabb - 2 * area_prim)) (powf E (.num (3 / 2)) diff)) (1 / 4)

/-- Lines 249-257: the presplit items of the first `numPrimitives` references. -/
def initPresplitItems (E : Env) (g : Grid) (prims : List PrimRef) (numPrimitives : ℕ) :
    List PresplitItem :=
  (List.range numPrimitives).map fun i =>
    let mc := computeMC E g.grid_base g.grid_scale (prims.getD i default)
    ⟨.priority (if mc.1 ≠ mc.2 then
        PresplitItem.compute_priority E (prims.getD i default) mc else .num 0), i⟩

/-- The reduction `psum` of lines 247-259, summed in index order from `0.0f`. -/
def prioritySum (items : List PresplitItem) : Float32 :=
  (items.map PresplitItem.priority).foldl Float32.add (.num 0)

/-- Body of the loop of lines 264-275 for one item, with the violated asserts. -/
def assignSplitLevel (numPrimitivesToSplit : ℕ) (inv_psum : Float32) (item : PresplitItem) :
    PresplitItem × List ℕ :=
  if Float32.gt item.priority (.num 0) then
    let rel_p := Float32.mul (Float32.mul (.num numPrimitivesToSplit) item.priority) inv_psum
    if Float32.ge rel_p (.num PRIORITY_CUTOFF_THRESHOLD) then
      let p := Float32.max
        (Float32.min (ceilLog2 rel_p) (.num MAX_PRESPLITS_PER_PRIMITIVE_LOG)) (.num 1)
      (⟨.priority p, item.index⟩,
        assertAt 271 (Float32.ge p (.num 1) = true ∧
          Float32.le p (.num MAX_PRESPLITS_PER_PRIMITIVE_LOG) = true) [])
    else
      (⟨.priority (.num 0), item.index⟩, [])
  else
    (item, [])

/-- Lines 262-276. -/
def computeSplitLevels (numPrimitivesToSplit : ℕ) (items : List PresplitItem) :
    List PresplitItem × List ℕ :=
  let inv_psum := Float32.div (.num 1) (prioritySum items)
  let rs := items.map (assignSplitLevel numPrimitivesToSplit inv_psum)
  (rs.map Prod.fst, (rs.map Prod.snd).flatten)

/-- The loop of lines 289-296; returns the final `r`.  The first argument
bounds the number of iterations. -/
def binarySearch (presplitItem : List PresplitItem) : ℕ → ℕ → ℕ → ℕ
  | 0, _, r => r
  | fuel + 1, l, r =>
    if l + 1 < r then
      let mid := (l + r) / 2
      if Float32.lt (presplitItem.getD mid default).priority
          (.num PRIORITY_BINARY_SEACH_THRESHOLD) then
        binarySearch presplitItem fuel mid r
      else
        binarySearch presplitItem fuel l mid
    else r

/-- Body of the loop of lines 311-326 for one item: the item with its packed
`data`, the number of extra sub-primitives and the violated asserts. -/
def measureItem (E : Env) (g : Grid) (prims : List PrimRef) (item : PresplitItem) :
    PresplitItem × ℕ × List ℕ :=
  let failed := assertAt 314 (Float32.ge item.priority (.num 1) = true) []
  let primrefID := item.index
  let prio := item.priority
  let geomID := (prims.getD primrefID default).geomID
  let primID := (prims.getD primrefID default).primID
  let split_levels := Float32.toUInt prio
  let buf := splitPrimitive E (prims.getD primrefID default) geomID primID split_levels
    g.grid_base g.grid_scale g.grid_extend ⟨[], failed⟩
  let numSubPrims := buf.numSubPrims
  let failed := assertAt 322 (numSubPrims ≠ 0) buf.failed
  let numSubPrims := sizeSub numSubPrims 1
  (⟨.data (((numSubPrims <<< MAX_PRESPLITS_PER_PRIMITIVE_LOG) ||| split_levels) % 2 ^ 32),
      item.index⟩, numSubPrims, failed)

/-- Lines 309-328 over the range `[r, numPrimitives)` of the array
`presplitItem`: the updated array, the sum `totalNumSubPrims` and the violated
asserts. -/
def measureRange (E : Env) (g : Grid) (prims : List PrimRef) (presplitItem : List PresplitItem)
    (r : ℕ) : List PresplitItem × ℕ × List ℕ :=
  let ms := (presplitItem.drop r).map (measureItem E g prims)
  (presplitItem.take r ++ ms.map (fun m => m.1), (ms.map (fun m => m.2.1)).sum,
    (ms.map (fun m => m.2.2)).flatten)

/-- The loop of line 335-340; returns `new_r` at the exit of the loop.  The
first argument bounds the number of iterations. -/
def shrinkLoop (presplitItem : List PresplitItem) (r numPrimitivesToSplit : ℕ) :
    ℕ → ℕ → ℕ → ℕ
  | 0, new_r, _ => new_r
  | fuel + 1, new_r, sum =>
    if new_r ≥ r then
      let numSubPrims := (presplitItem.getD new_r default).data >>> MAX_PRESPLITS_PER_PRIMITIVE_LOG
      if sum + numSubPrims ≥ numPrimitivesToSplit then new_r
      else shrinkLoop presplitItem r numPrimitivesToSplit fuel (sizeSub new_r 1)
        (sum + numSubPrims)
    else new_r

/-- Lines 331-343: the start of the range that is committed. -/
def shrinkRange (presplitItem : List PresplitItem) (r numPrimitives numPrimitivesToSplit : ℕ)
    (totalNumSubPrims : ℕ) : ℕ :=
  if totalNumSubPrims > numPrimitivesToSplit then
    let new_r := sizeSub numPrimitives 1
    let new_r := shrinkLoop presplitItem r numPrimitivesToSplit numPrimitives new_r 0
    (new_r + 1) % 2 ^ 64
  else r

/-- Body of the loop of lines 350-368 for one item. -/
def commitItem (E : Env) (g : Grid) (numPrimitives alloc_numPrimitives : ℕ) (st : CommitState)
    (item : PresplitItem) : CommitState :=
  let primrefID := item.index
  let geomID := (st.prims.getD primrefID default).geomID
  let primID := (st.prims.getD primrefID default).primID
  let split_levels := item.data &&& ((1 <<< MAX_PRESPLITS_PER_PRIMITIVE_LOG) - 1)
  let failed := assertAt 358 (split_levels ≠ 0) st.failed
  let failed := assertAt 359 (split_levels ≤ MAX_PRESPLITS_PER_PRIMITIVE_LOG) failed
  let buf := splitPrimitive E (st.prims.getD primrefID default) geomID primID split_levels
    g.grid_base g.grid_scale g.grid_extend ⟨[], failed⟩
  let subPrims := buf.subPrims
  let numSubPrims := buf.numSubPrims
  let newID := numPrimitives + st.offset
  let offset := st.offset + sizeSub numSubPrims 1
  let failed := assertAt 364 (newID + numSubPrims ≤ alloc_numPrimitives) buf.failed
  let prims := st.prims.set primrefID (subPrims.getD 0 default)
  let prims := (List.range' 1 (numSubPrims - 1)).foldl
    (fun ps i => ps.set (newID + i - 1) (subPrims.getD i default)) prims
  ⟨prims, offset, failed⟩

/-- Lines 347-369 over the range `[r, numPrimitives)` of `presplitItem`. -/
def commitRange (E : Env) (g : Grid) (numPrimitives alloc_numPrimitives : ℕ)
    (prims : List PrimRef) (presplitItem : List PresplitItem) (r : ℕ) (failed : List ℕ) :
    CommitState :=
  (presplitItem.drop r).foldl (commitItem E g numPrimitives alloc_numPrimitives)
    ⟨prims, 0, failed⟩

/-- Values of one run of `createPrimRefArray_presplit`, as in the record
`embree.PresplitRun`. -/
structure PresplitRun where
  numPrimitivesToSplit : ℕ
  /-- The array `presplitItem` after the sort of line 279. -/
  sorted : List PresplitItem
  /-- The index `r` after the binary search (line 296). -/
  searched : ℕ
  /-- The array `presplitItem` after the measurement (line 328). -/
  presplitItem : List PresplitItem
  totalNumSubPrims : ℕ
  /-- The index `r` at line 346. -/
  r : ℕ
  prims : List PrimRef
  numPrimitives : ℕ
  failed : List ℕ
deriving DecidableEq, Inhabited

/-- Source function `createPrimRefArray_presplit` (scene overload), from line
220 on; `radix_sort_u32` is the call of line 279 on items whose priority may
be NaN. -/
def createPrimRefArray_presplit (E : Env)
    (radix_sort_u32 : List PresplitItem → List PresplitItem) (pinfo : PrimInfo)
    (prims : List PrimRef) : PresplitRun :=
  let numPrimitives := pinfo.size
  let alloc_numPrimitives := prims.length
  let numPrimitivesToSplit := sizeSub alloc_numPrimitives numPrimitives
  let g := computeGrid pinfo
  let presplitItem := initPresplitItems E g prims numPrimitives
  let leveled := computeSplitLevels numPrimitivesToSplit presplitItem
  let presplitItem := radix_sort_u32 leveled.1
  let r := binarySearch presplitItem numPrimitives 0 numPrimitives
  if r < numPrimitives then
    let failed := assertAt 306
      (Float32.ge (presplitItem.getD r default).priority (.num 1) = true) leveled.2
    let measured := measureRange E g prims presplitItem r
    let totalNumSubPrims := measured.2.1
    let r1 := shrinkRange measured.1 r numPrimitives numPrimitivesToSplit totalNumSubPrims
    let st := commitRange E g numPrimitives alloc_numPrimitives prims measured.1 r1
      (failed ++ measured.2.2)
    ⟨numPrimitivesToSplit, presplitItem, r, measured.1, totalNumSubPrims, r1, st.prims,
      numPrimitives + st.offset, st.failed⟩
  else
    ⟨numPrimitivesToSplit, presplitItem, r, presplitItem, 0, r, prims, numPrimitives, leveled.2⟩

/-- Order of the sort keys (the bit patterns read as `unsigned`, lines 52-55)
of two priorities that are not negative: numbers by value, NaN above every
number. -/
def keyLe : Float32 → Float32 → Bool
  | .num a, .num b => decide (a ≤ b)
  | _, .nan => true
  | .nan, .num _ => false

/-- Insertion of an item into a list sorted by key, before its equals. -/
def insertItem (a : PresplitItem) : List PresplitItem → List PresplitItem
  | [] => [a]
  | b :: l => if keyLe a.priority b.priority then a :: b :: l else b :: insertItem a l

/-- Stable insertion sort by ascending key. -/
def sortItems : List PresplitItem → List PresplitItem
  | [] => []
  | a :: l => insertItem a (sortItems l)

end ieee

/-- The environment `sampleEnv` with a mesh whose primitives report the
projected area 2. -/
def quadEnv : Env where
  Splitter := sampleEnv.Splitter
  vint4 := sampleEnv.vint4
  bitInterleave := sampleEnv.bitInterleave
  area := sampleEnv.area
  projectedPrimitiveArea := fun _ _ => 2
  powf := sampleEnv.powf
  radix_sort_u32 := sampleEnv.radix_sort_u32
  empty := sampleEnv.empty

/-- A primitive whose box is the unit square in the plane `z = 0`; the area of
the box is 2. -/
def sampleQuad : PrimRef := ⟨⟨0, 0, 0⟩, ⟨1, 1, 0⟩, 0, 1⟩

/-- Summary of the two references `samplePoint`, `sampleQuad`. -/
def quadPrimInfo : PrimInfo := ⟨2, ⟨⟨0, 0, 0⟩, ⟨1, 1, 0⟩⟩⟩

/-- Input of capacity 4 with two references: a point and the unit square. -/
def quadPrims : List PrimRef := [samplePoint, sampleQuad, default, default]

/-- An item of the exact model read as an item whose priority may be NaN. -/
def PresplitItem.toIeee (it : PresplitItem) : ieee.PresplitItem :=
  match it.value with
  | .priority p => ⟨.priority (.num p), it.index⟩
  | .data d => ⟨.data d, it.index⟩

/-- A run of the exact model read as a run whose priorities may be NaN. -/
def PresplitRun.toIeee (R : PresplitRun) : ieee.PresplitRun :=
  ⟨R.numPrimitivesToSplit, R.sorted.map PresplitItem.toIeee, R.searched,
    R.presplitItem.map PresplitItem.toIeee, R.totalNumSubPrims, R.r, R.prims, R.numPrimitives,
    R.failed⟩

/-! ## Asserts and the recursive splitter -/

theorem assertAt_mem {line : ℕ} {c : Prop} [Decidable c] {failed : List ℕ} {k : ℕ}
    (h : k ∈ assertAt line c failed) : k ∈ failed ∨ (k = line ∧ ¬ c) := by
  unfold assertAt at h
  split at h
  · exact Or.inl h
  · rcases List.mem_append.1 h with h | h
    · exact Or.inl h
    · right; exact ⟨by simpa using h, by assumption⟩

theorem assertAt_of_true {line : ℕ} {c : Prop} [Decidable c] {failed : List ℕ} (h : c) :
    assertAt line c failed = failed := by
  simp [assertAt, h]

theorem assertAt_of_false {line : ℕ} {c : Prop} [Decidable c] {failed : List ℕ} (h : ¬ c) :
    assertAt line c failed = failed ++ [line] := by
  simp [assertAt, h]

theorem mem_assertAt_of_mem {line : ℕ} {c : Prop} [Decidable c] {failed : List ℕ} {k : ℕ}
    (h : k ∈ failed) : k ∈ assertAt line c failed := by
  unfold assertAt
  split
  · exact h
  · exact List.mem_append_left _ h

/-- Unfolding of `splitPrimitive` at a positive level when the two codes are equal. -/
theorem splitPrimitive_succ_eq (E : Env) (prim : PrimRef) (geomID primID level : ℕ)
    (grid_base : Vec3fa) (grid_scale grid_extend : ℚ) (buf : SubPrimBuffer)
    (h : (splitPrimitiveCodes E grid_base grid_scale prim).2.2.1
      = (splitPrimitiveCodes E grid_base grid_scale prim).2.2.2) :
    splitPrimitive E prim geomID primID (level + 1) grid_base grid_scale grid_extend buf
      = ⟨buf.subPrims ++ [prim],
          assertAt 123 (buf.numSubPrims < MAX_PRESPLITS_PER_PRIMITIVE)
            (assertAt 98 (level + 1 ≤ MAX_PRESPLITS_PER_PRIMITIVE_LOG) buf.failed)⟩ := by
  simp only [splitPrimitive, h, if_true]

/-- Unfolding of `splitPrimitive` at a positive level when the two codes differ. -/
theorem splitPrimitive_succ_ne (E : Env) (prim : PrimRef) (geomID primID level : ℕ)
    (grid_base : Vec3fa) (grid_scale grid_extend : ℚ) (buf : SubPrimBuffer)
    (h : (splitPrimitiveCodes E grid_base grid_scale prim).2.2.1
      ≠ (splitPrimitiveCodes E grid_base grid_scale prim).2.2.2) :
    ∃ failed : List ℕ,
      (∀ k ∈ failed, k ∈ buf.failed ∨ (k = 98 ∧ ¬ level + 1 ≤ MAX_PRESPLITS_PER_PRIMITIVE_LOG)
        ∨ k = 141 ∨ k = 148 ∨ k = 149) ∧
      splitPrimitive E prim geomID primID (level + 1) grid_base grid_scale grid_extend buf
        = splitPrimitive E
            (splitChildren E prim geomID primID grid_base grid_scale grid_extend).2
            geomID primID level grid_base grid_scale grid_extend
            (splitPrimitive E
              (splitChildren E prim geomID primID grid_base grid_scale grid_extend).1
              geomID primID level grid_base grid_scale grid_extend ⟨buf.subPrims, failed⟩) := by
  refine ⟨assertAt 149 (E.empty (E.Splitter prim prim.bounds
      (splitPlane grid_base grid_extend (splitPrimitiveCodes E grid_base grid_scale prim).2.1
        (splitPrimitiveCodes E grid_base grid_scale prim).2.2.1
        (splitPrimitiveCodes E grid_base grid_scale prim).2.2.2).1
      (splitPlane grid_base grid_extend (splitPrimitiveCodes E grid_base grid_scale prim).2.1
        (splitPrimitiveCodes E grid_base grid_scale prim).2.2.1
        (splitPrimitiveCodes E grid_base grid_scale prim).2.2.2).2).2 = false)
    (assertAt 148 (E.empty (E.Splitter prim prim.bounds
      (splitPlane grid_base grid_extend (splitPrimitiveCodes E grid_base grid_scale prim).2.1
        (splitPrimitiveCodes E grid_base grid_scale prim).2.2.1
        (splitPrimitiveCodes E grid_base grid_scale prim).2.2.2).1
      (splitPlane grid_base grid_extend (splitPrimitiveCodes E grid_base grid_scale prim).2.1
        (splitPrimitiveCodes E grid_base grid_scale prim).2.2.1
        (splitPrimitiveCodes E grid_base grid_scale prim).2.2.2).2).1 = false)
    (assertAt 141 (prim.lower.get
      (splitPlane grid_base grid_extend (splitPrimitiveCodes E grid_base grid_scale prim).2.1
        (splitPrimitiveCodes E grid_base grid_scale prim).2.2.1
        (splitPrimitiveCodes E grid_base grid_scale prim).2.2.2).1 ≤
      (splitPlane grid_base grid_extend (splitPrimitiveCodes E grid_base grid_scale prim).2.1
        (splitPrimitiveCodes E grid_base grid_scale prim).2.2.1
        (splitPrimitiveCodes E grid_base grid_scale prim).2.2.2).2 ∧
      prim.upper.get
      (splitPlane grid_base grid_extend (splitPrimitiveCodes E grid_base grid_scale prim).2.1
        (splitPrimitiveCodes E grid_base grid_scale prim).2.2.1
        (splitPrimitiveCodes E grid_base grid_scale prim).2.2.2).1 ≥
      (splitPlane grid_base grid_extend (splitPrimitiveCodes E grid_base grid_scale prim).2.1
        (splitPrimitiveCodes E grid_base grid_scale prim).2.2.1
        (splitPrimitiveCodes E grid_base grid_scale prim).2.2.2).2)
    (assertAt 98 (level + 1 ≤ MAX_PRESPLITS_PER_PRIMITIVE_LOG) buf.failed))), ?_, ?_⟩
  rotate_left
  · simp only [splitPrimitive, h, if_false, splitChildren]
  · intro k hk
    rcases assertAt_mem hk with hk | hk
    · rcases assertAt_mem hk with hk | hk
      · rcases assertAt_mem hk with hk | hk
        · rcases assertAt_mem hk with hk | hk
          · exact Or.inl hk
          · exact Or.inr (Or.inl hk)
        · exact Or.inr (Or.inr (Or.inl hk.1))
      · exact Or.inr (Or.inr (Or.inr (Or.inl hk.1)))
    · exact Or.inr (Or.inr (Or.inr (Or.inr hk.1)))

/-- The sub-primitives written by a call do not depend on the buffer it starts from. -/
theorem splitPrimitive_subPrims (E : Env) (geomID primID : ℕ) (grid_base : Vec3fa)
    (grid_scale grid_extend : ℚ) (split_level : ℕ) :
    ∀ (prim : PrimRef) (buf : SubPrimBuffer),
      (splitPrimitive E prim geomID primID split_level grid_base grid_scale grid_extend buf).subPrims
        = buf.subPrims ++
          (splitPrimitive E prim geomID primID split_level grid_base grid_scale grid_extend
            ⟨[], []⟩).subPrims := by
  induction split_level with
  | zero => intro prim buf; simp [splitPrimitive]
  | succ level ih =>
    intro prim buf
    by_cases h : (splitPrimitiveCodes E grid_base grid_scale prim).2.2.1
      = (splitPrimitiveCodes E grid_base grid_scale prim).2.2.2
    · simp [splitPrimitive_succ_eq, h]
    · obtain ⟨f1, -, e1⟩ := splitPrimitive_succ_ne E prim geomID primID level grid_base
        grid_scale grid_extend buf h
      obtain ⟨f2, -, e2⟩ := splitPrimitive_succ_ne E prim geomID primID level grid_base
        grid_scale grid_extend ⟨[], []⟩ h
      rw [e1, e2, ih _ (splitPrimitive _ _ _ _ _ _ _ _ _), ih _ ⟨buf.subPrims, _⟩]
      conv_rhs => rw [ih _ (splitPrimitive _ _ _ _ _ _ _ _ _), ih _ ⟨[], _⟩]
      simp

/-- Number of sub-primitives written by a call that starts from the empty buffer. -/
theorem splitPrimitive_emitted_length (E : Env) (geomID primID : ℕ) (grid_base : Vec3fa)
    (grid_scale grid_extend : ℚ) (split_level : ℕ) :
    ∀ (prim : PrimRef),
      1 ≤ (splitPrimitive E prim geomID primID split_level grid_base grid_scale grid_extend
            ⟨[], []⟩).subPrims.length
      ∧ (splitPrimitive E prim geomID primID split_level grid_base grid_scale grid_extend
            ⟨[], []⟩).subPrims.length ≤ 2 ^ split_level := by
  induction split_level with
  | zero => intro prim; simp [splitPrimitive]
  | succ level ih =>
    intro prim
    by_cases h : (splitPrimitiveCodes E grid_base grid_scale prim).2.2.1
      = (splitPrimitiveCodes E grid_base grid_scale prim).2.2.2
    · simp only [splitPrimitive_succ_eq, h, List.nil_append, List.length_singleton]
      exact ⟨le_refl _, Nat.one_le_two_pow⟩
    · obtain ⟨f, -, e⟩ := splitPrimitive_succ_ne E prim geomID primID level grid_base
        grid_scale grid_extend ⟨[], []⟩ h
      rw [e, splitPrimitive_subPrims, splitPrimitive_subPrims E geomID primID grid_base grid_scale
        grid_extend level _ ⟨[], _⟩]
      simp only [List.nil_append, List.length_append]
      have h3 : 2 ^ (level + 1) = 2 ^ level + 2 ^ level := by ring
      have h1 := ih (splitChildren E prim geomID primID grid_base grid_scale grid_extend).1
      have h2 := ih (splitChildren E prim geomID primID grid_base grid_scale grid_extend).2
      omega

/-- Number of sub-primitives written by a call. -/
theorem splitPrimitive_length (E : Env) (prim : PrimRef) (geomID primID : ℕ) (split_level : ℕ)
    (grid_base : Vec3fa) (grid_scale grid_extend : ℚ) (buf : SubPrimBuffer) :
      buf.numSubPrims + 1 ≤
        (splitPrimitive E prim geomID primID split_level grid_base grid_scale grid_extend buf).numSubPrims
      ∧ (splitPrimitive E prim geomID primID split_level grid_base grid_scale grid_extend buf).numSubPrims
        ≤ buf.numSubPrims + 2 ^ split_level := by
  have h := splitPrimitive_emitted_length E geomID primID grid_base grid_scale grid_extend
    split_level prim
  simp only [SubPrimBuffer.numSubPrims]
  rw [splitPrimitive_subPrims, List.length_append]
  omega

/-- The asserts of lines 98, 101 and 123 hold in a call that has room in the buffer. -/
theorem splitPrimitive_failed (E : Env) (geomID primID : ℕ) (grid_base : Vec3fa)
    (grid_scale grid_extend : ℚ) (split_level : ℕ) :
    ∀ (prim : PrimRef) (buf : SubPrimBuffer),
      split_level ≤ MAX_PRESPLITS_PER_PRIMITIVE_LOG →
      buf.numSubPrims + 2 ^ split_level ≤ MAX_PRESPLITS_PER_PRIMITIVE →
      ∀ k ∈ (splitPrimitive E prim geomID primID split_level grid_base grid_scale grid_extend
          buf).failed, k ∈ buf.failed ∨ (k ≠ 98 ∧ k ≠ 101 ∧ k ≠ 123) := by
  induction split_level with
  | zero =>
    intro prim buf _ hroom k hk
    simp only [splitPrimitive] at hk
    rw [assertAt_of_true (by simpa using hroom), assertAt_of_true (Nat.zero_le _)] at hk
    exact Or.inl hk
  | succ level ih =>
    intro prim buf hlev hroom k hk
    have h3 : 2 ^ (level + 1) = 2 ^ level + 2 ^ level := by ring
    have hpos : 1 ≤ 2 ^ level := Nat.one_le_two_pow
    by_cases h : (splitPrimitiveCodes E grid_base grid_scale prim).2.2.1
      = (splitPrimitiveCodes E grid_base grid_scale prim).2.2.2
    · rw [splitPrimitive_succ_eq _ _ _ _ _ _ _ _ _ h, assertAt_of_true hlev,
        assertAt_of_true (by omega)] at hk
      exact Or.inl hk
    · obtain ⟨f, hf, e⟩ := splitPrimitive_succ_ne E prim geomID primID level grid_base
        grid_scale grid_extend buf h
      rw [e] at hk
      have hlen := (splitPrimitive_length E
        (splitChildren E prim geomID primID grid_base grid_scale grid_extend).1 geomID primID
        level grid_base grid_scale grid_extend ⟨buf.subPrims, f⟩).2
      rcases ih _ _ (by omega) (by simp only [SubPrimBuffer.numSubPrims] at *; omega) k hk
        with h | h
      · rcases ih _ _ (by omega) (by simp only [SubPrimBuffer.numSubPrims] at *; omega) k h
          with h | h
        · rcases hf k h with h | h | h | h | h
          · exact Or.inl h
          · exact absurd hlev h.2
          all_goals right; omega
        · exact Or.inr h
      · exact Or.inr h
/-- Unfolding of the emitted list at a positive level when the two codes differ. -/
theorem splitPrimitive_emitted_succ (E : Env) (prim : PrimRef) (geomID primID level : ℕ)
    (grid_base : Vec3fa) (grid_scale grid_extend : ℚ)
    (h : (splitPrimitiveCodes E grid_base grid_scale prim).2.2.1
      ≠ (splitPrimitiveCodes E grid_base grid_scale prim).2.2.2) :
    (splitPrimitive E prim geomID primID (level + 1) grid_base grid_scale grid_extend
        ⟨[], []⟩).subPrims
      = (splitPrimitive E (splitChildren E prim geomID primID grid_base grid_scale grid_extend).1
          geomID primID level grid_base grid_scale grid_extend ⟨[], []⟩).subPrims
        ++ (splitPrimitive E (splitChildren E prim geomID primID grid_base grid_scale grid_extend).2
          geomID primID level grid_base grid_scale grid_extend ⟨[], []⟩).subPrims := by
  obtain ⟨f, -, e⟩ := splitPrimitive_succ_ne E prim geomID primID level grid_base
    grid_scale grid_extend ⟨[], []⟩ h
  rw [e, splitPrimitive_subPrims, splitPrimitive_subPrims E geomID primID grid_base grid_scale
    grid_extend level _ ⟨[], _⟩]
  simp

/-- C3: for every primitive, splitter, grid and every `split_level <= 5`, a call
of `splitPrimitive` raises `numSubPrims` by at least 1 and at most
`2^split_level`; started with `numSubPrims = 0` it ends with
`1 <= numSubPrims <= 2^split_level <= 32`, so no write goes past index 31, and
none of the asserts of lines 98, 101, 123 is violated. -/
theorem splitPrimitive_cardinality (E : Env) (prim : PrimRef) (geomID primID split_level : ℕ)
    (grid_base : Vec3fa) (grid_scale grid_extend : ℚ) (buf : SubPrimBuffer)
    (hlevel : split_level ≤ MAX_PRESPLITS_PER_PRIMITIVE_LOG) :
    (buf.numSubPrims + 1 ≤ (splitPrimitive E prim geomID primID split_level grid_base
        grid_scale grid_extend buf).numSubPrims ∧
      (splitPrimitive E prim geomID primID split_level grid_base grid_scale grid_extend
        buf).numSubPrims ≤ buf.numSubPrims + 2 ^ split_level) ∧
    (buf.numSubPrims = 0 →
      1 ≤ (splitPrimitive E prim geomID primID split_level grid_base grid_scale grid_extend
        buf).numSubPrims ∧
      (splitPrimitive E prim geomID primID split_level grid_base grid_scale grid_extend
        buf).numSubPrims ≤ 2 ^ split_level ∧
      (splitPrimitive E prim geomID primID split_level grid_base grid_scale grid_extend
        buf).numSubPrims ≤ MAX_PRESPLITS_PER_PRIMITIVE ∧
      ∀ line ∈ (splitPrimitive E prim geomID primID split_level grid_base grid_scale
        grid_extend buf).failed, line ∈ buf.failed ∨ (line ≠ 98 ∧ line ≠ 101 ∧ line ≠ 123)) := by
  have hlen := splitPrimitive_length E prim geomID primID split_level grid_base grid_scale
    grid_extend buf
  have hpow : 2 ^ split_level ≤ MAX_PRESPLITS_PER_PRIMITIVE := by
    have : 2 ^ split_level ≤ 2 ^ 5 := Nat.pow_le_pow_right (by norm_num) hlevel
    simpa [MAX_PRESPLITS_PER_PRIMITIVE, MAX_PRESPLITS_PER_PRIMITIVE_LOG] using this
  refine ⟨hlen, fun h0 => ⟨by omega, by omega, by omega, ?_⟩⟩
  exact splitPrimitive_failed E geomID primID grid_base grid_scale grid_extend split_level prim
    buf hlevel (by omega)

/-- C3 at the unit cube, split to depth 2 on the sample grid. -/
theorem splitPrimitive_cardinality_witness :
    (2 ≤ MAX_PRESPLITS_PER_PRIMITIVE_LOG) ∧
    ((SubPrimBuffer.numSubPrims ⟨[], []⟩ + 1 ≤ (splitPrimitive sampleEnv sampleCube 0 1 2
        ⟨0, 0, 0⟩ 1024 1 ⟨[], []⟩).numSubPrims ∧
      (splitPrimitive sampleEnv sampleCube 0 1 2 ⟨0, 0, 0⟩ 1024 1 ⟨[], []⟩).numSubPrims
        ≤ SubPrimBuffer.numSubPrims ⟨[], []⟩ + 2 ^ 2) ∧
    (SubPrimBuffer.numSubPrims ⟨[], []⟩ = 0 →
      1 ≤ (splitPrimitive sampleEnv sampleCube 0 1 2 ⟨0, 0, 0⟩ 1024 1 ⟨[], []⟩).numSubPrims ∧
      (splitPrimitive sampleEnv sampleCube 0 1 2 ⟨0, 0, 0⟩ 1024 1 ⟨[], []⟩).numSubPrims
        ≤ 2 ^ 2 ∧
      (splitPrimitive sampleEnv sampleCube 0 1 2 ⟨0, 0, 0⟩ 1024 1 ⟨[], []⟩).numSubPrims
        ≤ MAX_PRESPLITS_PER_PRIMITIVE ∧
      ∀ line ∈ (splitPrimitive sampleEnv sampleCube 0 1 2 ⟨0, 0, 0⟩ 1024 1 ⟨[], []⟩).failed,
        line ∈ (SubPrimBuffer.failed ⟨[], []⟩) ∨ (line ≠ 98 ∧ line ≠ 101 ∧ line ≠ 123))) :=
  ⟨by decide, splitPrimitive_cardinality sampleEnv sampleCube 0 1 2 ⟨0, 0, 0⟩ 1024 1 ⟨[], []⟩
    (by decide)⟩

theorem hullCovers_append_of_pair {l1 l2 : List BBox3fa} {a b box : BBox3fa}
    (h : hullCovers [a, b] box) (h1 : hullCovers l1 a) (h2 : hullCovers l2 b) :
    hullCovers (l1 ++ l2) box := by
  intro dim
  obtain ⟨⟨s, hs, hle⟩, ⟨t, ht, hge⟩⟩ := h dim
  constructor
  · simp only [List.mem_cons, List.mem_singleton, List.not_mem_nil, or_false] at hs
    rcases hs with rfl | rfl
    · obtain ⟨u, hu, hul⟩ := (h1 dim).1
      exact ⟨u, List.mem_append_left _ hu, le_trans hul hle⟩
    · obtain ⟨u, hu, hul⟩ := (h2 dim).1
      exact ⟨u, List.mem_append_right _ hu, le_trans hul hle⟩
  · simp only [List.mem_cons, List.mem_singleton, List.not_mem_nil, or_false] at ht
    rcases ht with rfl | rfl
    · obtain ⟨u, hu, hul⟩ := (h1 dim).2
      exact ⟨u, List.mem_append_left _ hu, le_trans hge hul⟩
    · obtain ⟨u, hu, hul⟩ := (h2 dim).2
      exact ⟨u, List.mem_append_right _ hu, le_trans hge hul⟩

theorem hullCovers_self (box : BBox3fa) : hullCovers [box] box := by
  intro dim
  exact ⟨⟨box, by simp, le_refl _⟩, ⟨box, by simp, le_refl _⟩⟩

theorem sampleEnv_covers : SplitterCovers sampleEnv := by
  intro prim box dim pos d
  simp only [sampleEnv, clipBox]
  split_ifs <;> exact ⟨⟨_, List.mem_cons_self _ _, le_refl _⟩,
    ⟨_, List.mem_cons_of_mem _ (List.mem_cons_self _ _), le_refl _⟩⟩

/-- C7: when the splitter returns two boxes whose hull covers the box it was
given, the hull of the sub-boxes written by `splitPrimitive` covers the box of
the primitive, for every split level. -/
theorem splitPrimitive_covers (E : Env) (hE : SplitterCovers E) (geomID primID : ℕ)
    (grid_base : Vec3fa) (grid_scale grid_extend : ℚ) (split_level : ℕ) (prim : PrimRef) :
    hullCovers ((splitPrimitive E prim geomID primID split_level grid_base grid_scale
      grid_extend ⟨[], []⟩).subPrims.map PrimRef.bounds) prim.bounds := by
  induction split_level generalizing prim with
  | zero => simpa [splitPrimitive] using hullCovers_self prim.bounds
  | succ level ih =>
    by_cases h : (splitPrimitiveCodes E grid_base grid_scale prim).2.2.1
      = (splitPrimitiveCodes E grid_base grid_scale prim).2.2.2
    · simpa [splitPrimitive_succ_eq, h] using hullCovers_self prim.bounds
    · rw [splitPrimitive_emitted_succ E prim geomID primID level grid_base grid_scale
        grid_extend h, List.map_append]
      refine hullCovers_append_of_pair ?_ (ih _) (ih _)
      exact hE prim prim.bounds _ _

/-- C7 on the sample environment, for the unit cube split to depth 2. -/
theorem splitPrimitive_covers_witness :
    SplitterCovers sampleEnv ∧
    hullCovers ((splitPrimitive sampleEnv sampleCube 0 1 2 ⟨0, 0, 0⟩ 1024 1
      ⟨[], []⟩).subPrims.map PrimRef.bounds) sampleCube.bounds :=
  ⟨sampleEnv_covers, splitPrimitive_covers sampleEnv sampleEnv_covers 0 1 ⟨0, 0, 0⟩ 1024 1 2
    sampleCube⟩
/-! ## Grid codes and priorities -/

theorem splitPrimitiveCodes_eq_computeMC (E : Env) (grid_base : Vec3fa) (grid_scale : ℚ)
    (prim : PrimRef) :
    ((splitPrimitiveCodes E grid_base grid_scale prim).2.2.1,
      (splitPrimitiveCodes E grid_base grid_scale prim).2.2.2)
      = computeMC E grid_base grid_scale prim := rfl

theorem splitPrimitive_of_codes_eq (E : Env) (prim : PrimRef) (geomID primID split_level : ℕ)
    (grid_base : Vec3fa) (grid_scale grid_extend : ℚ)
    (h : (computeMC E grid_base grid_scale prim).1 = (computeMC E grid_base grid_scale prim).2) :
    (splitPrimitive E prim geomID primID split_level grid_base grid_scale grid_extend
      ⟨[], []⟩).subPrims = [prim] := by
  cases split_level with
  | zero => simp [splitPrimitive]
  | succ level =>
    have h2 : (splitPrimitiveCodes E grid_base grid_scale prim).2.2.1
        = (splitPrimitiveCodes E grid_base grid_scale prim).2.2.2 := h
    simp [splitPrimitive_succ_eq, h2]

theorem initPresplitItems_length (E : Env) (g : Grid) (prims : List PrimRef) (n : ℕ) :
    (initPresplitItems E g prims n).length = n := by
  simp [initPresplitItems]

theorem initPresplitItems_getD (E : Env) (g : Grid) (prims : List PrimRef) (n i : ℕ)
    (hi : i < n) :
    (initPresplitItems E g prims n).getD i default
      = ⟨.priority (if (computeMC E g.grid_base g.grid_scale (prims.getD i default)).1
            ≠ (computeMC E g.grid_base g.grid_scale (prims.getD i default)).2 then
          PresplitItem.compute_priority E (prims.getD i default)
            (computeMC E g.grid_base g.grid_scale (prims.getD i default)) else 0), i⟩ := by
  simp [initPresplitItems, List.getD_eq_getElem?_getD, List.getElem?_map, List.getElem?_range hi]

theorem assignSplitLevel_index (b : ℕ) (inv : ℚ) (it : PresplitItem) :
    (assignSplitLevel b inv it).1.index = it.index := by
  unfold assignSplitLevel
  by_cases h1 : it.priority > 0
  · rw [if_pos h1]
    by_cases h2 : (b : ℚ) * it.priority * inv ≥ PRIORITY_CUTOFF_THRESHOLD
    · simp only [h2, if_true]
    · simp only [h2, if_false]
  · rw [if_neg h1]

theorem assignSplitLevel_of_nonpos (b : ℕ) (inv : ℚ) (it : PresplitItem)
    (h : it.priority ≤ 0) : (assignSplitLevel b inv it).1 = it := by
  unfold assignSplitLevel
  rw [if_neg (not_lt.2 h)]

theorem computeSplitLevels_fst (b : ℕ) (items : List PresplitItem) :
    (computeSplitLevels b items).1
      = items.map (fun it => (assignSplitLevel b (1 / prioritySum items) it).1) := by
  simp [computeSplitLevels, List.map_map, Function.comp_def]

theorem computeSplitLevels_getD (b : ℕ) (items : List PresplitItem) (i : ℕ)
    (hi : i < items.length) :
    (computeSplitLevels b items).1.getD i default
      = (assignSplitLevel b (1 / prioritySum items) (items.getD i default)).1 := by
  rw [computeSplitLevels_fst]
  simp [List.getD_eq_getElem?_getD, List.getElem?_map, List.getElem?_eq_getElem hi]

/-- C8: a primitive whose two grid codes from `computeMC` are equal is given
priority exactly 0 (and keeps it through the computation of the split levels),
`splitPrimitive` writes exactly that primitive for every split level, and
`splitPrimitive` computes the same pair of codes as `computeMC`. -/
theorem equal_codes_emitted_unchanged (E : Env) (g : Grid) (prims : List PrimRef)
    (numPrimitives i : ℕ) (hi : i < numPrimitives)
    (hmc : (computeMC E g.grid_base g.grid_scale (prims.getD i default)).1
      = (computeMC E g.grid_base g.grid_scale (prims.getD i default)).2) :
    (initPresplitItems E g prims numPrimitives).getD i default = ⟨.priority 0, i⟩ ∧
    (∀ numPrimitivesToSplit : ℕ,
      (computeSplitLevels numPrimitivesToSplit
        (initPresplitItems E g prims numPrimitives)).1.getD i default = ⟨.priority 0, i⟩) ∧
    (∀ geomID primID split_level : ℕ, split_level ≤ MAX_PRESPLITS_PER_PRIMITIVE_LOG →
      (splitPrimitive E (prims.getD i default) geomID primID split_level g.grid_base
        g.grid_scale g.grid_extend ⟨[], []⟩).subPrims = [prims.getD i default]) ∧
    (∀ (grid_base : Vec3fa) (grid_scale : ℚ) (prim : PrimRef),
      ((splitPrimitiveCodes E grid_base grid_scale prim).2.2.1,
        (splitPrimitiveCodes E grid_base grid_scale prim).2.2.2)
        = computeMC E grid_base grid_scale prim) := by
  have h0 : (initPresplitItems E g prims numPrimitives).getD i default = ⟨.priority 0, i⟩ := by
    rw [initPresplitItems_getD E g prims numPrimitives i hi, if_neg (not_not.2 hmc)]
  refine ⟨h0, ?_, ?_, ?_⟩
  · intro b
    rw [computeSplitLevels_getD _ _ _ (by rw [initPresplitItems_length]; exact hi), h0]
    exact assignSplitLevel_of_nonpos _ _ _ (le_refl _)
  · intro geomID primID split_level _
    exact splitPrimitive_of_codes_eq E _ geomID primID split_level _ _ _ hmc
  · intro grid_base grid_scale prim
    rfl

/-- C8 for the point primitive of the sample input. -/
theorem equal_codes_emitted_unchanged_witness :
    (0 < 2) ∧
    ((computeMC sampleEnv (computeGrid samplePrimInfo).grid_base
        (computeGrid samplePrimInfo).grid_scale
        ([samplePoint, sampleCube].getD 0 default)).1
      = (computeMC sampleEnv (computeGrid samplePrimInfo).grid_base
        (computeGrid samplePrimInfo).grid_scale
        ([samplePoint, sampleCube].getD 0 default)).2) ∧
    ((initPresplitItems sampleEnv (computeGrid samplePrimInfo) [samplePoint, sampleCube]
        2).getD 0 default = ⟨.priority 0, 0⟩ ∧
    (∀ numPrimitivesToSplit : ℕ,
      (computeSplitLevels numPrimitivesToSplit
        (initPresplitItems sampleEnv (computeGrid samplePrimInfo) [samplePoint, sampleCube]
          2)).1.getD 0 default = ⟨.priority 0, 0⟩) ∧
    (∀ geomID primID split_level : ℕ, split_level ≤ MAX_PRESPLITS_PER_PRIMITIVE_LOG →
      (splitPrimitive sampleEnv ([samplePoint, sampleCube].getD 0 default) geomID primID
        split_level (computeGrid samplePrimInfo).grid_base
        (computeGrid samplePrimInfo).grid_scale (computeGrid samplePrimInfo).grid_extend
        ⟨[], []⟩).subPrims = [[samplePoint, sampleCube].getD 0 default]) ∧
    (∀ (grid_base : Vec3fa) (grid_scale : ℚ) (prim : PrimRef),
      ((splitPrimitiveCodes sampleEnv grid_base grid_scale prim).2.2.1,
        (splitPrimitiveCodes sampleEnv grid_base grid_scale prim).2.2.2)
        = computeMC sampleEnv grid_base grid_scale prim)) :=
  ⟨by decide, by decide!, equal_codes_emitted_unchanged sampleEnv (computeGrid samplePrimInfo)
    [samplePoint, sampleCube] 2 0 (by decide) (by decide!)⟩

/-! ## Machine arithmetic -/

theorem sizeSub_eq {a b : ℕ} (h1 : b ≤ a) (h2 : a < 2 ^ 64) : sizeSub a b = a - b := by
  unfold sizeSub
  have : a + 2 ^ 64 - b = (a - b) + 2 ^ 64 := by omega
  rw [this, Nat.add_mod_right, Nat.mod_eq_of_lt (by omega)]

theorem pack_unpack : ∀ e : Fin 32, ∀ d : Fin 6,
    ((((e : ℕ) <<< MAX_PRESPLITS_PER_PRIMITIVE_LOG) ||| (d : ℕ)) % 2 ^ 32)
        >>> MAX_PRESPLITS_PER_PRIMITIVE_LOG = e ∧
    ((((e : ℕ) <<< MAX_PRESPLITS_PER_PRIMITIVE_LOG) ||| (d : ℕ)) % 2 ^ 32)
        &&& ((1 <<< MAX_PRESPLITS_PER_PRIMITIVE_LOG) - 1) = d := by
  decide

theorem pack_extra {e d i : ℕ} (he : e < 32) (hd : d ≤ 5) :
    PresplitItem.extra ⟨.data (((e <<< MAX_PRESPLITS_PER_PRIMITIVE_LOG) ||| d) % 2 ^ 32), i⟩
      = e :=
  (pack_unpack ⟨e, he⟩ ⟨d, by omega⟩).1

theorem pack_depth {e d i : ℕ} (he : e < 32) (hd : d ≤ 5) :
    PresplitItem.depth ⟨.data (((e <<< MAX_PRESPLITS_PER_PRIMITIVE_LOG) ||| d) % 2 ^ 32), i⟩
      = d :=
  (pack_unpack ⟨e, he⟩ ⟨d, by omega⟩).2

/-! ## Split levels (lines 262-276) -/

/-- The clamp of line 270 yields an integer between 1 and 5. -/
theorem clamp_level (k : ℕ) :
    ∃ d : ℕ, 1 ≤ d ∧ d ≤ 5 ∧
      max (min (k : ℚ) (MAX_PRESPLITS_PER_PRIMITIVE_LOG : ℚ)) 1 = (d : ℚ) := by
  refine ⟨max (min k 5) 1, le_max_right _ _, ?_, ?_⟩
  · exact max_le (min_le_right _ _) (by norm_num)
  · simp [MAX_PRESPLITS_PER_PRIMITIVE_LOG]

theorem assignSplitLevel_isLevel (b : ℕ) (inv : ℚ) (it : PresplitItem) :
    IsLevel (assignSplitLevel b inv it).1 := by
  unfold assignSplitLevel
  by_cases h1 : it.priority > 0
  · rw [if_pos h1]
    by_cases h2 : (b : ℚ) * it.priority * inv ≥ PRIORITY_CUTOFF_THRESHOLD
    · simp only [h2, if_true]
      obtain ⟨d, hd1, hd5, hd⟩ := clamp_level (ceilLog2 ((b : ℚ) * it.priority * inv))
      exact Or.inr ⟨d, hd1, hd5, by rw [hd]⟩
    · simp only [h2, if_false]
      exact Or.inl (le_refl _)
  · rw [if_neg h1]
    exact Or.inl (not_lt.1 h1)

theorem assignSplitLevel_failed (b : ℕ) (inv : ℚ) (it : PresplitItem) :
    (assignSplitLevel b inv it).2 = [] := by
  unfold assignSplitLevel
  by_cases h1 : it.priority > 0
  · rw [if_pos h1]
    by_cases h2 : (b : ℚ) * it.priority * inv ≥ PRIORITY_CUTOFF_THRESHOLD
    · simp only [h2, if_true]
      obtain ⟨d, hd1, hd5, hd⟩ := clamp_level (ceilLog2 ((b : ℚ) * it.priority * inv))
      apply assertAt_of_true
      rw [hd]
      constructor
      · exact_mod_cast hd1
      · simp only [MAX_PRESPLITS_PER_PRIMITIVE_LOG]; exact_mod_cast hd5
    · simp only [h2, if_false]
  · rw [if_neg h1]

theorem computeSplitLevels_failed (b : ℕ) (items : List PresplitItem) :
    (computeSplitLevels b items).2 = [] := by
  simp [computeSplitLevels, List.map_map, Function.comp_def, assignSplitLevel_failed]

theorem computeSplitLevels_isLevel (b : ℕ) (items : List PresplitItem) :
    ∀ it ∈ (computeSplitLevels b items).1, IsLevel it := by
  intro it hit
  rw [computeSplitLevels_fst] at hit
  obtain ⟨a, -, rfl⟩ := List.mem_map.1 hit
  exact assignSplitLevel_isLevel _ _ _

theorem computeSplitLevels_index (b : ℕ) (items : List PresplitItem) :
    (computeSplitLevels b items).1.map PresplitItem.index = items.map PresplitItem.index := by
  rw [computeSplitLevels_fst, List.map_map]
  apply List.map_congr_left
  intro a _
  exact assignSplitLevel_index _ _ _

theorem initPresplitItems_index (E : Env) (g : Grid) (prims : List PrimRef) (n : ℕ) :
    (initPresplitItems E g prims n).map PresplitItem.index = List.range n := by
  simp [initPresplitItems, List.map_map, Function.comp_def]
/-! ## Binary search (lines 286-296) -/

theorem getD_priority_le_of_pairwise {items : List PresplitItem}
    (hs : items.Pairwise (fun a b => a.priority ≤ b.priority)) {i j : ℕ} (hij : i ≤ j)
    (hj : j < items.length) :
    (items.getD i default).priority ≤ (items.getD j default).priority := by
  rcases Nat.eq_or_lt_of_le hij with rfl | hlt
  · exact le_refl _
  · have hi : i < items.length := lt_trans hlt hj
    rw [List.getD_eq_getElem _ _ hi, List.getD_eq_getElem _ _ hj]
    exact List.pairwise_iff_getElem.1 hs i j hi hj hlt

/-- Result of the binary search on a sorted array: every entry from the
returned index on has priority at least 1, every entry at an index between 1
and the returned index has priority below 1, and entry 0 is never examined:
the returned index is at least 1 unless the array is empty. -/
theorem binarySearch_spec (items : List PresplitItem)
    (hs : items.Pairwise (fun a b => a.priority ≤ b.priority)) :
    ∀ (fuel l r : ℕ), r ≤ l + fuel → l ≤ r → r ≤ items.length →
      (l = 0 ∨ (l < items.length ∧ (items.getD l default).priority < 1)) →
      (∀ j, r ≤ j → j < items.length → 1 ≤ (items.getD j default).priority) →
      l ≤ binarySearch items fuel l r ∧ binarySearch items fuel l r ≤ r ∧
      (l < r → l < binarySearch items fuel l r) ∧
      (∀ j, binarySearch items fuel l r ≤ j → j < items.length →
        1 ≤ (items.getD j default).priority) ∧
      (∀ j, 1 ≤ j → j < binarySearch items fuel l r → (items.getD j default).priority < 1) := by
  intro fuel
  induction fuel with
  | zero =>
    intro l r hf hlr _ hl hr
    have : l = r := by omega
    subst this
    simp only [binarySearch]
    refine ⟨le_refl _, le_refl _, fun h => h, hr, ?_⟩
    intro j hj1 hjl
    rcases hl with hl | hl
    · omega
    · exact lt_of_le_of_lt (getD_priority_le_of_pairwise hs (by omega) hl.1) hl.2
  | succ fuel ih =>
    intro l r hf hlr hrn hl hr
    simp only [binarySearch]
    by_cases hc : l + 1 < r
    · rw [if_pos hc]
      have hm1 : l < (l + r) / 2 := by omega
      have hm2 : (l + r) / 2 < r := by omega
      by_cases hp : (items.getD ((l + r) / 2) default).priority < PRIORITY_BINARY_SEACH_THRESHOLD
      · rw [if_pos hp]
        obtain ⟨h1, h2, h3, h4, h5⟩ := ih ((l + r) / 2) r (by omega) (by omega) hrn
          (Or.inr ⟨by omega, hp⟩) hr
        refine ⟨by omega, h2, fun _ => by omega, h4, ?_⟩
        intro j hj1 hj
        by_cases hjm : (l + r) / 2 < j
        · rcases Nat.lt_or_ge j (binarySearch items fuel ((l + r) / 2) r) with h | h
          · exact h5 j hj1 (by omega)
          · omega
        · exact lt_of_le_of_lt
            (getD_priority_le_of_pairwise hs (not_lt.1 hjm) (by omega)) hp
      · rw [if_neg hp]
        have hp1 : 1 ≤ (items.getD ((l + r) / 2) default).priority := not_lt.1 hp
        obtain ⟨h1, h2, h3, h4, h5⟩ := ih l ((l + r) / 2) (by omega) (by omega) (by omega) hl
          (fun j hj hjn => le_trans hp1 (getD_priority_le_of_pairwise hs hj hjn))
        exact ⟨h1, by omega, fun _ => h3 hm1, h4, h5⟩
    · rw [if_neg hc]
      refine ⟨hlr, le_refl _, fun h => h, hr, ?_⟩
      intro j hj1 hj
      rcases hl with hl | hl
      · omega
      · exact lt_of_le_of_lt (getD_priority_le_of_pairwise hs (by omega) hl.1) hl.2

/-- The search of line 287-296 started with `l = 0`, `r = numPrimitives`. -/
theorem binarySearch_top (items : List PresplitItem)
    (hs : items.Pairwise (fun a b => a.priority ≤ b.priority)) :
    binarySearch items items.length 0 items.length ≤ items.length ∧
    (0 < items.length → 1 ≤ binarySearch items items.length 0 items.length) ∧
    (∀ j, binarySearch items items.length 0 items.length ≤ j → j < items.length →
      1 ≤ (items.getD j default).priority) ∧
    (∀ j, 1 ≤ j → j < binarySearch items items.length 0 items.length →
      (items.getD j default).priority < 1) := by
  obtain ⟨-, h2, h3, h4, h5⟩ := binarySearch_spec items hs items.length 0 items.length
    (by omega) (Nat.zero_le _) (le_refl _) (Or.inl rfl) (fun j h1 h2 => by omega)
  exact ⟨h2, fun h => h3 h, h4, h5⟩

/-- When no entry has priority 1 or more the search returns `r` unchanged. -/
theorem binarySearch_all_lt (items : List PresplitItem)
    (h : ∀ j, (items.getD j default).priority < 1) :
    ∀ fuel l r : ℕ, binarySearch items fuel l r = r := by
  intro fuel
  induction fuel with
  | zero => intro l r; rfl
  | succ fuel ih =>
    intro l r
    simp only [binarySearch]
    split_ifs with h1 h2
    · exact ih _ _
    · exact absurd (h _) h2
    · rfl
/-! ## Shrinking of the selected range (lines 330-343) -/

theorem extraSum_of_le (items : List PresplitItem) {k : ℕ} (h : items.length ≤ k) :
    extraSum items k = 0 := by
  simp [extraSum, List.drop_eq_nil_of_le h]

theorem extraSum_succ (items : List PresplitItem) {k : ℕ} (h : k < items.length) :
    extraSum items k = (items.getD k default).extra + extraSum items (k + 1) := by
  unfold extraSum
  rw [List.drop_eq_getElem_cons h, List.map_cons, List.sum_cons, List.getD_eq_getElem _ _ h]

theorem extraSum_antitone (items : List PresplitItem) {k k' : ℕ} (h : k ≤ k') :
    extraSum items k' ≤ extraSum items k := by
  obtain ⟨d, rfl⟩ := Nat.exists_eq_add_of_le h
  induction d with
  | zero => exact le_refl _
  | succ d ih =>
    refine le_trans ?_ (ih (Nat.le_add_right _ _))
    by_cases hm : k + d < items.length
    · rw [extraSum_succ items hm]
      exact Nat.le_add_left _ _
    · rw [extraSum_of_le items (by omega : items.length ≤ k + (d + 1))]
      exact Nat.zero_le _

/-- The loop of lines 335-340 leaves through its `break`, at the largest index
whose suffix sum reaches the budget. -/
theorem shrinkLoop_spec (items : List PresplitItem) (r budget : ℕ)
    (hn : items.length < 2 ^ 64) (htotal : budget < extraSum items r) :
    ∀ (fuel new_r sum : ℕ), r ≤ new_r → new_r < items.length → new_r < r + fuel →
      sum = extraSum items (new_r + 1) →
      (∀ k, new_r < k → k < items.length → extraSum items k < budget) →
      r ≤ shrinkLoop items r budget fuel new_r sum ∧
      shrinkLoop items r budget fuel new_r sum ≤ new_r ∧
      budget ≤ extraSum items (shrinkLoop items r budget fuel new_r sum) ∧
      (∀ k, shrinkLoop items r budget fuel new_r sum < k → k < items.length →
        extraSum items k < budget) := by
  intro fuel
  induction fuel with
  | zero => intro new_r sum h1 _ h3; omega
  | succ fuel ih =>
    intro new_r sum h1 h2 h3 hsum hinv
    have hS := extraSum_succ items h2
    have hextra : (items.getD new_r default).data >>> MAX_PRESPLITS_PER_PRIMITIVE_LOG
        = (items.getD new_r default).extra := rfl
    simp only [shrinkLoop, hextra]
    rw [if_pos (show new_r ≥ r from h1)]
    by_cases hb : sum + (items.getD new_r default).extra ≥ budget
    · rw [if_pos hb]
      exact ⟨h1, le_refl _, by omega, hinv⟩
    · rw [if_neg hb]
      have hne : new_r ≠ r := by
        rintro rfl
        omega
      have hdec : sizeSub new_r 1 = new_r - 1 := sizeSub_eq (by omega) (by omega)
      rw [hdec]
      obtain ⟨g1, g2, g3, g4⟩ := ih (new_r - 1) (sum + (items.getD new_r default).extra)
        (by omega) (by omega) (by omega)
        (by rw [show new_r - 1 + 1 = new_r by omega]; omega)
        (fun k hk hkn => by
          rcases Nat.eq_or_lt_of_le (show new_r ≤ k by omega) with rfl | hlt
          · omega
          · exact hinv k hlt hkn)
      exact ⟨g1, by omega, g3, g4⟩

/-- Result of lines 331-343: the new start of the range is the first index from
which the suffix sum of extra sub-primitives is strictly below the budget. -/
theorem shrinkRange_spec (items : List PresplitItem) (r budget : ℕ)
    (hn : items.length < 2 ^ 64) (hr : r < items.length)
    (htotal : budget < extraSum items r) :
    r < shrinkRange items r items.length budget (extraSum items r) ∧
    shrinkRange items r items.length budget (extraSum items r) ≤ items.length ∧
    extraSum items (shrinkRange items r items.length budget (extraSum items r)) ≤ budget ∧
    (∀ k, r ≤ k → k < shrinkRange items r items.length budget (extraSum items r) →
      budget ≤ extraSum items k) ∧
    (∀ k, shrinkRange items r items.length budget (extraSum items r) ≤ k →
      k < items.length → extraSum items k < budget) := by
  have h1 : sizeSub items.length 1 = items.length - 1 := sizeSub_eq (by omega) hn
  obtain ⟨g1, g2, g3, g4⟩ := shrinkLoop_spec items r budget hn htotal items.length
    (items.length - 1) 0 (by omega) (by omega) (by omega)
    (by rw [extraSum_of_le items (by omega)])
    (fun k hk hkn => by omega)
  simp only [shrinkRange]
  rw [if_pos (show extraSum items r > budget from htotal), h1]
  rw [Nat.mod_eq_of_lt (by omega)]
  refine ⟨by omega, by omega, ?_, ?_, ?_⟩
  · by_cases hx : shrinkLoop items r budget items.length (items.length - 1) 0 + 1
        < items.length
    · exact le_of_lt (g4 _ (by omega) hx)
    · rw [extraSum_of_le items (by omega)]; exact Nat.zero_le _
  · intro k _ hk
    exact le_trans g3 (extraSum_antitone items (by omega))
  · intro k hk hkn
    exact g4 k (by omega) hkn

/-- In every case the start of the committed range stays inside the selected
range and the extra sub-primitives of the committed range fit the budget. -/
theorem shrinkRange_fits (items : List PresplitItem) (r budget : ℕ)
    (hn : items.length < 2 ^ 64) (hr : r < items.length) :
    r ≤ shrinkRange items r items.length budget (extraSum items r) ∧
    shrinkRange items r items.length budget (extraSum items r) ≤ items.length ∧
    extraSum items (shrinkRange items r items.length budget (extraSum items r)) ≤ budget := by
  by_cases htotal : budget < extraSum items r
  · obtain ⟨h1, h2, h3, -, -⟩ := shrinkRange_spec items r budget hn hr htotal
    exact ⟨le_of_lt h1, h2, h3⟩
  · simp only [shrinkRange]
    rw [if_neg (by simpa using htotal)]
    exact ⟨le_refl _, le_of_lt hr, not_lt.1 htotal⟩
/-! ## Measurement (lines 308-328) -/

theorem yieldOf_bounds (E : Env) (g : Grid) (prims : List PrimRef) (index depth : ℕ) :
    1 ≤ yieldOf E g prims index depth ∧ yieldOf E g prims index depth ≤ 2 ^ depth :=
  splitPrimitive_emitted_length E _ _ g.grid_base g.grid_scale g.grid_extend depth _

theorem yieldOf_le_32 (E : Env) (g : Grid) (prims : List PrimRef) (index : ℕ) {depth : ℕ}
    (hd : depth ≤ 5) : yieldOf E g prims index depth ≤ 32 := by
  have h := (yieldOf_bounds E g prims index depth).2
  have : 2 ^ depth ≤ 2 ^ 5 := Nat.pow_le_pow_right (by norm_num) hd
  omega

theorem splitPrimitive_numSubPrims_nil (E : Env) (prim : PrimRef) (geomID primID level : ℕ)
    (grid_base : Vec3fa) (grid_scale grid_extend : ℚ) (failed : List ℕ) :
    (splitPrimitive E prim geomID primID level grid_base grid_scale grid_extend
      ⟨[], failed⟩).subPrims
      = (splitPrimitive E prim geomID primID level grid_base grid_scale grid_extend
        ⟨[], []⟩).subPrims := by
  rw [splitPrimitive_subPrims]
  rfl

theorem IsLevel.floor_le {it : PresplitItem} (h : IsLevel it) : ⌊it.priority⌋₊ ≤ 5 := by
  rcases h with h | ⟨d, _, hd5, hv⟩
  · rw [Nat.floor_of_nonpos h]; exact Nat.zero_le _
  · simp only [PresplitItem.priority, hv, Nat.floor_natCast]
    exact hd5

theorem IsLevel.floor_pos {it : PresplitItem} (h : IsLevel it) (h1 : 1 ≤ it.priority) :
    1 ≤ ⌊it.priority⌋₊ ∧ (⌊it.priority⌋₊ : ℚ) = it.priority := by
  rcases h with h | ⟨d, hd1, _, hv⟩
  · exact absurd (le_trans h1 h) (by norm_num)
  · simp only [PresplitItem.priority, hv, Nat.floor_natCast]
    exact ⟨hd1, trivial⟩

theorem measureItem_index (E : Env) (g : Grid) (prims : List PrimRef) (it : PresplitItem) :
    (measureItem E g prims it).1.index = it.index := rfl

theorem measureItem_extra (E : Env) (g : Grid) (prims : List PrimRef) (it : PresplitItem)
    (hd : ⌊it.priority⌋₊ ≤ 5) :
    (measureItem E g prims it).2.1 = yieldOf E g prims it.index ⌊it.priority⌋₊ - 1 := by
  have hy := yieldOf_bounds E g prims it.index ⌊it.priority⌋₊
  have hy32 := yieldOf_le_32 E g prims it.index hd
  simp only [measureItem, SubPrimBuffer.numSubPrims, splitPrimitive_numSubPrims_nil]
  exact sizeSub_eq hy.1 (lt_of_le_of_lt hy32 (by norm_num))

theorem measureItem_value (E : Env) (g : Grid) (prims : List PrimRef) (it : PresplitItem)
    (hd : ⌊it.priority⌋₊ ≤ 5) :
    (measureItem E g prims it).1
      = ⟨.data ((((yieldOf E g prims it.index ⌊it.priority⌋₊ - 1)
          <<< MAX_PRESPLITS_PER_PRIMITIVE_LOG) ||| ⌊it.priority⌋₊) % 2 ^ 32), it.index⟩ := by
  have h := measureItem_extra E g prims it hd
  simp only [measureItem] at h ⊢
  rw [h]

theorem measureItem_stored (E : Env) (g : Grid) (prims : List PrimRef) (it : PresplitItem)
    (hd : ⌊it.priority⌋₊ ≤ 5) :
    (measureItem E g prims it).1.extra = yieldOf E g prims it.index ⌊it.priority⌋₊ - 1 ∧
    (measureItem E g prims it).1.depth = ⌊it.priority⌋₊ := by
  have hy := yieldOf_bounds E g prims it.index ⌊it.priority⌋₊
  have hy32 := yieldOf_le_32 E g prims it.index hd
  rw [measureItem_value E g prims it hd]
  exact ⟨pack_extra (by omega) hd, pack_depth (by omega) hd⟩

/-- Lines of the asserts that may be violated inside a call of `splitPrimitive`. -/
theorem splitPrimitive_failed_lines (E : Env) (geomID primID : ℕ) (grid_base : Vec3fa)
    (grid_scale grid_extend : ℚ) (split_level : ℕ) :
    ∀ (prim : PrimRef) (buf : SubPrimBuffer),
      ∀ k ∈ (splitPrimitive E prim geomID primID split_level grid_base grid_scale grid_extend
          buf).failed,
        k ∈ buf.failed ∨ k = 98 ∨ k = 101 ∨ k = 123 ∨ k = 141 ∨ k = 148 ∨ k = 149 := by
  induction split_level with
  | zero =>
    intro prim buf k hk
    simp only [splitPrimitive] at hk
    rcases assertAt_mem hk with hk | hk
    · rcases assertAt_mem hk with hk | hk
      · exact Or.inl hk
      · exact Or.inr (Or.inl hk.1)
    · exact Or.inr (Or.inr (Or.inl hk.1))
  | succ level ih =>
    intro prim buf k hk
    by_cases h : (splitPrimitiveCodes E grid_base grid_scale prim).2.2.1
      = (splitPrimitiveCodes E grid_base grid_scale prim).2.2.2
    · rw [splitPrimitive_succ_eq _ _ _ _ _ _ _ _ _ h] at hk
      rcases assertAt_mem hk with hk | hk
      · rcases assertAt_mem hk with hk | hk
        · exact Or.inl hk
        · exact Or.inr (Or.inl hk.1)
      · exact Or.inr (Or.inr (Or.inr (Or.inl hk.1)))
    · obtain ⟨f, hf, e⟩ := splitPrimitive_succ_ne E prim geomID primID level grid_base
        grid_scale grid_extend buf h
      rw [e] at hk
      rcases ih _ _ k hk with h | h
      · rcases ih _ _ k h with h | h
        · rcases hf k h with h | h | h | h | h
          · exact Or.inl h
          · exact Or.inr (Or.inl h.1)
          · exact Or.inr (Or.inr (Or.inr (Or.inr (Or.inl h))))
          · exact Or.inr (Or.inr (Or.inr (Or.inr (Or.inr (Or.inl h)))))
          · exact Or.inr (Or.inr (Or.inr (Or.inr (Or.inr (Or.inr h)))))
        · exact Or.inr h
      · exact Or.inr h

theorem measureItem_failed (E : Env) (g : Grid) (prims : List PrimRef) (it : PresplitItem)
    (hd : ⌊it.priority⌋₊ ≤ 5) (hp : 1 ≤ it.priority) :
    ∀ k ∈ (measureItem E g prims it).2.2,
      k ≠ 98 ∧ k ≠ 101 ∧ k ≠ 123 ∧ k ≠ 314 ∧ k ≠ 322 ∧ k ≠ 271 ∧ k ≠ 306 ∧ k ≠ 358 ∧ k ≠ 359
        ∧ k ≠ 364 := by
  intro k hk
  have hy := yieldOf_bounds E g prims it.index ⌊it.priority⌋₊
  have hpow : 2 ^ ⌊it.priority⌋₊ ≤ 2 ^ 5 := Nat.pow_le_pow_right (by norm_num) hd
  simp only [measureItem] at hk
  rcases assertAt_mem hk with hk | hk
  · rw [assertAt_of_true (show it.priority ≥ 1 from hp)] at hk
    have h1 := splitPrimitive_failed E _ _ g.grid_base g.grid_scale g.grid_extend
      ⌊it.priority⌋₊ _ ⟨[], []⟩ hd
      (by simpa [SubPrimBuffer.numSubPrims, MAX_PRESPLITS_PER_PRIMITIVE,
        MAX_PRESPLITS_PER_PRIMITIVE_LOG] using hpow) k hk
    have h2 := splitPrimitive_failed_lines E _ _ g.grid_base g.grid_scale g.grid_extend
      ⌊it.priority⌋₊ _ ⟨[], []⟩ k hk
    simp only [List.not_mem_nil, false_or] at h1 h2
    omega
  · exfalso
    apply hk.2
    simp only [SubPrimBuffer.numSubPrims, splitPrimitive_numSubPrims_nil]
    have : yieldOf E g prims it.index ⌊it.priority⌋₊ ≠ 0 := by omega
    exact this

theorem measureRange_items (E : Env) (g : Grid) (prims : List PrimRef)
    (items : List PresplitItem) (r : ℕ) :
    (measureRange E g prims items r).1
      = items.take r ++ (items.drop r).map (fun it => (measureItem E g prims it).1) := by
  simp [measureRange, List.map_map, Function.comp_def]

theorem measureRange_length (E : Env) (g : Grid) (prims : List PrimRef)
    (items : List PresplitItem) (r : ℕ) :
    (measureRange E g prims items r).1.length = items.length := by
  rw [measureRange_items, List.length_append, List.length_map, List.length_take,
    List.length_drop]
  omega

theorem measureRange_drop (E : Env) (g : Grid) (prims : List PrimRef)
    (items : List PresplitItem) (r k : ℕ) (hr : r ≤ items.length) (hk : r ≤ k) :
    (measureRange E g prims items r).1.drop k
      = (items.drop k).map (fun it => (measureItem E g prims it).1) := by
  rw [measureRange_items]
  obtain ⟨d, rfl⟩ := Nat.exists_eq_add_of_le hk
  have hlen : (items.take r).length = r := by rw [List.length_take]; omega
  rw [show r + d = (items.take r).length + d by rw [hlen], List.drop_append,
    ← List.map_drop, List.drop_drop, hlen]

theorem measureRange_getD (E : Env) (g : Grid) (prims : List PrimRef)
    (items : List PresplitItem) (r k : ℕ) (hk : r ≤ k) (hkn : k < items.length) :
    (measureRange E g prims items r).1.getD k default
      = (measureItem E g prims (items.getD k default)).1 := by
  have h := measureRange_drop E g prims items r k (by omega) hk
  have h1 : k < (measureRange E g prims items r).1.length := by
    rw [measureRange_length]; exact hkn
  rw [List.drop_eq_getElem_cons h1, List.drop_eq_getElem_cons hkn, List.map_cons] at h
  rw [List.getD_eq_getElem _ _ h1, List.getD_eq_getElem _ _ hkn]
  exact (List.cons.inj h).1

theorem measureRange_getD_lt (E : Env) (g : Grid) (prims : List PrimRef)
    (items : List PresplitItem) (r k : ℕ) (hk : k < r) (hr : r ≤ items.length) :
    (measureRange E g prims items r).1.getD k default = items.getD k default := by
  rw [measureRange_items]
  have hlen : (items.take r).length = r := by rw [List.length_take]; omega
  rw [List.getD_eq_getElem?_getD, List.getElem?_append_left (by omega), List.getElem?_take,
    if_pos hk, ← List.getD_eq_getElem?_getD]
/-! ## Commit (lines 346-371) -/

theorem depth_eq (it : PresplitItem) : it.data &&& 31 = it.depth := rfl

theorem yieldOf_eq_length (E : Env) (g : Grid) (prims : List PrimRef) (index depth : ℕ) :
    yieldOf E g prims index depth = (subPrimsOf E g prims index depth).length := rfl

theorem commitItem_failed (E : Env) (g : Grid) (n alloc : ℕ) (st : CommitState)
    (it : PresplitItem) (hd1 : 1 ≤ it.depth) (hd5 : it.depth ≤ 5) :
    ∀ k ∈ (commitItem E g n alloc st it).failed,
      k ∈ st.failed ∨ (k ≠ 271 ∧ k ≠ 306 ∧ k ≠ 314 ∧ k ≠ 322 ∧ k ≠ 358 ∧ k ≠ 359 ∧ k ≠ 98
        ∧ k ≠ 101 ∧ k ≠ 123 ∧
        (k = 364 → ¬ n + st.offset + yieldOf E g st.prims it.index it.depth ≤ alloc)) := by
  intro k hk
  have hpow : 2 ^ it.depth ≤ 2 ^ 5 := Nat.pow_le_pow_right (by norm_num) hd5
  simp only [commitItem] at hk
  rcases assertAt_mem hk with hk | hk
  · have h1 := splitPrimitive_failed E _ _ g.grid_base g.grid_scale g.grid_extend
      it.depth _ ⟨[], _⟩ hd5
      (by simpa [SubPrimBuffer.numSubPrims, MAX_PRESPLITS_PER_PRIMITIVE,
        MAX_PRESPLITS_PER_PRIMITIVE_LOG] using hpow) k hk
    have h2 := splitPrimitive_failed_lines E _ _ g.grid_base g.grid_scale g.grid_extend
      it.depth _ ⟨[], _⟩ k hk
    simp only at h1 h2
    have hin : k ∈ assertAt 359 (it.depth ≤ MAX_PRESPLITS_PER_PRIMITIVE_LOG)
        (assertAt 358 (it.depth ≠ 0) st.failed) → k ∈ st.failed := by
      intro h
      rcases assertAt_mem h with h | h
      · rcases assertAt_mem h with h | h
        · exact h
        · exact absurd (show it.depth ≠ 0 by omega) h.2
      · exact absurd hd5 h.2
    rcases h1 with h1 | h1
    · exact Or.inl (hin h1)
    · rcases h2 with h2 | h2
      · exact Or.inl (hin h2)
      · right; omega
  · right
    obtain ⟨rfl, hc⟩ := hk
    refine ⟨by omega, by omega, by omega, by omega, by omega, by omega, by omega, by omega,
      by omega, fun _ => ?_⟩
    simpa only [SubPrimBuffer.numSubPrims, splitPrimitive_numSubPrims_nil] using hc

theorem commitFold_failed (E : Env) (g : Grid) (n alloc : ℕ) :
    ∀ (sel : List PresplitItem) (st : CommitState),
      (∀ it ∈ sel, 1 ≤ it.depth ∧ it.depth ≤ 5) →
      ∀ k ∈ (sel.foldl (commitItem E g n alloc) st).failed,
        k ∈ st.failed ∨ (k ≠ 271 ∧ k ≠ 306 ∧ k ≠ 314 ∧ k ≠ 322 ∧ k ≠ 358 ∧ k ≠ 359 ∧ k ≠ 98
          ∧ k ≠ 101 ∧ k ≠ 123) := by
  intro sel
  induction sel with
  | nil => intro st _ k hk; exact Or.inl hk
  | cons it rest ih =>
    intro st hdep k hk
    simp only [List.foldl_cons] at hk
    rcases ih _ (fun it2 h2 => hdep it2 (List.mem_cons_of_mem _ h2)) k hk with h | h
    · rcases commitItem_failed E g n alloc st it (hdep it (List.mem_cons_self _ _)).1
        (hdep it (List.mem_cons_self _ _)).2 k h with h | h
      · exact Or.inl h
      · right
        obtain ⟨a1, a2, a3, a4, a5, a6, a7, a8, a9, -⟩ := h
        exact ⟨a1, a2, a3, a4, a5, a6, a7, a8, a9⟩
    · exact Or.inr h

/-! ## The whole pass -/

theorem run_budget (E : Env) (pinfo : PrimInfo) (prims : List PrimRef) :
    (createPrimRefArray_presplit E pinfo prims).numPrimitivesToSplit
      = sizeSub prims.length pinfo.size := by
  unfold createPrimRefArray_presplit
  simp only []
  split <;> rfl

theorem run_sorted (E : Env) (pinfo : PrimInfo) (prims : List PrimRef) :
    (createPrimRefArray_presplit E pinfo prims).sorted
      = E.radix_sort_u32 (computeSplitLevels (sizeSub prims.length pinfo.size)
          (initPresplitItems E (computeGrid pinfo) prims pinfo.size)).1 := by
  unfold createPrimRefArray_presplit
  simp only []
  split <;> rfl

theorem run_searched (E : Env) (pinfo : PrimInfo) (prims : List PrimRef) :
    (createPrimRefArray_presplit E pinfo prims).searched
      = binarySearch (createPrimRefArray_presplit E pinfo prims).sorted pinfo.size 0
          pinfo.size := by
  rw [run_sorted]
  unfold createPrimRefArray_presplit
  simp only []
  split <;> rfl

theorem run_of_not_lt (E : Env) (pinfo : PrimInfo) (prims : List PrimRef)
    (h : ¬ (createPrimRefArray_presplit E pinfo prims).searched < pinfo.size) :
    (createPrimRefArray_presplit E pinfo prims).presplitItem
        = (createPrimRefArray_presplit E pinfo prims).sorted ∧
    (createPrimRefArray_presplit E pinfo prims).totalNumSubPrims = 0 ∧
    (createPrimRefArray_presplit E pinfo prims).r
        = (createPrimRefArray_presplit E pinfo prims).searched ∧
    (createPrimRefArray_presplit E pinfo prims).prims = prims ∧
    (createPrimRefArray_presplit E pinfo prims).numPrimitives = pinfo.size ∧
    (createPrimRefArray_presplit E pinfo prims).failed
        = (computeSplitLevels (sizeSub prims.length pinfo.size)
          (initPresplitItems E (computeGrid pinfo) prims pinfo.size)).2 := by
  rw [run_searched, run_sorted] at h
  unfold createPrimRefArray_presplit
  simp only []
  rw [if_neg h]
  exact ⟨rfl, rfl, rfl, rfl, rfl, rfl⟩

theorem run_of_lt (E : Env) (pinfo : PrimInfo) (prims : List PrimRef)
    (h : (createPrimRefArray_presplit E pinfo prims).searched < pinfo.size) :
    (createPrimRefArray_presplit E pinfo prims).presplitItem
        = (measureRange E (computeGrid pinfo) prims
            (createPrimRefArray_presplit E pinfo prims).sorted
            (createPrimRefArray_presplit E pinfo prims).searched).1 ∧
    (createPrimRefArray_presplit E pinfo prims).totalNumSubPrims
        = (measureRange E (computeGrid pinfo) prims
            (createPrimRefArray_presplit E pinfo prims).sorted
            (createPrimRefArray_presplit E pinfo prims).searched).2.1 ∧
    (createPrimRefArray_presplit E pinfo prims).r
        = shrinkRange (createPrimRefArray_presplit E pinfo prims).presplitItem
            (createPrimRefArray_presplit E pinfo prims).searched pinfo.size
            (sizeSub prims.length pinfo.size)
            (createPrimRefArray_presplit E pinfo prims).totalNumSubPrims ∧
    (∃ failed : List ℕ,
      (∀ k ∈ failed, k ∈ (computeSplitLevels (sizeSub prims.length pinfo.size)
          (initPresplitItems E (computeGrid pinfo) prims pinfo.size)).2 ∨
        (k = 306 ∧ ¬ ((createPrimRefArray_presplit E pinfo prims).sorted.getD
          (createPrimRefArray_presplit E pinfo prims).searched default).priority ≥ 1) ∨
        k ∈ (measureRange E (computeGrid pinfo) prims
            (createPrimRefArray_presplit E pinfo prims).sorted
            (createPrimRefArray_presplit E pinfo prims).searched).2.2) ∧
      (createPrimRefArray_presplit E pinfo prims).prims
        = (commitRange E (computeGrid pinfo) pinfo.size prims.length prims
            (createPrimRefArray_presplit E pinfo prims).presplitItem
            (createPrimRefArray_presplit E pinfo prims).r failed).prims ∧
      (createPrimRefArray_presplit E pinfo prims).numPrimitives
        = pinfo.size + (commitRange E (computeGrid pinfo) pinfo.size prims.length prims
            (createPrimRefArray_presplit E pinfo prims).presplitItem
            (createPrimRefArray_presplit E pinfo prims).r failed).offset ∧
      (createPrimRefArray_presplit E pinfo prims).failed
        = (commitRange E (computeGrid pinfo) pinfo.size prims.length prims
            (createPrimRefArray_presplit E pinfo prims).presplitItem
            (createPrimRefArray_presplit E pinfo prims).r failed).failed) := by
  have h2 := h
  rw [run_searched, run_sorted] at h2
  clear h
  unfold createPrimRefArray_presplit
  simp only []
  simp only [if_pos h2]
  refine ⟨trivial, trivial, trivial, ⟨_, ?_, rfl, rfl, rfl⟩⟩
  intro k hk
  rcases List.mem_append.1 hk with hk | hk
  · rcases assertAt_mem hk with hk | hk
    · exact Or.inl hk
    · exact Or.inr (Or.inl hk)
  · exact Or.inr (Or.inr hk)
/-- Facts about the sorted array of a run, for a sort that meets its contract. -/
theorem run_sorted_facts (E : Env) (hsort : SortSpec E) (pinfo : PrimInfo)
    (prims : List PrimRef) :
    (createPrimRefArray_presplit E pinfo prims).sorted.length = pinfo.size ∧
    (∀ it ∈ (createPrimRefArray_presplit E pinfo prims).sorted, IsLevel it) ∧
    ((createPrimRefArray_presplit E pinfo prims).sorted.map PresplitItem.index).Nodup ∧
    (∀ it ∈ (createPrimRefArray_presplit E pinfo prims).sorted, it.index < pinfo.size) ∧
    (createPrimRefArray_presplit E pinfo prims).sorted.Pairwise
      (fun a b => a.priority ≤ b.priority) ∧
    (createPrimRefArray_presplit E pinfo prims).searched ≤ pinfo.size ∧
    (0 < pinfo.size → 1 ≤ (createPrimRefArray_presplit E pinfo prims).searched) ∧
    (∀ j, (createPrimRefArray_presplit E pinfo prims).searched ≤ j → j < pinfo.size →
      1 ≤ ((createPrimRefArray_presplit E pinfo prims).sorted.getD j default).priority) ∧
    (∀ j, 1 ≤ j → j < (createPrimRefArray_presplit E pinfo prims).searched →
      ((createPrimRefArray_presplit E pinfo prims).sorted.getD j default).priority < 1) := by
  obtain ⟨hperm, hpair⟩ := hsort (computeSplitLevels (sizeSub prims.length pinfo.size)
    (initPresplitItems E (computeGrid pinfo) prims pinfo.size)).1
  have hlen : (createPrimRefArray_presplit E pinfo prims).sorted.length = pinfo.size := by
    rw [run_sorted, hperm.length_eq, computeSplitLevels_fst, List.length_map,
      initPresplitItems_length]
  have hidx : ((createPrimRefArray_presplit E pinfo prims).sorted.map PresplitItem.index).Perm
      (List.range pinfo.size) := by
    rw [run_sorted]
    have := hperm.map PresplitItem.index
    rwa [computeSplitLevels_index, initPresplitItems_index] at this
  have hbs := binarySearch_top (createPrimRefArray_presplit E pinfo prims).sorted
    (by rw [run_sorted]; exact hpair)
  rw [hlen, ← run_searched] at hbs
  refine ⟨hlen, ?_, ?_, ?_, by rw [run_sorted]; exact hpair, hbs.1, hbs.2.1, hbs.2.2.1,
    hbs.2.2.2⟩
  · intro it hit
    rw [run_sorted] at hit
    exact computeSplitLevels_isLevel _ _ it (hperm.mem_iff.1 hit)
  · exact hidx.nodup_iff.2 (List.nodup_range _)
  · intro it hit
    have : it.index ∈ List.range pinfo.size :=
      hidx.mem_iff.1 (List.mem_map.2 ⟨it, hit, rfl⟩)
    exact List.mem_range.1 this

theorem getD_mem {α : Type} [Inhabited α] (l : List α) {j : ℕ} (hj : j < l.length) :
    l.getD j default ∈ l := by
  rw [List.getD_eq_getElem _ _ hj]
  exact List.getElem_mem _

theorem mem_drop_iff_getD {α : Type} [Inhabited α] (l : List α) (k : ℕ) (a : α) :
    a ∈ l.drop k ↔ ∃ j, k ≤ j ∧ j < l.length ∧ l.getD j default = a := by
  constructor
  · intro h
    obtain ⟨i, hi, rfl⟩ := List.getElem_of_mem h
    rw [List.length_drop] at hi
    refine ⟨k + i, by omega, by omega, ?_⟩
    rw [List.getD_eq_getElem _ _ (by omega), List.getElem_drop]
  · rintro ⟨j, hkj, hj, rfl⟩
    rw [List.getD_eq_getElem _ _ hj]
    obtain ⟨d, rfl⟩ := Nat.exists_eq_add_of_le hkj
    have : d < (l.drop k).length := by rw [List.length_drop]; omega
    have e : (l.drop k)[d] = l[k + d] := List.getElem_drop l
    rw [← e]
    exact List.getElem_mem _

theorem measured_sum_eq (E : Env) (g : Grid) (prims : List PrimRef) :
    ∀ l : List PresplitItem, (∀ it ∈ l, ⌊it.priority⌋₊ ≤ 5) →
      ((l.map (measureItem E g prims)).map (fun m => m.2.1)).sum
        = ((l.map (fun it => (measureItem E g prims it).1)).map PresplitItem.extra).sum := by
  intro l
  induction l with
  | nil => intro _; rfl
  | cons a l ih =>
    intro h
    simp only [List.map_cons, List.sum_cons]
    rw [ih (fun it hit => h it (List.mem_cons_of_mem _ hit)),
      measureItem_extra _ _ _ _ (h a (List.mem_cons_self _ _)),
      (measureItem_stored _ _ _ _ (h a (List.mem_cons_self _ _))).1]

/-- Facts about the measurement of the range `[r, n)` of an array whose entries
from `r` on hold split depths between 1 and 5. -/
theorem measureRange_facts (E : Env) (g : Grid) (prims : List PrimRef)
    (items : List PresplitItem) (r : ℕ) (hr : r ≤ items.length)
    (hfloor : ∀ j, r ≤ j → j < items.length →
      1 ≤ (items.getD j default).priority ∧ 1 ≤ ⌊(items.getD j default).priority⌋₊ ∧
      ⌊(items.getD j default).priority⌋₊ ≤ 5) :
    (∀ j, r ≤ j → j < items.length →
      ((measureRange E g prims items r).1.getD j default).index
        = (items.getD j default).index ∧
      ((measureRange E g prims items r).1.getD j default).depth
        = ⌊(items.getD j default).priority⌋₊ ∧
      1 ≤ ((measureRange E g prims items r).1.getD j default).depth ∧
      ((measureRange E g prims items r).1.getD j default).depth ≤ 5 ∧
      ((measureRange E g prims items r).1.getD j default).extra
        = yieldOf E g prims ((measureRange E g prims items r).1.getD j default).index
            ((measureRange E g prims items r).1.getD j default).depth - 1) ∧
    (∀ k, r ≤ k →
      extraSum (measureRange E g prims items r).1 k
        = extrasOf E g prims ((measureRange E g prims items r).1.drop k)) ∧
    (measureRange E g prims items r).2.1 = extraSum (measureRange E g prims items r).1 r ∧
    (∀ k ∈ (measureRange E g prims items r).2.2,
      k ≠ 98 ∧ k ≠ 101 ∧ k ≠ 123 ∧ k ≠ 314 ∧ k ≠ 322 ∧ k ≠ 271 ∧ k ≠ 306 ∧ k ≠ 358 ∧ k ≠ 359
        ∧ k ≠ 364) := by
  have hfacts : ∀ j, r ≤ j → j < items.length →
      ((measureRange E g prims items r).1.getD j default).index
        = (items.getD j default).index ∧
      ((measureRange E g prims items r).1.getD j default).depth
        = ⌊(items.getD j default).priority⌋₊ ∧
      1 ≤ ((measureRange E g prims items r).1.getD j default).depth ∧
      ((measureRange E g prims items r).1.getD j default).depth ≤ 5 ∧
      ((measureRange E g prims items r).1.getD j default).extra
        = yieldOf E g prims ((measureRange E g prims items r).1.getD j default).index
            ((measureRange E g prims items r).1.getD j default).depth - 1 := by
    intro j hj hjn
    obtain ⟨-, f1, f5⟩ := hfloor j hj hjn
    obtain ⟨s1, s2⟩ := measureItem_stored E g prims (items.getD j default) f5
    rw [measureRange_getD E g prims items r j hj hjn]
    refine ⟨rfl, s2, by rw [s2]; exact f1, by rw [s2]; exact f5, ?_⟩
    rw [s1, s2]
    rfl
  have hmlen := measureRange_length E g prims items r
  refine ⟨hfacts, ?_, ?_, ?_⟩
  · intro k hk
    unfold extraSum extrasOf
    refine congrArg List.sum (List.map_congr_left ?_)
    intro it hit
    obtain ⟨j, hkj, hj, rfl⟩ := (mem_drop_iff_getD _ _ _).1 hit
    rw [hmlen] at hj
    rw [(hfacts j (by omega) hj).2.2.2.2, depth_eq]
  · unfold extraSum
    rw [measureRange_drop _ _ _ _ _ _ hr (le_refl _)]
    have e : (measureRange E g prims items r).2.1
        = (((items.drop r).map (measureItem E g prims)).map (fun m => m.2.1)).sum := rfl
    rw [e]
    apply measured_sum_eq
    intro it hit
    obtain ⟨j, hkj, hj, rfl⟩ := (mem_drop_iff_getD _ _ _).1 hit
    exact (hfloor j hkj hj).2.2
  · intro k hk
    simp only [measureRange] at hk
    obtain ⟨l, hl, hkl⟩ := List.mem_flatten.1 hk
    obtain ⟨m, hmm, rfl⟩ := List.mem_map.1 hl
    obtain ⟨it, hit, rfl⟩ := List.mem_map.1 hmm
    obtain ⟨j, hkj, hj, rfl⟩ := (mem_drop_iff_getD _ _ _).1 hit
    obtain ⟨f0, f1, f5⟩ := hfloor j hkj hj
    exact measureItem_failed _ _ _ _ f5 f0 k hkl
/-! ## The sample environment meets the contracts -/

theorem insertItem_perm (a : PresplitItem) (l : List PresplitItem) :
    (insertItem a l).Perm (a :: l) := by
  induction l with
  | nil => exact List.Perm.refl _
  | cons b l ih =>
    simp only [insertItem]
    split
    · exact List.Perm.refl _
    · exact (List.Perm.cons b ih).trans (List.Perm.swap a b l)

theorem insertItem_sorted (a : PresplitItem) (l : List PresplitItem)
    (h : l.Pairwise (fun a b => a.priority ≤ b.priority)) :
    (insertItem a l).Pairwise (fun a b => a.priority ≤ b.priority) := by
  induction l with
  | nil => simp [insertItem]
  | cons b l ih =>
    simp only [insertItem]
    have hb := List.pairwise_cons.1 h
    split
    · rename_i hab
      refine List.pairwise_cons.2 ⟨?_, h⟩
      intro c hc
      rcases List.mem_cons.1 hc with rfl | hc
      · exact hab
      · exact le_trans hab (hb.1 c hc)
    · rename_i hab
      refine List.pairwise_cons.2 ⟨?_, ih hb.2⟩
      intro c hc
      rcases List.mem_cons.1 ((insertItem_perm a l).mem_iff.1 hc) with rfl | hc
      · exact le_of_lt (not_le.1 hab)
      · exact hb.1 c hc

theorem sampleEnv_sortSpec : SortSpec sampleEnv := by
  intro items
  show (sortItems items).Perm items ∧ (sortItems items).Pairwise _
  induction items with
  | nil => exact ⟨List.Perm.refl _, List.Pairwise.nil⟩
  | cons a l ih =>
    simp only [sortItems]
    exact ⟨(insertItem_perm a _).trans (List.Perm.cons a ih.1), insertItem_sorted a _ ih.2⟩

theorem sampleEnv_vint4_mono : Monotone sampleEnv.vint4 := by
  intro a b hab
  show ⌊a + 1 / 2⌋ ≤ ⌊b + 1 / 2⌋
  exact Int.floor_le_floor (by linarith)

/-! ## Budget and frame of the whole pass -/

theorem measureRange_index (E : Env) (g : Grid) (prims : List PrimRef)
    (items : List PresplitItem) (r : ℕ) :
    (measureRange E g prims items r).1.map PresplitItem.index
      = items.map PresplitItem.index := by
  rw [measureRange_items, List.map_append, List.map_map]
  have : (PresplitItem.index ∘ fun it => (measureItem E g prims it).1) = PresplitItem.index := by
    funext it
    rfl
  rw [this, ← List.map_append, List.take_append_drop]

/-- Values of the commit of a run that selected a non-empty range: the start of
the committed range, the budget and the effect on `prims`. -/
theorem run_commit_facts (E : Env) (hsort : SortSpec E) (pinfo : PrimInfo)
    (prims : List PrimRef) (hn : pinfo.size ≤ prims.length) (hsize : prims.length < 2 ^ 64)
    (R : PresplitRun) (hR : R = createPrimRefArray_presplit E pinfo prims)
    (h : R.searched < pinfo.size) :
    R.searched ≤ R.r ∧ R.r ≤ pinfo.size ∧
    pinfo.size + extrasOf E (computeGrid pinfo) prims (R.presplitItem.drop R.r) ≤ prims.length ∧
    ((R.presplitItem.drop R.r).map PresplitItem.index).Nodup ∧
    (∀ it ∈ R.presplitItem.drop R.r, it.index < pinfo.size) ∧
    (∀ it ∈ R.presplitItem.drop R.r, 1 ≤ it.depth ∧ it.depth ≤ 5) ∧
    ∃ failed : List ℕ,
      (∀ k ∈ failed, k ≠ 98 ∧ k ≠ 101 ∧ k ≠ 123 ∧ k ≠ 314 ∧ k ≠ 322 ∧ k ≠ 271 ∧ k ≠ 306 ∧
        k ≠ 358 ∧ k ≠ 359 ∧ k ≠ 364) ∧
      R.prims = ((R.presplitItem.drop R.r).foldl
        (commitItem E (computeGrid pinfo) pinfo.size prims.length) ⟨prims, 0, failed⟩).prims ∧
      R.numPrimitives = pinfo.size + ((R.presplitItem.drop R.r).foldl
        (commitItem E (computeGrid pinfo) pinfo.size prims.length) ⟨prims, 0, failed⟩).offset ∧
      R.failed = ((R.presplitItem.drop R.r).foldl
        (commitItem E (computeGrid pinfo) pinfo.size prims.length) ⟨prims, 0, failed⟩).failed := by
  subst hR
  obtain ⟨hlen, hlev, hnd, hidx, hpair, hr, -, hge, -⟩ := run_sorted_facts E hsort pinfo prims
  obtain ⟨hm, ht, hrr, failed, hfailed, hp, hnum, hf⟩ := run_of_lt E pinfo prims h
  have hfloor : ∀ j, (createPrimRefArray_presplit E pinfo prims).searched ≤ j →
      j < (createPrimRefArray_presplit E pinfo prims).sorted.length →
      1 ≤ ((createPrimRefArray_presplit E pinfo prims).sorted.getD j default).priority ∧
      1 ≤ ⌊((createPrimRefArray_presplit E pinfo prims).sorted.getD j default).priority⌋₊ ∧
      ⌊((createPrimRefArray_presplit E pinfo prims).sorted.getD j default).priority⌋₊ ≤ 5 := by
    intro j hj hjn
    have hl := hlev _ (getD_mem _ hjn)
    rw [hlen] at hjn
    exact ⟨hge j hj hjn, (hl.floor_pos (hge j hj hjn)).1, hl.floor_le⟩
  obtain ⟨mf, msum, mtot, mfail⟩ := measureRange_facts E (computeGrid pinfo) prims
    (createPrimRefArray_presplit E pinfo prims).sorted
    (createPrimRefArray_presplit E pinfo prims).searched (by rw [hlen]; exact hr) hfloor
  have mlen := measureRange_length E (computeGrid pinfo) prims
    (createPrimRefArray_presplit E pinfo prims).sorted
    (createPrimRefArray_presplit E pinfo prims).searched
  have midx := measureRange_index E (computeGrid pinfo) prims
    (createPrimRefArray_presplit E pinfo prims).sorted
    (createPrimRefArray_presplit E pinfo prims).searched
  rw [← hm] at mf msum mtot mlen midx
  rw [← ht] at mtot
  rw [hlen] at mf mlen
  have hb : sizeSub prims.length pinfo.size = prims.length - pinfo.size := sizeSub_eq hn hsize
  have hfit := shrinkRange_fits (createPrimRefArray_presplit E pinfo prims).presplitItem
    (createPrimRefArray_presplit E pinfo prims).searched (sizeSub prims.length pinfo.size)
    (by rw [mlen]; omega) (by rw [mlen]; exact h)
  rw [← mtot, mlen, ← hrr] at hfit
  obtain ⟨g1, g2, g3⟩ := hfit
  have hmem : ∀ it ∈ (createPrimRefArray_presplit E pinfo prims).presplitItem.drop
      (createPrimRefArray_presplit E pinfo prims).r,
      it.index < pinfo.size ∧ 1 ≤ it.depth ∧ it.depth ≤ 5 := by
    intro it hit
    obtain ⟨j, hj1, hj2, rfl⟩ := (mem_drop_iff_getD _ _ _).1 hit
    rw [mlen] at hj2
    obtain ⟨a1, a2, a3, a4, -⟩ := mf j (by omega) hj2
    rw [a1]
    exact ⟨hidx _ (getD_mem _ (by rw [hlen]; exact hj2)), a3, a4⟩
  refine ⟨g1, g2, ?_, ?_, fun it hit => (hmem it hit).1, fun it hit => (hmem it hit).2,
    failed, ?_, hp, hnum, hf⟩
  · rw [← msum _ g1]
    omega
  · rw [List.map_drop, midx, ← List.map_drop]
    exact List.Nodup.sublist ((List.drop_sublist _ _).map PresplitItem.index) hnd
  · intro k hk
    rcases hfailed k hk with hk | hk | hk
    · rw [computeSplitLevels_failed] at hk
      exact absurd hk (List.not_mem_nil _)
    · exfalso
      exact hk.2 (hge _ (le_refl _) h)
    · exact mfail k hk
theorem default_item_priority : (default : PresplitItem).priority = 0 := rfl

theorem assignSplitLevel_zero_budget (inv : ℚ) (it : PresplitItem) :
    (assignSplitLevel 0 inv it).1.priority ≤ 0 := by
  unfold assignSplitLevel
  by_cases h1 : it.priority > 0
  · rw [if_pos h1]
    have h2 : ¬ ((0 : ℕ) : ℚ) * it.priority * inv ≥ PRIORITY_CUTOFF_THRESHOLD := by
      simp [PRIORITY_CUTOFF_THRESHOLD]
    simp only [h2, if_false]
    exact le_refl _
  · rw [if_neg h1]
    exact not_lt.1 h1

/-- C10: when `prims.size()` equals the number of generated primitives the
budget is 0 and no primitive is split: the search returns `numPrimitives`, the
selected range is empty, the count and the array `prims` are unchanged. -/
theorem zero_budget_unchanged (E : Env) (hsort : SortSpec E) (pinfo : PrimInfo)
    (prims : List PrimRef) (hzero : prims.length = pinfo.size) :
    (createPrimRefArray_presplit E pinfo prims).numPrimitivesToSplit = 0 ∧
    (createPrimRefArray_presplit E pinfo prims).searched = pinfo.size ∧
    (createPrimRefArray_presplit E pinfo prims).r = pinfo.size ∧
    (createPrimRefArray_presplit E pinfo prims).presplitItem.drop
      (createPrimRefArray_presplit E pinfo prims).r = [] ∧
    (createPrimRefArray_presplit E pinfo prims).numPrimitives = pinfo.size ∧
    (createPrimRefArray_presplit E pinfo prims).prims = prims := by
  have hb : sizeSub prims.length pinfo.size = 0 := by
    rw [hzero]
    unfold sizeSub
    rw [Nat.add_sub_cancel_left, Nat.mod_self]
  obtain ⟨hlen, -, -, -, -, -, -, -, -⟩ := run_sorted_facts E hsort pinfo prims
  have hle : ∀ it ∈ (createPrimRefArray_presplit E pinfo prims).sorted, it.priority ≤ 0 := by
    intro it hit
    rw [run_sorted] at hit
    have hmem2 := (hsort _).1.mem_iff.1 hit
    rw [hb, computeSplitLevels_fst] at hmem2
    obtain ⟨a, -, rfl⟩ := List.mem_map.1 hmem2
    exact assignSplitLevel_zero_budget _ _
  have hall : ∀ j, ((createPrimRefArray_presplit E pinfo prims).sorted.getD j default).priority
      < 1 := by
    intro j
    by_cases hj : j < (createPrimRefArray_presplit E pinfo prims).sorted.length
    · exact lt_of_le_of_lt (hle _ (getD_mem _ hj)) (by norm_num)
    · rw [List.getD_eq_default _ _ (by omega), default_item_priority]
      norm_num
  have hs : (createPrimRefArray_presplit E pinfo prims).searched = pinfo.size := by
    rw [run_searched]
    exact binarySearch_all_lt _ hall _ _ _
  obtain ⟨hm, -, hr, hp, hnum, -⟩ := run_of_not_lt E pinfo prims (by rw [hs]; exact lt_irrefl _)
  refine ⟨by rw [run_budget, hb], hs, by rw [hr, hs], ?_, hnum, hp⟩
  rw [hm, hr, hs, List.drop_eq_nil_of_le (by rw [hlen])]

/-- C10 on the sample references with no spare capacity. -/
theorem zero_budget_unchanged_witness :
    SortSpec sampleEnv ∧ [samplePoint, sampleCube].length = samplePrimInfo.size ∧
    ((createPrimRefArray_presplit sampleEnv samplePrimInfo
        [samplePoint, sampleCube]).numPrimitivesToSplit = 0 ∧
    (createPrimRefArray_presplit sampleEnv samplePrimInfo [samplePoint, sampleCube]).searched
      = samplePrimInfo.size ∧
    (createPrimRefArray_presplit sampleEnv samplePrimInfo [samplePoint, sampleCube]).r
      = samplePrimInfo.size ∧
    (createPrimRefArray_presplit sampleEnv samplePrimInfo
        [samplePoint, sampleCube]).presplitItem.drop
      (createPrimRefArray_presplit sampleEnv samplePrimInfo [samplePoint, sampleCube]).r = [] ∧
    (createPrimRefArray_presplit sampleEnv samplePrimInfo [samplePoint, sampleCube]).numPrimitives
      = samplePrimInfo.size ∧
    (createPrimRefArray_presplit sampleEnv samplePrimInfo [samplePoint, sampleCube]).prims
      = [samplePoint, sampleCube]) :=
  ⟨sampleEnv_sortSpec, by decide,
    zero_budget_unchanged sampleEnv sampleEnv_sortSpec samplePrimInfo [samplePoint, sampleCube]
      (by decide)⟩
/-- Split depths of a run in which every priority is a number (the exact
model; a priority that is NaN is the subject of
`nan_priority_selected_with_depth_zero`): the clamp of line 270 yields an
integer between 1 and 5 for every `rel_p >= 1`, the depth `(unsigned)priority`
used by the measurement and the depth `data & 31` used by the commit are
between 1 and 5 for every item of the selected range, and none of the asserts
of lines 271, 306, 314, 358, 359 is violated. -/
theorem split_depth_in_range (E : Env) (hsort : SortSpec E) (pinfo : PrimInfo)
    (prims : List PrimRef) (hn : pinfo.size ≤ prims.length) (hsize : prims.length < 2 ^ 64) :
    (∀ rel_p : ℚ, rel_p ≥ 1 → ∃ d : ℕ, 1 ≤ d ∧ d ≤ MAX_PRESPLITS_PER_PRIMITIVE_LOG ∧
      max (min (ceilLog2 rel_p : ℚ) (MAX_PRESPLITS_PER_PRIMITIVE_LOG : ℚ)) 1 = (d : ℚ)) ∧
    (∀ j, (createPrimRefArray_presplit E pinfo prims).searched ≤ j → j < pinfo.size →
      1 ≤ ⌊((createPrimRefArray_presplit E pinfo prims).sorted.getD j default).priority⌋₊ ∧
      ⌊((createPrimRefArray_presplit E pinfo prims).sorted.getD j default).priority⌋₊
        ≤ MAX_PRESPLITS_PER_PRIMITIVE_LOG) ∧
    (∀ j, (createPrimRefArray_presplit E pinfo prims).r ≤ j → j < pinfo.size →
      1 ≤ ((createPrimRefArray_presplit E pinfo prims).presplitItem.getD j default).depth ∧
      ((createPrimRefArray_presplit E pinfo prims).presplitItem.getD j default).depth
        ≤ MAX_PRESPLITS_PER_PRIMITIVE_LOG) ∧
    (∀ line ∈ (createPrimRefArray_presplit E pinfo prims).failed,
      line ≠ 271 ∧ line ≠ 306 ∧ line ≠ 314 ∧ line ≠ 358 ∧ line ≠ 359) := by
  obtain ⟨hlen, hlev, -, -, -, hr, -, hge, -⟩ := run_sorted_facts E hsort pinfo prims
  refine ⟨fun rel_p _ => clamp_level _, ?_, ?_, ?_⟩
  · intro j hj hjn
    have hl := hlev _ (getD_mem _ (by rw [hlen]; exact hjn))
    exact ⟨(hl.floor_pos (hge j hj hjn)).1, hl.floor_le⟩
  · intro j hj hjn
    by_cases h : (createPrimRefArray_presplit E pinfo prims).searched < pinfo.size
    · obtain ⟨-, -, -, -, -, hdep, -⟩ := run_commit_facts E hsort pinfo prims hn hsize _ rfl h
      have hlen2 : (createPrimRefArray_presplit E pinfo prims).presplitItem.length
          = pinfo.size := by
        rw [(run_of_lt E pinfo prims h).1, measureRange_length, hlen]
      exact hdep _ ((mem_drop_iff_getD _ _ _).2 ⟨j, hj, by rw [hlen2]; exact hjn, rfl⟩)
    · rw [(run_of_not_lt E pinfo prims h).2.2.1] at hj
      omega
  · intro k hk
    by_cases h : (createPrimRefArray_presplit E pinfo prims).searched < pinfo.size
    · obtain ⟨-, -, -, -, -, hdep, failed, hfailed, -, -, hf⟩ :=
        run_commit_facts E hsort pinfo prims hn hsize _ rfl h
      rw [hf] at hk
      rcases commitFold_failed E (computeGrid pinfo) pinfo.size prims.length _
        ⟨prims, 0, failed⟩ hdep k hk with hk | hk
      · obtain ⟨-, -, -, a4, -, a6, a7, a8, a9, -⟩ := hfailed k hk
        exact ⟨a6, a7, a4, a8, a9⟩
      · obtain ⟨a1, a2, a3, -, a5, a6, -⟩ := hk
        exact ⟨a1, a2, a3, a5, a6⟩
    · rw [(run_of_not_lt E pinfo prims h).2.2.2.2.2, computeSplitLevels_failed] at hk
      exact absurd hk (List.not_mem_nil _)

/-- The depth bounds of `split_depth_in_range` on the sample input of four
references with capacity 10, where every priority is a number. -/
theorem split_depth_in_range_witness :
    SortSpec sampleEnv ∧ samplePrimInfo4.size ≤ samplePrims4.length ∧
    samplePrims4.length < 2 ^ 64 ∧
    ((∀ rel_p : ℚ, rel_p ≥ 1 → ∃ d : ℕ, 1 ≤ d ∧ d ≤ MAX_PRESPLITS_PER_PRIMITIVE_LOG ∧
      max (min (ceilLog2 rel_p : ℚ) (MAX_PRESPLITS_PER_PRIMITIVE_LOG : ℚ)) 1 = (d : ℚ)) ∧
    (∀ j, (createPrimRefArray_presplit sampleEnv samplePrimInfo4 samplePrims4).searched ≤ j →
      j < samplePrimInfo4.size →
      1 ≤ ⌊((createPrimRefArray_presplit sampleEnv samplePrimInfo4 samplePrims4).sorted.getD j
        default).priority⌋₊ ∧
      ⌊((createPrimRefArray_presplit sampleEnv samplePrimInfo4 samplePrims4).sorted.getD j
        default).priority⌋₊ ≤ MAX_PRESPLITS_PER_PRIMITIVE_LOG) ∧
    (∀ j, (createPrimRefArray_presplit sampleEnv samplePrimInfo4 samplePrims4).r ≤ j →
      j < samplePrimInfo4.size →
      1 ≤ ((createPrimRefArray_presplit sampleEnv samplePrimInfo4
        samplePrims4).presplitItem.getD j default).depth ∧
      ((createPrimRefArray_presplit sampleEnv samplePrimInfo4
        samplePrims4).presplitItem.getD j default).depth ≤ MAX_PRESPLITS_PER_PRIMITIVE_LOG) ∧
    (∀ line ∈ (createPrimRefArray_presplit sampleEnv samplePrimInfo4 samplePrims4).failed,
      line ≠ 271 ∧ line ≠ 306 ∧ line ≠ 314 ∧ line ≠ 358 ∧ line ≠ 359)) :=
  ⟨sampleEnv_sortSpec, by decide, by decide,
    split_depth_in_range sampleEnv sampleEnv_sortSpec samplePrimInfo4 samplePrims4
      (by decide) (by decide)⟩

/-- The run on one splittable reference with capacity 4. -/
theorem sample1_run :
    createPrimRefArray_presplit sampleEnv samplePrimInfo1 samplePrims1
      = ⟨3, [⟨.priority 2, 0⟩], 1, [⟨.priority 2, 0⟩], 0, 1, samplePrims1, 1, []⟩ := by
  have hg : computeGrid samplePrimInfo1 = ⟨⟨0, 0, 0⟩, 1024, 1⟩ := by decide!
  have hb : sizeSub samplePrims1.length samplePrimInfo1.size = 3 := by decide!
  have hn : samplePrimInfo1.size = 1 := rfl
  have h0 : computeSplitLevels 3
      (initPresplitItems sampleEnv ⟨⟨0, 0, 0⟩, 1024, 1⟩ samplePrims1 1)
      = ([⟨.priority 2, 0⟩], []) := by decide!
  have h1 : sampleEnv.radix_sort_u32 [⟨.priority 2, 0⟩] = [⟨.priority 2, 0⟩] := by decide!
  have h2 : binarySearch [⟨.priority 2, 0⟩] 1 0 1 = 1 := by decide!
  simp only [createPrimRefArray_presplit, hg, hb, hn, h0, h1, h2]
  decide!

/-- The run on a point and a cube with capacity 5. -/
theorem sample2_run :
    createPrimRefArray_presplit sampleEnv samplePrimInfo samplePrims
      = ⟨3, [⟨.priority 0, 0⟩, ⟨.priority 2, 1⟩], 1, [⟨.priority 0, 0⟩, ⟨.data 98, 1⟩], 3, 1,
          [samplePoint, ⟨⟨0, 0, 0⟩, ⟨1, 1 / 2, 1 / 2⟩, 0, 1⟩,
            ⟨⟨0, 1 / 2, 0⟩, ⟨1, 1, 1 / 2⟩, 0, 1⟩, ⟨⟨0, 0, 1 / 2⟩, ⟨1, 1 / 2, 1⟩, 0, 1⟩,
            ⟨⟨0, 1 / 2, 1 / 2⟩, ⟨1, 1, 1⟩, 0, 1⟩], 5, [364]⟩ := by
  have hg : computeGrid samplePrimInfo = ⟨⟨0, 0, 0⟩, 1024, 1⟩ := by decide!
  have hb : sizeSub samplePrims.length samplePrimInfo.size = 3 := by decide!
  have hn : samplePrimInfo.size = 2 := rfl
  have hl : samplePrims.length = 5 := rfl
  have h0 : computeSplitLevels 3
      (initPresplitItems sampleEnv ⟨⟨0, 0, 0⟩, 1024, 1⟩ samplePrims 2)
      = ([⟨.priority 0, 0⟩, ⟨.priority 2, 1⟩], []) := by decide!
  have h1 : sampleEnv.radix_sort_u32 [⟨.priority 0, 0⟩, ⟨.priority 2, 1⟩]
      = [⟨.priority 0, 0⟩, ⟨.priority 2, 1⟩] := by decide!
  have h2 : binarySearch [⟨.priority 0, 0⟩, ⟨.priority 2, 1⟩] 2 0 2 = 1 := by decide!
  have h3 : measureRange sampleEnv ⟨⟨0, 0, 0⟩, 1024, 1⟩ samplePrims
      [⟨.priority 0, 0⟩, ⟨.priority 2, 1⟩] 1
      = ([⟨.priority 0, 0⟩, ⟨.data 98, 1⟩], 3, []) := by decide!
  have h4 : shrinkRange [⟨.priority 0, 0⟩, ⟨.data 98, 1⟩] 1 2 3 3 = 1 := by decide!
  have h5 : commitRange sampleEnv ⟨⟨0, 0, 0⟩, 1024, 1⟩ 2 5 samplePrims
      [⟨.priority 0, 0⟩, ⟨.data 98, 1⟩] 1 []
      = ⟨[samplePoint, ⟨⟨0, 0, 0⟩, ⟨1, 1 / 2, 1 / 2⟩, 0, 1⟩,
            ⟨⟨0, 1 / 2, 0⟩, ⟨1, 1, 1 / 2⟩, 0, 1⟩, ⟨⟨0, 0, 1 / 2⟩, ⟨1, 1 / 2, 1⟩, 0, 1⟩,
            ⟨⟨0, 1 / 2, 1 / 2⟩, ⟨1, 1, 1⟩, 0, 1⟩], 3, [364]⟩ := by decide!
  simp only [createPrimRefArray_presplit, hg, hb, hn, hl, h0, h1, h2, h3, h4, h5]
  decide!
/-- The run on a point and three cubes with capacity 10. -/
theorem sample4_run :
    createPrimRefArray_presplit sampleEnv samplePrimInfo4 samplePrims4
      = ⟨6, [⟨.priority 0, 0⟩, ⟨.priority 1, 3⟩, ⟨.priority 2, 1⟩, ⟨.priority 2, 2⟩], 1,
          [⟨.priority 0, 0⟩, ⟨.data 33, 3⟩, ⟨.data 98, 1⟩, ⟨.data 98, 2⟩], 7, 3,
          [samplePoint, ⟨⟨0, 0, 0⟩, ⟨1, 1, 1⟩, 1, 0⟩, ⟨⟨0, 0, 0⟩, ⟨1, 1 / 2, 1 / 2⟩, 1, 1⟩,
            ⟨⟨0, 0, 0⟩, ⟨1, 1, 1⟩, 2, 0⟩, ⟨⟨0, 1 / 2, 0⟩, ⟨1, 1, 1 / 2⟩, 1, 1⟩,
            ⟨⟨0, 0, 1 / 2⟩, ⟨1, 1 / 2, 1⟩, 1, 1⟩, ⟨⟨0, 1 / 2, 1 / 2⟩, ⟨1, 1, 1⟩, 1, 1⟩,
            default, default, default], 7, []⟩ := by
  have hg : computeGrid samplePrimInfo4 = ⟨⟨0, 0, 0⟩, 1024, 1⟩ := by decide!
  have hb : sizeSub samplePrims4.length samplePrimInfo4.size = 6 := by decide!
  have hn : samplePrimInfo4.size = 4 := rfl
  have hl : samplePrims4.length = 10 := rfl
  have h0 : computeSplitLevels 6 (initPresplitItems sampleEnv ⟨⟨0, 0, 0⟩, 1024, 1⟩ samplePrims4 4)
      = ([⟨.priority 0, 0⟩, ⟨.priority 2, 1⟩, ⟨.priority 2, 2⟩, ⟨.priority 1, 3⟩], []) := by
    decide!
  have h1 : sampleEnv.radix_sort_u32
      [⟨.priority 0, 0⟩, ⟨.priority 2, 1⟩, ⟨.priority 2, 2⟩, ⟨.priority 1, 3⟩]
      = [⟨.priority 0, 0⟩, ⟨.priority 1, 3⟩, ⟨.priority 2, 1⟩, ⟨.priority 2, 2⟩] := by decide!
  have h2 : binarySearch
      [⟨.priority 0, 0⟩, ⟨.priority 1, 3⟩, ⟨.priority 2, 1⟩, ⟨.priority 2, 2⟩] 4 0 4 = 1 := by
    decide!
  have h3 : measureRange sampleEnv ⟨⟨0, 0, 0⟩, 1024, 1⟩ samplePrims4
      [⟨.priority 0, 0⟩, ⟨.priority 1, 3⟩, ⟨.priority 2, 1⟩, ⟨.priority 2, 2⟩] 1
      = ([⟨.priority 0, 0⟩, ⟨.data 33, 3⟩, ⟨.data 98, 1⟩, ⟨.data 98, 2⟩], 7, []) := by decide!
  have h4 : shrinkRange [⟨.priority 0, 0⟩, ⟨.data 33, 3⟩, ⟨.data 98, 1⟩, ⟨.data 98, 2⟩]
      1 4 6 7 = 3 := by decide!
  have h5 : commitRange sampleEnv ⟨⟨0, 0, 0⟩, 1024, 1⟩ 4 10 samplePrims4
      [⟨.priority 0, 0⟩, ⟨.data 33, 3⟩, ⟨.data 98, 1⟩, ⟨.data 98, 2⟩] 3 []
      = ⟨[samplePoint, ⟨⟨0, 0, 0⟩, ⟨1, 1, 1⟩, 1, 0⟩, ⟨⟨0, 0, 0⟩, ⟨1, 1 / 2, 1 / 2⟩, 1, 1⟩,
            ⟨⟨0, 0, 0⟩, ⟨1, 1, 1⟩, 2, 0⟩, ⟨⟨0, 1 / 2, 0⟩, ⟨1, 1, 1 / 2⟩, 1, 1⟩,
            ⟨⟨0, 0, 1 / 2⟩, ⟨1, 1 / 2, 1⟩, 1, 1⟩, ⟨⟨0, 1 / 2, 1 / 2⟩, ⟨1, 1, 1⟩, 1, 1⟩,
            default, default, default], 3, []⟩ := by decide!
  simp only [createPrimRefArray_presplit, hg, hb, hn, hl, h0, h1, h2, h3, h4, h5]
  decide!
/-! ## Selection and correction: the claims -/

/-- C2: the binary search does not find the first entry with priority at least
1 when that entry is entry 0.  On the input of one splittable reference with
capacity 4 the sorted array is `[(priority 2, index 0)]`, entry 0 has priority
at least 1, and the search returns `r = 1 = numPrimitives`: the selected range
is empty and nothing is split. -/
theorem binarySearch_skips_entry_zero :
    (createPrimRefArray_presplit sampleEnv samplePrimInfo1 samplePrims1).sorted
      = [⟨.priority 2, 0⟩] ∧
    1 ≤ ((createPrimRefArray_presplit sampleEnv samplePrimInfo1 samplePrims1).sorted.getD 0
      default).priority ∧
    (createPrimRefArray_presplit sampleEnv samplePrimInfo1 samplePrims1).searched = 1 ∧
    samplePrimInfo1.size = 1 ∧
    (createPrimRefArray_presplit sampleEnv samplePrimInfo1 samplePrims1).numPrimitives = 1 ∧
    (createPrimRefArray_presplit sampleEnv samplePrimInfo1 samplePrims1).prims
      = samplePrims1 := by
  rw [sample1_run]
  refine ⟨rfl, ?_, rfl, rfl, rfl, rfl⟩
  simp [PresplitItem.priority]

/-- C4, as stated, fails: on the input of a point and three cubes with capacity
10 the measured total 7 exceeds the budget 6 and the correction moves `r` from
1 to 3, although the suffix `[2, 4)` with total 6 fits the budget. -/
theorem shrink_drops_exact_fit :
    (createPrimRefArray_presplit sampleEnv samplePrimInfo4 samplePrims4).numPrimitivesToSplit
      < (createPrimRefArray_presplit sampleEnv samplePrimInfo4 samplePrims4).totalNumSubPrims ∧
    ¬ (∀ k, (createPrimRefArray_presplit sampleEnv samplePrimInfo4 samplePrims4).searched ≤ k →
        extraSum (createPrimRefArray_presplit sampleEnv samplePrimInfo4 samplePrims4).presplitItem
          k ≤ (createPrimRefArray_presplit sampleEnv samplePrimInfo4
            samplePrims4).numPrimitivesToSplit →
        (createPrimRefArray_presplit sampleEnv samplePrimInfo4 samplePrims4).r ≤ k) := by
  rw [sample4_run]
  refine ⟨by decide, fun h => ?_⟩
  have h2 := h 2 (by decide) (by decide)
  exact absurd h2 (by decide)

/-- C4, amended: when the measured total over `[r, n)` exceeds the budget, the
correction moves `r` to an index `r1` with `r < r1 <= n` such that the sum of
the extra sub-primitives over `[k, n)` is at least the budget for every `k` in
`[r, r1)` and strictly below the budget for every `k` in `[r1, n)`; the total
kept over `[r1, n)` fits the budget. -/
theorem shrink_correction (presplitItem : List PresplitItem) (r numPrimitivesToSplit : ℕ)
    (hsize : presplitItem.length < 2 ^ 64) (hr : r < presplitItem.length)
    (hover : numPrimitivesToSplit < extraSum presplitItem r) :
    r < shrinkRange presplitItem r presplitItem.length numPrimitivesToSplit
      (extraSum presplitItem r) ∧
    shrinkRange presplitItem r presplitItem.length numPrimitivesToSplit
      (extraSum presplitItem r) ≤ presplitItem.length ∧
    extraSum presplitItem (shrinkRange presplitItem r presplitItem.length numPrimitivesToSplit
      (extraSum presplitItem r)) ≤ numPrimitivesToSplit ∧
    (∀ k, r ≤ k → k < shrinkRange presplitItem r presplitItem.length numPrimitivesToSplit
      (extraSum presplitItem r) → numPrimitivesToSplit ≤ extraSum presplitItem k) ∧
    (∀ k, shrinkRange presplitItem r presplitItem.length numPrimitivesToSplit
      (extraSum presplitItem r) ≤ k → k < presplitItem.length →
      extraSum presplitItem k < numPrimitivesToSplit) :=
  shrinkRange_spec presplitItem r numPrimitivesToSplit hsize hr hover

/-- C4, amended, on the measured array of the sample run with budget 6. -/
theorem shrink_correction_witness :
    sampleMeasured4.length < 2 ^ 64 ∧ 1 < sampleMeasured4.length ∧
    6 < extraSum sampleMeasured4 1 ∧
    (1 < shrinkRange sampleMeasured4 1 sampleMeasured4.length 6 (extraSum sampleMeasured4 1) ∧
    shrinkRange sampleMeasured4 1 sampleMeasured4.length 6 (extraSum sampleMeasured4 1)
      ≤ sampleMeasured4.length ∧
    extraSum sampleMeasured4 (shrinkRange sampleMeasured4 1 sampleMeasured4.length 6
      (extraSum sampleMeasured4 1)) ≤ 6 ∧
    (∀ k, 1 ≤ k → k < shrinkRange sampleMeasured4 1 sampleMeasured4.length 6
      (extraSum sampleMeasured4 1) → 6 ≤ extraSum sampleMeasured4 k) ∧
    (∀ k, shrinkRange sampleMeasured4 1 sampleMeasured4.length 6
      (extraSum sampleMeasured4 1) ≤ k → k < sampleMeasured4.length →
      extraSum sampleMeasured4 k < 6)) :=
  ⟨by decide, by decide, by decide,
    shrink_correction sampleMeasured4 1 6 (by decide) (by decide) (by decide)⟩

/-- C5: the assert of line 364 is violated when the measured total equals the
budget.  On the input of a point and a cube with capacity 5 the total of extra
sub-primitives is 3, the budget is 3, no shrinking takes place, and the commit
of the cube computes `newID + numSubPrims = 2 + 4 > 5`; the writes themselves
stay inside the array, which ends with 5 live references. -/
theorem commit_assert_violated_on_exact_budget :
    samplePrimInfo.size ≤ samplePrims.length ∧
    (createPrimRefArray_presplit sampleEnv samplePrimInfo samplePrims).totalNumSubPrims
      = (createPrimRefArray_presplit sampleEnv samplePrimInfo samplePrims).numPrimitivesToSplit ∧
    (createPrimRefArray_presplit sampleEnv samplePrimInfo samplePrims).r
      = (createPrimRefArray_presplit sampleEnv samplePrimInfo samplePrims).searched ∧
    364 ∈ (createPrimRefArray_presplit sampleEnv samplePrimInfo samplePrims).failed ∧
    (createPrimRefArray_presplit sampleEnv samplePrimInfo samplePrims).numPrimitives
      = samplePrims.length := by
  rw [sample2_run]
  decide
/-- Facts about the measured array of a run that selected a non-empty range. -/
theorem run_selected_facts (E : Env) (hsort : SortSpec E) (pinfo : PrimInfo)
    (prims : List PrimRef) (R : PresplitRun) (hR : R = createPrimRefArray_presplit E pinfo prims)
    (h : R.searched < pinfo.size) :
    R.presplitItem.length = pinfo.size ∧
    (∀ j, R.searched ≤ j → j < pinfo.size →
      (R.presplitItem.getD j default).index = (R.sorted.getD j default).index ∧
      (R.presplitItem.getD j default).depth = ⌊(R.sorted.getD j default).priority⌋₊ ∧
      1 ≤ (R.presplitItem.getD j default).depth ∧
      (R.presplitItem.getD j default).depth ≤ 5 ∧
      (R.presplitItem.getD j default).extra
        = yieldOf E (computeGrid pinfo) prims (R.presplitItem.getD j default).index
            (R.presplitItem.getD j default).depth - 1) ∧
    (∀ k, R.searched ≤ k →
      extraSum R.presplitItem k
        = extrasOf E (computeGrid pinfo) prims (R.presplitItem.drop k)) ∧
    R.totalNumSubPrims = extraSum R.presplitItem R.searched ∧
    R.r = shrinkRange R.presplitItem R.searched R.presplitItem.length R.numPrimitivesToSplit
      (extraSum R.presplitItem R.searched) := by
  subst hR
  obtain ⟨hlen, hlev, -, -, -, hr, -, hge, -⟩ := run_sorted_facts E hsort pinfo prims
  obtain ⟨hm, ht, hrr, -⟩ := run_of_lt E pinfo prims h
  have hfloor : ∀ j, (createPrimRefArray_presplit E pinfo prims).searched ≤ j →
      j < (createPrimRefArray_presplit E pinfo prims).sorted.length →
      1 ≤ ((createPrimRefArray_presplit E pinfo prims).sorted.getD j default).priority ∧
      1 ≤ ⌊((createPrimRefArray_presplit E pinfo prims).sorted.getD j default).priority⌋₊ ∧
      ⌊((createPrimRefArray_presplit E pinfo prims).sorted.getD j default).priority⌋₊ ≤ 5 := by
    intro j hj hjn
    have hl := hlev _ (getD_mem _ hjn)
    rw [hlen] at hjn
    exact ⟨hge j hj hjn, (hl.floor_pos (hge j hj hjn)).1, hl.floor_le⟩
  obtain ⟨mf, msum, mtot, -⟩ := measureRange_facts E (computeGrid pinfo) prims
    (createPrimRefArray_presplit E pinfo prims).sorted
    (createPrimRefArray_presplit E pinfo prims).searched (by rw [hlen]; exact hr) hfloor
  have mlen := measureRange_length E (computeGrid pinfo) prims
    (createPrimRefArray_presplit E pinfo prims).sorted
    (createPrimRefArray_presplit E pinfo prims).searched
  rw [← hm] at mf msum mtot mlen
  rw [← ht] at mtot
  rw [hlen] at mf mlen
  refine ⟨mlen, mf, msum, mtot, ?_⟩
  rw [mlen, ← mtot, run_budget]
  exact hrr

/-- C11: when the measured total exceeds the budget, the candidates dropped by
the correction are the entries `[r0, r)` of the sorted selected range and the
retained ones the entries `[r, n)`, where `r0` is the searched index; every
dropped candidate has a priority and a stored split depth less than or equal
to those of every retained candidate. -/
theorem lowest_priority_dropped_first (E : Env) (hsort : SortSpec E) (pinfo : PrimInfo)
    (prims : List PrimRef) (hn : pinfo.size ≤ prims.length) (hsize : prims.length < 2 ^ 64)
    (hover : (createPrimRefArray_presplit E pinfo prims).numPrimitivesToSplit
      < (createPrimRefArray_presplit E pinfo prims).totalNumSubPrims) :
    (createPrimRefArray_presplit E pinfo prims).searched
      < (createPrimRefArray_presplit E pinfo prims).r ∧
    (createPrimRefArray_presplit E pinfo prims).r ≤ pinfo.size ∧
    ∀ j k, (createPrimRefArray_presplit E pinfo prims).searched ≤ j →
      j < (createPrimRefArray_presplit E pinfo prims).r →
      (createPrimRefArray_presplit E pinfo prims).r ≤ k → k < pinfo.size →
      ((createPrimRefArray_presplit E pinfo prims).sorted.getD j default).priority
        ≤ ((createPrimRefArray_presplit E pinfo prims).sorted.getD k default).priority ∧
      ((createPrimRefArray_presplit E pinfo prims).presplitItem.getD j default).depth
        ≤ ((createPrimRefArray_presplit E pinfo prims).presplitItem.getD k default).depth := by
  have h : (createPrimRefArray_presplit E pinfo prims).searched < pinfo.size := by
    by_contra hc
    rw [(run_of_not_lt E pinfo prims hc).2.1] at hover
    exact Nat.not_lt_zero _ hover
  obtain ⟨hlen, -, -, -, hpair, -, -, -, -⟩ := run_sorted_facts E hsort pinfo prims
  obtain ⟨mlen, mf, -, mtot, hrr⟩ := run_selected_facts E hsort pinfo prims _ rfl h
  rw [mtot] at hover
  obtain ⟨s1, s2, -, -, -⟩ := shrinkRange_spec
    (createPrimRefArray_presplit E pinfo prims).presplitItem
    (createPrimRefArray_presplit E pinfo prims).searched
    (createPrimRefArray_presplit E pinfo prims).numPrimitivesToSplit
    (by rw [mlen]; omega) (by rw [mlen]; exact h) hover
  rw [← hrr] at s1 s2
  rw [mlen] at s2
  refine ⟨s1, s2, fun j k hj hjr hk hkn => ?_⟩
  have hp := getD_priority_le_of_pairwise hpair (show j ≤ k by omega)
    (by rw [hlen]; exact hkn)
  refine ⟨hp, ?_⟩
  rw [(mf j hj (by omega)).2.1, (mf k (by omega) hkn).2.1]
  exact Nat.floor_mono hp

/-- C11 on the sample input of four references with capacity 10. -/
theorem lowest_priority_dropped_first_witness :
    SortSpec sampleEnv ∧ samplePrimInfo4.size ≤ samplePrims4.length ∧
    samplePrims4.length < 2 ^ 64 ∧
    (createPrimRefArray_presplit sampleEnv samplePrimInfo4 samplePrims4).numPrimitivesToSplit
      < (createPrimRefArray_presplit sampleEnv samplePrimInfo4 samplePrims4).totalNumSubPrims ∧
    ((createPrimRefArray_presplit sampleEnv samplePrimInfo4 samplePrims4).searched
      < (createPrimRefArray_presplit sampleEnv samplePrimInfo4 samplePrims4).r ∧
    (createPrimRefArray_presplit sampleEnv samplePrimInfo4 samplePrims4).r
      ≤ samplePrimInfo4.size ∧
    ∀ j k, (createPrimRefArray_presplit sampleEnv samplePrimInfo4 samplePrims4).searched ≤ j →
      j < (createPrimRefArray_presplit sampleEnv samplePrimInfo4 samplePrims4).r →
      (createPrimRefArray_presplit sampleEnv samplePrimInfo4 samplePrims4).r ≤ k →
      k < samplePrimInfo4.size →
      ((createPrimRefArray_presplit sampleEnv samplePrimInfo4 samplePrims4).sorted.getD j
        default).priority
        ≤ ((createPrimRefArray_presplit sampleEnv samplePrimInfo4 samplePrims4).sorted.getD k
          default).priority ∧
      ((createPrimRefArray_presplit sampleEnv samplePrimInfo4 samplePrims4).presplitItem.getD j
        default).depth
        ≤ ((createPrimRefArray_presplit sampleEnv samplePrimInfo4
          samplePrims4).presplitItem.getD k default).depth) :=
  ⟨sampleEnv_sortSpec, by decide, by decide, by rw [sample4_run]; decide,
    lowest_priority_dropped_first sampleEnv sampleEnv_sortSpec samplePrimInfo4 samplePrims4
      (by decide) (by decide) (by rw [sample4_run]; decide)⟩

/-- C17: whenever the measured total over `[r, n)` exceeds the budget, the loop
of lines 335-340 leaves through its `break` at an index `new_r` in
`[r, n-1]`: the break condition holds there and at no larger index, the result
does not depend on the bound on the number of iterations once it is at least
`n - r`, and the new `r` is `new_r + 1`, in `[r+1, n]`, without wrap-around. -/
theorem shrink_loop_exits_by_break (presplitItem : List PresplitItem)
    (r numPrimitivesToSplit : ℕ) (hsize : presplitItem.length < 2 ^ 64)
    (hr : r < presplitItem.length) (hover : numPrimitivesToSplit < extraSum presplitItem r) :
    r ≤ shrinkLoop presplitItem r numPrimitivesToSplit presplitItem.length
      (sizeSub presplitItem.length 1) 0 ∧
    shrinkLoop presplitItem r numPrimitivesToSplit presplitItem.length
      (sizeSub presplitItem.length 1) 0 ≤ presplitItem.length - 1 ∧
    extraSum presplitItem (shrinkLoop presplitItem r numPrimitivesToSplit presplitItem.length
        (sizeSub presplitItem.length 1) 0 + 1)
      + (presplitItem.getD (shrinkLoop presplitItem r numPrimitivesToSplit presplitItem.length
        (sizeSub presplitItem.length 1) 0) default).data >>> MAX_PRESPLITS_PER_PRIMITIVE_LOG
      ≥ numPrimitivesToSplit ∧
    (∀ k, shrinkLoop presplitItem r numPrimitivesToSplit presplitItem.length
        (sizeSub presplitItem.length 1) 0 < k → k < presplitItem.length →
      ¬ extraSum presplitItem (k + 1)
        + (presplitItem.getD k default).data >>> MAX_PRESPLITS_PER_PRIMITIVE_LOG
        ≥ numPrimitivesToSplit) ∧
    (∀ fuel, presplitItem.length - r ≤ fuel →
      shrinkLoop presplitItem r numPrimitivesToSplit fuel (sizeSub presplitItem.length 1) 0
        = shrinkLoop presplitItem r numPrimitivesToSplit presplitItem.length
            (sizeSub presplitItem.length 1) 0) ∧
    shrinkRange presplitItem r presplitItem.length numPrimitivesToSplit
        (extraSum presplitItem r)
      = shrinkLoop presplitItem r numPrimitivesToSplit presplitItem.length
          (sizeSub presplitItem.length 1) 0 + 1 ∧
    r + 1 ≤ shrinkRange presplitItem r presplitItem.length numPrimitivesToSplit
      (extraSum presplitItem r) ∧
    shrinkRange presplitItem r presplitItem.length numPrimitivesToSplit
      (extraSum presplitItem r) ≤ presplitItem.length := by
  have h1 : sizeSub presplitItem.length 1 = presplitItem.length - 1 :=
    sizeSub_eq (by omega) hsize
  have hspec : ∀ fuel, presplitItem.length - r ≤ fuel →
      r ≤ shrinkLoop presplitItem r numPrimitivesToSplit fuel (presplitItem.length - 1) 0 ∧
      shrinkLoop presplitItem r numPrimitivesToSplit fuel (presplitItem.length - 1) 0
        ≤ presplitItem.length - 1 ∧
      numPrimitivesToSplit ≤ extraSum presplitItem
        (shrinkLoop presplitItem r numPrimitivesToSplit fuel (presplitItem.length - 1) 0) ∧
      (∀ k, shrinkLoop presplitItem r numPrimitivesToSplit fuel (presplitItem.length - 1) 0 < k →
        k < presplitItem.length → extraSum presplitItem k < numPrimitivesToSplit) := by
    intro fuel hf
    exact shrinkLoop_spec presplitItem r numPrimitivesToSplit hsize hover fuel
      (presplitItem.length - 1) 0 (by omega) (by omega) (by omega)
      (by rw [extraSum_of_le presplitItem (by omega)])
      (fun k hk hkn => by omega)
  rw [h1]
  obtain ⟨g1, g2, g3, g4⟩ := hspec presplitItem.length (by omega)
  have hx : shrinkLoop presplitItem r numPrimitivesToSplit presplitItem.length
      (presplitItem.length - 1) 0 < presplitItem.length := by omega
  have hS := extraSum_succ presplitItem hx
  have hrange : shrinkRange presplitItem r presplitItem.length numPrimitivesToSplit
      (extraSum presplitItem r)
      = shrinkLoop presplitItem r numPrimitivesToSplit presplitItem.length
          (presplitItem.length - 1) 0 + 1 := by
    simp only [shrinkRange]
    rw [if_pos (show extraSum presplitItem r > numPrimitivesToSplit from hover), h1,
      Nat.mod_eq_of_lt (by omega)]
  refine ⟨g1, g2, ?_, ?_, ?_, hrange, by rw [hrange]; omega, by rw [hrange]; omega⟩
  · show extraSum presplitItem _ + (presplitItem.getD _ default).extra ≥ numPrimitivesToSplit
    omega
  · intro k hk hkn
    have := g4 k hk hkn
    have hS2 := extraSum_succ presplitItem hkn
    show ¬ extraSum presplitItem _ + (presplitItem.getD _ default).extra ≥ numPrimitivesToSplit
    omega
  · intro fuel hf
    obtain ⟨f1, f2, f3, f4⟩ := hspec fuel hf
    rcases Nat.lt_trichotomy
      (shrinkLoop presplitItem r numPrimitivesToSplit fuel (presplitItem.length - 1) 0)
      (shrinkLoop presplitItem r numPrimitivesToSplit presplitItem.length
        (presplitItem.length - 1) 0) with hlt | heq | hgt
    · have := f4 _ hlt hx
      omega
    · exact heq
    · have := g4 _ hgt (by omega)
      omega

/-- C17 on the measured array of the sample run with budget 6. -/
theorem shrink_loop_exits_by_break_witness :
    sampleMeasured4.length < 2 ^ 64 ∧ 1 < sampleMeasured4.length ∧
    6 < extraSum sampleMeasured4 1 ∧
    (1 ≤ shrinkLoop sampleMeasured4 1 6 sampleMeasured4.length
      (sizeSub sampleMeasured4.length 1) 0 ∧
    shrinkLoop sampleMeasured4 1 6 sampleMeasured4.length
      (sizeSub sampleMeasured4.length 1) 0 ≤ sampleMeasured4.length - 1 ∧
    extraSum sampleMeasured4 (shrinkLoop sampleMeasured4 1 6 sampleMeasured4.length
        (sizeSub sampleMeasured4.length 1) 0 + 1)
      + (sampleMeasured4.getD (shrinkLoop sampleMeasured4 1 6 sampleMeasured4.length
        (sizeSub sampleMeasured4.length 1) 0) default).data >>> MAX_PRESPLITS_PER_PRIMITIVE_LOG
      ≥ 6 ∧
    (∀ k, shrinkLoop sampleMeasured4 1 6 sampleMeasured4.length
        (sizeSub sampleMeasured4.length 1) 0 < k → k < sampleMeasured4.length →
      ¬ extraSum sampleMeasured4 (k + 1)
        + (sampleMeasured4.getD k default).data >>> MAX_PRESPLITS_PER_PRIMITIVE_LOG ≥ 6) ∧
    (∀ fuel, sampleMeasured4.length - 1 ≤ fuel →
      shrinkLoop sampleMeasured4 1 6 fuel (sizeSub sampleMeasured4.length 1) 0
        = shrinkLoop sampleMeasured4 1 6 sampleMeasured4.length
            (sizeSub sampleMeasured4.length 1) 0) ∧
    shrinkRange sampleMeasured4 1 sampleMeasured4.length 6 (extraSum sampleMeasured4 1)
      = shrinkLoop sampleMeasured4 1 6 sampleMeasured4.length
          (sizeSub sampleMeasured4.length 1) 0 + 1 ∧
    1 + 1 ≤ shrinkRange sampleMeasured4 1 sampleMeasured4.length 6
      (extraSum sampleMeasured4 1) ∧
    shrinkRange sampleMeasured4 1 sampleMeasured4.length 6 (extraSum sampleMeasured4 1)
      ≤ sampleMeasured4.length) :=
  ⟨by decide, by decide, by decide,
    shrink_loop_exits_by_break sampleMeasured4 1 6 (by decide) (by decide) (by decide)⟩
/-! ## Bit level facts: leading zeros and Morton codes -/

theorem lzcntAux_spec : ∀ (k N : ℕ), 0 < N → N < 2 ^ k →
    lzcntAux k N < k ∧ 2 ^ (k - 1 - lzcntAux k N) ≤ N ∧ N < 2 ^ (k - lzcntAux k N) := by
  intro k
  induction k with
  | zero => intro N h0 h1; simp at h1; omega
  | succ k ih =>
    intro N h0 h1
    simp only [lzcntAux]
    by_cases hb : N.testBit k = true
    · rw [if_pos hb]
      refine ⟨Nat.succ_pos _, ?_, h1⟩
      simpa using Nat.testBit_implies_ge hb
    · rw [if_neg hb]
      have hlt : N < 2 ^ k := by
        by_contra hge
        have hge : 2 ^ k ≤ N := not_lt.1 hge
        apply hb
        rw [Nat.testBit_to_div_mod]
        have h2 : N / 2 ^ k < 2 := by
          apply Nat.div_lt_of_lt_mul
          rw [← pow_succ]
          exact h1
        have h3 : 0 < N / 2 ^ k := Nat.div_pos hge (Nat.two_pow_pos k)
        have h4 : N / 2 ^ k = 1 := by omega
        simp [h4]
      obtain ⟨i1, i2, i3⟩ := ih N h0 hlt
      refine ⟨by omega, ?_, ?_⟩
      · rw [show k + 1 - 1 - (1 + lzcntAux k N) = k - 1 - lzcntAux k N by omega]
        exact i2
      · rw [show k + 1 - (1 + lzcntAux k N) = k - lzcntAux k N by omega]
        exact i3

/-- The expression `31 - lzcnt(x)` is the index of the highest set bit. -/
theorem highBit_spec {N : ℕ} (h0 : 0 < N) (h1 : N < 2 ^ 32) :
    highBit N < 32 ∧ 2 ^ highBit N ≤ N ∧ N < 2 ^ (highBit N + 1) := by
  obtain ⟨c1, c2, c3⟩ := lzcntAux_spec 32 N h0 h1
  have e : highBit N = 31 - lzcntAux 32 N := by
    unfold highBit lzcnt
    omega
  rw [e]
  refine ⟨by omega, ?_, ?_⟩
  · rw [show 31 - lzcntAux 32 N = 32 - 1 - lzcntAux 32 N by omega]
    exact c2
  · rw [show 31 - lzcntAux 32 N + 1 = 32 - lzcntAux 32 N by omega]
    exact c3

theorem interleaveBits_lt : ∀ (k x y z : ℕ), interleaveBits k x y z < 8 ^ k := by
  intro k
  induction k with
  | zero => intro x y z; simp [interleaveBits]
  | succ k ih =>
    intro x y z
    simp only [interleaveBits]
    have := ih (x / 2) (y / 2) (z / 2)
    rw [pow_succ]
    omega

theorem low_bits_testBit (x y z a : ℕ) (ha : a < 3) :
    (x % 2 + 2 * (y % 2) + 4 * (z % 2)).testBit a
      = (if a = 0 then x else if a = 1 then y else z).testBit 0 := by
  have hx := Nat.mod_two_eq_zero_or_one x
  have hy := Nat.mod_two_eq_zero_or_one y
  have hz := Nat.mod_two_eq_zero_or_one z
  have ha3 : a = 0 ∨ a = 1 ∨ a = 2 := by omega
  rcases ha3 with rfl | rfl | rfl <;> rcases hx with hx | hx <;> rcases hy with hy | hy <;>
    rcases hz with hz | hz <;> simp [hx, hy, hz, Nat.testBit_zero] <;> decide

/-- Bit `3 j + a` of the Morton code is bit `j` of the coordinate of axis `a`. -/
theorem interleaveBits_testBit : ∀ (k x y z j a : ℕ), a < 3 →
    (interleaveBits k x y z).testBit (3 * j + a)
      = (decide (j < k) && (if a = 0 then x else if a = 1 then y else z).testBit j) := by
  intro k
  induction k with
  | zero => intro x y z j a _; simp [interleaveBits]
  | succ k ih =>
    intro x y z j a ha
    simp only [interleaveBits]
    have hb : x % 2 + 2 * (y % 2) + 4 * (z % 2) < 2 ^ 3 := by omega
    rw [show x % 2 + 2 * (y % 2) + 4 * (z % 2) + 8 * interleaveBits k (x / 2) (y / 2) (z / 2)
      = 2 ^ 3 * interleaveBits k (x / 2) (y / 2) (z / 2) + (x % 2 + 2 * (y % 2) + 4 * (z % 2))
      by omega, Nat.testBit_mul_pow_two_add _ hb]
    cases j with
    | zero =>
      rw [if_pos (by omega), show 3 * 0 + a = a by omega, low_bits_testBit x y z a ha]
      simp
    | succ j =>
      rw [if_neg (by omega), show 3 * (j + 1) + a - 3 = 3 * j + a by omega,
        ih (x / 2) (y / 2) (z / 2) j a ha]
      have e : (if a = 0 then x / 2 else if a = 1 then y / 2 else z / 2)
          = (if a = 0 then x else if a = 1 then y else z) / 2 := by
        split_ifs <;> rfl
      rw [e, Nat.testBit_div_two]
      simp

/-- Clearing the low `level` bits of a 32 bit value. -/
theorem and_high_mask {b level : ℕ} (hb : b < 2 ^ 32) (hl : level ≤ 32) :
    b &&& (2 ^ 32 - 1 - ((1 <<< level) - 1)) = 2 ^ level * (b / 2 ^ level) := by
  have hpow : 2 ^ level ≤ 2 ^ 32 := Nat.pow_le_pow_right (by norm_num) hl
  have hpos : 0 < 2 ^ level := Nat.two_pow_pos level
  have e : 2 ^ 32 - 1 - ((1 <<< level) - 1) = 2 ^ 32 - ((2 ^ level - 1) + 1) := by
    rw [Nat.one_shiftLeft]
    omega
  rw [e]
  apply Nat.eq_of_testBit_eq
  intro i
  rw [Nat.testBit_and, Nat.testBit_two_pow_sub_succ (by omega), Nat.testBit_two_pow_sub_one,
    show 2 ^ level * (b / 2 ^ level) = 2 ^ level * (b / 2 ^ level) + 0 by omega,
    Nat.testBit_mul_pow_two_add _ hpos]
  by_cases hi : i < level
  · simp [hi]
  · rw [if_neg hi, ← Nat.shiftRight_eq_div_pow, Nat.testBit_shiftRight,
      show level + (i - level) = i by omega]
    by_cases h32 : i < 32
    · simp [hi, h32]
    · have : b.testBit i = false :=
        Nat.testBit_lt_two_pow (lt_of_lt_of_le hb (Nat.pow_le_pow_right (by norm_num) (by omega)))
      simp [this]
theorem testBit_top {N k : ℕ} (h1 : N < 2 ^ (k + 1)) : N.testBit k = true ↔ 2 ^ k ≤ N := by
  constructor
  · intro h
    exact Nat.testBit_implies_ge h
  · intro hge
    rw [Nat.testBit_to_div_mod]
    have h2 : N / 2 ^ k < 2 := by
      apply Nat.div_lt_of_lt_mul
      rw [← pow_succ]
      exact h1
    have h3 : 0 < N / 2 ^ k := Nat.div_pos hge (Nat.two_pow_pos k)
    have h4 : N / 2 ^ k = 1 := by omega
    simp [h4]

/-- Two numbers `a <= b` that agree on all bits above `level` and differ at bit
`level`: clearing the low `level` bits of `b` gives a value in `(a, b]`. -/
theorem split_of_bits {a b level : ℕ} (hab : a ≤ b)
    (hdiff : a.testBit level ≠ b.testBit level)
    (hhigh : ∀ j, level < j → a.testBit j = b.testBit j) :
    a < 2 ^ level * (b / 2 ^ level) ∧ 2 ^ level * (b / 2 ^ level) ≤ b := by
  have hP : 0 < 2 ^ level := Nat.two_pow_pos level
  have h2P : 2 ^ (level + 1) = 2 * 2 ^ level := by rw [pow_succ]; omega
  have hq : a / 2 ^ (level + 1) = b / 2 ^ (level + 1) := by
    apply Nat.eq_of_testBit_eq
    intro i
    rw [← Nat.shiftRight_eq_div_pow, ← Nat.shiftRight_eq_div_pow, Nat.testBit_shiftRight,
      Nat.testBit_shiftRight]
    exact hhigh _ (by omega)
  have ha := Nat.div_add_mod a (2 ^ (level + 1))
  have hb := Nat.div_add_mod b (2 ^ (level + 1))
  have hra : a % 2 ^ (level + 1) < 2 ^ (level + 1) := Nat.mod_lt _ (Nat.two_pow_pos _)
  have hrb : b % 2 ^ (level + 1) < 2 ^ (level + 1) := Nat.mod_lt _ (Nat.two_pow_pos _)
  have hta : a.testBit level = true ↔ 2 ^ level ≤ a % 2 ^ (level + 1) := by
    rw [← testBit_top hra, Nat.testBit_mod_two_pow]
    simp
  have htb : b.testBit level = true ↔ 2 ^ level ≤ b % 2 ^ (level + 1) := by
    rw [← testBit_top hrb, Nat.testBit_mod_two_pow]
    simp
  rw [hq] at ha
  have hbP := Nat.div_add_mod b (2 ^ level)
  have hmm : b % 2 ^ (level + 1) % 2 ^ level = b % 2 ^ level :=
    Nat.mod_mod_of_dvd b (Dvd.intro_left 2 h2P.symm)
  generalize 2 ^ (level + 1) * (b / 2 ^ (level + 1)) = W at ha hb
  generalize 2 ^ level * (b / 2 ^ level) = S at hbP ⊢
  by_cases hA : a.testBit level = true
  · have hB : ¬ b.testBit level = true := by
      intro hB
      exact hdiff (hA.trans hB.symm)
    have h1 := hta.1 hA
    have h2 : ¬ 2 ^ level ≤ b % 2 ^ (level + 1) := fun h => hB (htb.2 h)
    omega
  · have hB : b.testBit level = true := by
      by_contra hB
      apply hdiff
      rw [Bool.not_eq_true] at hA hB
      rw [hA, hB]
    have h1 : ¬ 2 ^ level ≤ a % 2 ^ (level + 1) := fun h => hA (hta.2 h)
    have h2 := htb.1 hB
    have h3 : b % 2 ^ (level + 1) % 2 ^ level = b % 2 ^ (level + 1) - 2 ^ level := by
      rw [Nat.mod_eq_sub_mod h2, Nat.mod_eq_of_lt (by omega)]
    omega

/-- Axis `a` of three coordinates. -/
theorem coord_lt {x y z a B : ℕ} (hx : x < B) (hy : y < B) (hz : z < B) :
    (if a = 0 then x else if a = 1 then y else z) < B := by
  split_ifs <;> assumption

theorem coord_le {x y z x2 y2 z2 a : ℕ} (hx : x ≤ x2) (hy : y ≤ y2) (hz : z ≤ z2) :
    (if a = 0 then x else if a = 1 then y else z)
      ≤ (if a = 0 then x2 else if a = 1 then y2 else z2) := by
  split_ifs <;> assumption

/-- The split grid position computed from two differing Morton codes lies
strictly above the lower and at most at the upper grid coordinate of the split
axis. -/
theorem morton_split_core (lx ly lz ux uy uz : ℕ)
    (hlx : lx < 2 ^ 10) (hly : ly < 2 ^ 10) (hlz : lz < 2 ^ 10)
    (hux : ux < 2 ^ 10) (huy : uy < 2 ^ 10) (huz : uz < 2 ^ 10)
    (hx : lx ≤ ux) (hy : ly ≤ uy) (hz : lz ≤ uz)
    (hne : interleaveBits 10 lx ly lz ≠ interleaveBits 10 ux uy uz) :
    highBit (interleaveBits 10 lx ly lz ^^^ interleaveBits 10 ux uy uz) / 3 < 10 ∧
    (if highBit (interleaveBits 10 lx ly lz ^^^ interleaveBits 10 ux uy uz) % 3 = 0 then lx
      else if highBit (interleaveBits 10 lx ly lz ^^^ interleaveBits 10 ux uy uz) % 3 = 1
        then ly else lz)
      < 2 ^ (highBit (interleaveBits 10 lx ly lz ^^^ interleaveBits 10 ux uy uz) / 3)
        * ((if highBit (interleaveBits 10 lx ly lz ^^^ interleaveBits 10 ux uy uz) % 3 = 0
            then ux
          else if highBit (interleaveBits 10 lx ly lz ^^^ interleaveBits 10 ux uy uz) % 3 = 1
            then uy else uz)
          / 2 ^ (highBit (interleaveBits 10 lx ly lz ^^^ interleaveBits 10 ux uy uz) / 3)) ∧
    2 ^ (highBit (interleaveBits 10 lx ly lz ^^^ interleaveBits 10 ux uy uz) / 3)
        * ((if highBit (interleaveBits 10 lx ly lz ^^^ interleaveBits 10 ux uy uz) % 3 = 0
            then ux
          else if highBit (interleaveBits 10 lx ly lz ^^^ interleaveBits 10 ux uy uz) % 3 = 1
            then uy else uz)
          / 2 ^ (highBit (interleaveBits 10 lx ly lz ^^^ interleaveBits 10 ux uy uz) / 3))
      ≤ (if highBit (interleaveBits 10 lx ly lz ^^^ interleaveBits 10 ux uy uz) % 3 = 0 then ux
        else if highBit (interleaveBits 10 lx ly lz ^^^ interleaveBits 10 ux uy uz) % 3 = 1
          then uy else uz) := by
  have hC := interleaveBits_lt 10 lx ly lz
  have hC2 := interleaveBits_lt 10 ux uy uz
  have h830 : (8 : ℕ) ^ 10 = 2 ^ 30 := by norm_num
  rw [h830] at hC hC2
  have hN := Nat.xor_lt_two_pow hC hC2
  have hN0 : 0 < interleaveBits 10 lx ly lz ^^^ interleaveBits 10 ux uy uz :=
    Nat.pos_of_ne_zero (Nat.xor_ne_zero.2 hne)
  obtain ⟨-, hd1, hd2⟩ := highBit_spec hN0 (lt_trans hN (by norm_num))
  have hTL := interleaveBits_testBit 10 lx ly lz
  have hTU := interleaveBits_testBit 10 ux uy uz
  generalize interleaveBits 10 lx ly lz = C at *
  generalize interleaveBits 10 ux uy uz = C2 at *
  generalize highBit (C ^^^ C2) = d at *
  have hd30 : d < 30 := (Nat.pow_lt_pow_iff_right (by norm_num)).1 (lt_of_le_of_lt hd1 hN)
  have hdm : 3 * (d / 3) + d % 3 = d := Nat.div_add_mod d 3
  have hm3 : d % 3 < 3 := Nat.mod_lt _ (by norm_num)
  have hbit : (C ^^^ C2).testBit d = true := (testBit_top hd2).2 hd1
  have hdiffC : C.testBit d ≠ C2.testBit d := by
    intro h
    rw [Nat.testBit_xor, h] at hbit
    simp at hbit
  have hhighC : ∀ i, d < i → C.testBit i = C2.testBit i := by
    intro i hi
    have : (C ^^^ C2).testBit i = false :=
      Nat.testBit_lt_two_pow (lt_of_lt_of_le hd2 (Nat.pow_le_pow_right (by norm_num) hi))
    rw [Nat.testBit_xor] at this
    revert this
    cases C.testBit i <;> cases C2.testBit i <;> simp
  have hlev : d / 3 < 10 := by omega
  refine ⟨hlev, ?_⟩
  apply split_of_bits (coord_le hx hy hz)
  · intro h
    apply hdiffC
    rw [← hdm, hTL _ _ hm3, hTU _ _ hm3, h]
  · intro j hj
    by_cases hj10 : j < 10
    · have := hhighC (3 * j + d % 3) (by omega)
      rw [hTL _ _ hm3, hTU _ _ hm3] at this
      simpa [hj10] using this
    · have h10 : (2 : ℕ) ^ 10 ≤ 2 ^ j := Nat.pow_le_pow_right (by norm_num) (by omega)
      rw [Nat.testBit_lt_two_pow (lt_of_lt_of_le (coord_lt hlx hly hlz) h10),
        Nat.testBit_lt_two_pow (lt_of_lt_of_le (coord_lt hux huy huz) h10)]
theorem toUInt32_of_nonneg {i : ℤ} (h0 : 0 ≤ i) (h1 : i < 2 ^ 32) : toUInt32 i = i.toNat := by
  unfold toUInt32
  rw [Int.emod_eq_of_lt h0 h1]

theorem toUInt32_get (v : Vec3ia) (a : ℕ) :
    toUInt32 (v.get a)
      = if a = 0 then toUInt32 v.x else if a = 1 then toUInt32 v.y else toUInt32 v.z := by
  unfold Vec3ia.get
  split_ifs <;> rfl

/-- Grid position of the split of two grid points `ilower <= iupper` with
coordinates in `[0, 1023]` whose Morton codes differ, as natural numbers. -/
theorem splitGridPosition_between (ilower iupper : Vec3ia)
    (hl : 0 ≤ ilower.x ∧ 0 ≤ ilower.y ∧ 0 ≤ ilower.z)
    (hu : iupper.x ≤ 1023 ∧ iupper.y ≤ 1023 ∧ iupper.z ≤ 1023)
    (hle : ilower.x ≤ iupper.x ∧ ilower.y ≤ iupper.y ∧ ilower.z ≤ iupper.z)
    (hne : interleaveBits 10 (toUInt32 ilower.x) (toUInt32 ilower.y) (toUInt32 ilower.z)
      ≠ interleaveBits 10 (toUInt32 iupper.x) (toUInt32 iupper.y) (toUInt32 iupper.z)) :
    ilower.get (splitGridPosition iupper
        (interleaveBits 10 (toUInt32 ilower.x) (toUInt32 ilower.y) (toUInt32 ilower.z))
        (interleaveBits 10 (toUInt32 iupper.x) (toUInt32 iupper.y) (toUInt32 iupper.z))).1
      < ((splitGridPosition iupper
        (interleaveBits 10 (toUInt32 ilower.x) (toUInt32 ilower.y) (toUInt32 ilower.z))
        (interleaveBits 10 (toUInt32 iupper.x) (toUInt32 iupper.y) (toUInt32 iupper.z))).2 : ℤ) ∧
    ((splitGridPosition iupper
        (interleaveBits 10 (toUInt32 ilower.x) (toUInt32 ilower.y) (toUInt32 ilower.z))
        (interleaveBits 10 (toUInt32 iupper.x) (toUInt32 iupper.y) (toUInt32 iupper.z))).2 : ℤ)
      ≤ iupper.get (splitGridPosition iupper
        (interleaveBits 10 (toUInt32 ilower.x) (toUInt32 ilower.y) (toUInt32 ilower.z))
        (interleaveBits 10 (toUInt32 iupper.x) (toUInt32 iupper.y) (toUInt32 iupper.z))).1 := by
  obtain ⟨hlx, hly, hlz⟩ := hl
  obtain ⟨hux, huy, huz⟩ := hu
  obtain ⟨hx, hy, hz⟩ := hle
  have elx := toUInt32_of_nonneg hlx (by omega)
  have ely := toUInt32_of_nonneg hly (by omega)
  have elz := toUInt32_of_nonneg hlz (by omega)
  have eux := toUInt32_of_nonneg (le_trans hlx hx) (by omega)
  have euy := toUInt32_of_nonneg (le_trans hly hy) (by omega)
  have euz := toUInt32_of_nonneg (le_trans hlz hz) (by omega)
  rw [elx, ely, elz, eux, euy, euz] at hne ⊢
  obtain ⟨hlev, h1, h2⟩ := morton_split_core ilower.x.toNat ilower.y.toNat ilower.z.toNat
    iupper.x.toNat iupper.y.toNat iupper.z.toNat (by omega) (by omega) (by omega) (by omega)
    (by omega) (by omega) (by omega) (by omega) (by omega) hne
  simp only [splitGridPosition]
  rw [toUInt32_get, eux, euy, euz]
  generalize highBit (interleaveBits 10 ilower.x.toNat ilower.y.toNat ilower.z.toNat
    ^^^ interleaveBits 10 iupper.x.toNat iupper.y.toNat iupper.z.toNat) = d at *
  have hub : (if d % 3 = 0 then iupper.x.toNat else if d % 3 = 1 then iupper.y.toNat
      else iupper.z.toNat) < 2 ^ 32 := by
    split_ifs <;> omega
  rw [and_high_mask hub (by omega)]
  have ea : ilower.get (d % 3)
      = ((if d % 3 = 0 then ilower.x.toNat else if d % 3 = 1 then ilower.y.toNat
        else ilower.z.toNat : ℕ) : ℤ) := by
    unfold Vec3ia.get
    split_ifs <;> omega
  have eb : iupper.get (d % 3)
      = ((if d % 3 = 0 then iupper.x.toNat else if d % 3 = 1 then iupper.y.toNat
        else iupper.z.toNat : ℕ) : ℤ) := by
    unfold Vec3ia.get
    split_ifs <;> omega
  rw [ea, eb]
  exact ⟨by exact_mod_cast h1, by exact_mod_cast h2⟩

/-- C16: for integer grid coordinates `ilower`, `iupper` in `[0, 1023]^3` with
`ilower <= iupper` on every axis and different Morton codes (three way bit
interleave, `x` in bit 0), the split axis `dim = diff % 3` and the grid
position `isplit = iupper[dim] & ~((1 << level) - 1)` with `level = diff / 3`,
`diff` the index of the highest set bit of the XOR of the codes, satisfy
`ilower[dim] < isplit <= iupper[dim]`. -/
theorem split_grid_coordinate_between (ilower iupper : Vec3ia)
    (hl : 0 ≤ ilower.x ∧ 0 ≤ ilower.y ∧ 0 ≤ ilower.z)
    (hu : iupper.x ≤ 1023 ∧ iupper.y ≤ 1023 ∧ iupper.z ≤ 1023)
    (hle : ilower.x ≤ iupper.x ∧ ilower.y ≤ iupper.y ∧ ilower.z ≤ iupper.z)
    (hne : interleaveBits 10 (toUInt32 ilower.x) (toUInt32 ilower.y) (toUInt32 ilower.z)
      ≠ interleaveBits 10 (toUInt32 iupper.x) (toUInt32 iupper.y) (toUInt32 iupper.z)) :
    (splitGridPosition iupper
        (interleaveBits 10 (toUInt32 ilower.x) (toUInt32 ilower.y) (toUInt32 ilower.z))
        (interleaveBits 10 (toUInt32 iupper.x) (toUInt32 iupper.y) (toUInt32 iupper.z))).1
      = highBit (interleaveBits 10 (toUInt32 ilower.x) (toUInt32 ilower.y) (toUInt32 ilower.z)
          ^^^ interleaveBits 10 (toUInt32 iupper.x) (toUInt32 iupper.y) (toUInt32 iupper.z)) % 3 ∧
    (splitGridPosition iupper
        (interleaveBits 10 (toUInt32 ilower.x) (toUInt32 ilower.y) (toUInt32 ilower.z))
        (interleaveBits 10 (toUInt32 iupper.x) (toUInt32 iupper.y) (toUInt32 iupper.z))).2
      = toUInt32 (iupper.get
          (highBit (interleaveBits 10 (toUInt32 ilower.x) (toUInt32 ilower.y) (toUInt32 ilower.z)
            ^^^ interleaveBits 10 (toUInt32 iupper.x) (toUInt32 iupper.y) (toUInt32 iupper.z))
            % 3))
        &&& (2 ^ 32 - 1 - ((1 <<< (highBit
          (interleaveBits 10 (toUInt32 ilower.x) (toUInt32 ilower.y) (toUInt32 ilower.z)
            ^^^ interleaveBits 10 (toUInt32 iupper.x) (toUInt32 iupper.y) (toUInt32 iupper.z))
            / 3)) - 1)) ∧
    ilower.get (splitGridPosition iupper
        (interleaveBits 10 (toUInt32 ilower.x) (toUInt32 ilower.y) (toUInt32 ilower.z))
        (interleaveBits 10 (toUInt32 iupper.x) (toUInt32 iupper.y) (toUInt32 iupper.z))).1
      < ((splitGridPosition iupper
        (interleaveBits 10 (toUInt32 ilower.x) (toUInt32 ilower.y) (toUInt32 ilower.z))
        (interleaveBits 10 (toUInt32 iupper.x) (toUInt32 iupper.y) (toUInt32 iupper.z))).2 : ℤ) ∧
    ((splitGridPosition iupper
        (interleaveBits 10 (toUInt32 ilower.x) (toUInt32 ilower.y) (toUInt32 ilower.z))
        (interleaveBits 10 (toUInt32 iupper.x) (toUInt32 iupper.y) (toUInt32 iupper.z))).2 : ℤ)
      ≤ iupper.get (splitGridPosition iupper
        (interleaveBits 10 (toUInt32 ilower.x) (toUInt32 ilower.y) (toUInt32 ilower.z))
        (interleaveBits 10 (toUInt32 iupper.x) (toUInt32 iupper.y) (toUInt32 iupper.z))).1 :=
  ⟨rfl, rfl, splitGridPosition_between ilower iupper hl hu hle hne⟩

/-- C16 on the grid points `(0, 0, 0)` and `(1023, 1023, 1023)`: the split is on
the axis `z` at the grid position 512. -/
theorem split_grid_coordinate_between_witness :
    ((0 : ℤ) ≤ (⟨0, 0, 0⟩ : Vec3ia).x ∧ (0 : ℤ) ≤ (⟨0, 0, 0⟩ : Vec3ia).y
      ∧ (0 : ℤ) ≤ (⟨0, 0, 0⟩ : Vec3ia).z) ∧
    (splitGridPosition ⟨1023, 1023, 1023⟩
        (interleaveBits 10 (toUInt32 0) (toUInt32 0) (toUInt32 0))
        (interleaveBits 10 (toUInt32 1023) (toUInt32 1023) (toUInt32 1023)) = (2, 512)) ∧
    ((⟨0, 0, 0⟩ : Vec3ia).get 2 < ((512 : ℕ) : ℤ) ∧ ((512 : ℕ) : ℤ)
      ≤ (⟨1023, 1023, 1023⟩ : Vec3ia).get 2) :=
  ⟨by decide, by decide!, by
    have h := split_grid_coordinate_between ⟨0, 0, 0⟩ ⟨1023, 1023, 1023⟩ (by decide) (by decide)
      (by decide) (by decide!)
    have e : splitGridPosition ⟨1023, 1023, 1023⟩
        (interleaveBits 10 (toUInt32 0) (toUInt32 0) (toUInt32 0))
        (interleaveBits 10 (toUInt32 1023) (toUInt32 1023) (toUInt32 1023)) = (2, 512) := by
      decide!
    have h3 := h.2.2
    simp only [e] at h3
    exact h3⟩
/-- Variant of `morton_split_core` for grid points that on every axis either
coincide or are ordered with the upper coordinate below `2^10`: the split axis
is one of the second kind. -/
theorem morton_split_axis (lx ly lz ux uy uz : ℕ)
    (hx : lx = ux ∨ (lx ≤ ux ∧ ux < 2 ^ 10)) (hy : ly = uy ∨ (ly ≤ uy ∧ uy < 2 ^ 10))
    (hz : lz = uz ∨ (lz ≤ uz ∧ uz < 2 ^ 10))
    (hne : interleaveBits 10 lx ly lz ≠ interleaveBits 10 ux uy uz) :
    highBit (interleaveBits 10 lx ly lz ^^^ interleaveBits 10 ux uy uz) / 3 < 10 ∧
    (if highBit (interleaveBits 10 lx ly lz ^^^ interleaveBits 10 ux uy uz) % 3 = 0 then lx
      else if highBit (interleaveBits 10 lx ly lz ^^^ interleaveBits 10 ux uy uz) % 3 = 1
        then ly else lz)
      < 2 ^ (highBit (interleaveBits 10 lx ly lz ^^^ interleaveBits 10 ux uy uz) / 3)
        * ((if highBit (interleaveBits 10 lx ly lz ^^^ interleaveBits 10 ux uy uz) % 3 = 0
            then ux
          else if highBit (interleaveBits 10 lx ly lz ^^^ interleaveBits 10 ux uy uz) % 3 = 1
            then uy else uz)
          / 2 ^ (highBit (interleaveBits 10 lx ly lz ^^^ interleaveBits 10 ux uy uz) / 3)) ∧
    2 ^ (highBit (interleaveBits 10 lx ly lz ^^^ interleaveBits 10 ux uy uz) / 3)
        * ((if highBit (interleaveBits 10 lx ly lz ^^^ interleaveBits 10 ux uy uz) % 3 = 0
            then ux
          else if highBit (interleaveBits 10 lx ly lz ^^^ interleaveBits 10 ux uy uz) % 3 = 1
            then uy else uz)
          / 2 ^ (highBit (interleaveBits 10 lx ly lz ^^^ interleaveBits 10 ux uy uz) / 3))
      ≤ (if highBit (interleaveBits 10 lx ly lz ^^^ interleaveBits 10 ux uy uz) % 3 = 0 then ux
        else if highBit (interleaveBits 10 lx ly lz ^^^ interleaveBits 10 ux uy uz) % 3 = 1
          then uy else uz) := by
  have hC := interleaveBits_lt 10 lx ly lz
  have hC2 := interleaveBits_lt 10 ux uy uz
  have h830 : (8 : ℕ) ^ 10 = 2 ^ 30 := by norm_num
  rw [h830] at hC hC2
  have hN := Nat.xor_lt_two_pow hC hC2
  have hN0 : 0 < interleaveBits 10 lx ly lz ^^^ interleaveBits 10 ux uy uz :=
    Nat.pos_of_ne_zero (Nat.xor_ne_zero.2 hne)
  obtain ⟨-, hd1, hd2⟩ := highBit_spec hN0 (lt_trans hN (by norm_num))
  have hTL := interleaveBits_testBit 10 lx ly lz
  have hTU := interleaveBits_testBit 10 ux uy uz
  generalize interleaveBits 10 lx ly lz = C at *
  generalize interleaveBits 10 ux uy uz = C2 at *
  generalize highBit (C ^^^ C2) = d at *
  have hd30 : d < 30 := (Nat.pow_lt_pow_iff_right (by norm_num)).1 (lt_of_le_of_lt hd1 hN)
  have hdm : 3 * (d / 3) + d % 3 = d := Nat.div_add_mod d 3
  have hm3 : d % 3 < 3 := Nat.mod_lt _ (by norm_num)
  have hbit : (C ^^^ C2).testBit d = true := (testBit_top hd2).2 hd1
  have hdiffC : C.testBit d ≠ C2.testBit d := by
    intro h
    rw [Nat.testBit_xor, h] at hbit
    simp at hbit
  have hhighC : ∀ i, d < i → C.testBit i = C2.testBit i := by
    intro i hi
    have : (C ^^^ C2).testBit i = false :=
      Nat.testBit_lt_two_pow (lt_of_lt_of_le hd2 (Nat.pow_le_pow_right (by norm_num) hi))
    rw [Nat.testBit_xor] at this
    revert this
    cases C.testBit i <;> cases C2.testBit i <;> simp
  have hlev : d / 3 < 10 := by omega
  have hdiff : (if d % 3 = 0 then lx else if d % 3 = 1 then ly else lz).testBit (d / 3)
      ≠ (if d % 3 = 0 then ux else if d % 3 = 1 then uy else uz).testBit (d / 3) := by
    intro h
    apply hdiffC
    rw [← hdm, hTL _ _ hm3, hTU _ _ hm3, h]
  have hax : (if d % 3 = 0 then lx else if d % 3 = 1 then ly else lz)
        ≤ (if d % 3 = 0 then ux else if d % 3 = 1 then uy else uz) ∧
      (if d % 3 = 0 then ux else if d % 3 = 1 then uy else uz) < 2 ^ 10 := by
    split_ifs at hdiff ⊢
    · rcases hx with h | h
      · exact absurd (by rw [h]) hdiff
      · exact h
    · rcases hy with h | h
      · exact absurd (by rw [h]) hdiff
      · exact h
    · rcases hz with h | h
      · exact absurd (by rw [h]) hdiff
      · exact h
  refine ⟨hlev, ?_⟩
  apply split_of_bits hax.1 hdiff
  intro j hj
  by_cases hj10 : j < 10
  · have := hhighC (3 * j + d % 3) (by omega)
    rw [hTL _ _ hm3, hTU _ _ hm3] at this
    simpa [hj10] using this
  · have h10 : (2 : ℕ) ^ 10 ≤ 2 ^ j := Nat.pow_le_pow_right (by norm_num) (by omega)
    rw [Nat.testBit_lt_two_pow (lt_of_lt_of_le (lt_of_le_of_lt hax.1 hax.2) h10),
      Nat.testBit_lt_two_pow (lt_of_lt_of_le hax.2 h10)]

/-- Grid coordinates of one axis of a box inside the grid (lines 108-114): with
`u`, `v` the scaled distances of the lower and upper bound from the grid base. -/
theorem grid_axis_facts (E : Env) (hmono : Monotone E.vint4) (u v : ℚ) (h0 : 0 ≤ u)
    (huv : u ≤ v) (hv : v ≤ 1024) :
    0 ≤ ⌊u + 1 / 5⌋ ∧ ⌊u + 1 / 5⌋ ≤ 1024 ∧ u < (⌊u + 1 / 5⌋ : ℚ) + 1 ∧
    ((if E.vint4 (u + 1 / 5) ≥ E.vint4 (v - 1 / 5) then ⌊u + 1 / 5⌋ else ⌊v - 1 / 5⌋)
        = ⌊u + 1 / 5⌋ ∨
      (⌊u + 1 / 5⌋ ≤ (if E.vint4 (u + 1 / 5) ≥ E.vint4 (v - 1 / 5) then ⌊u + 1 / 5⌋
          else ⌊v - 1 / 5⌋) ∧
        (if E.vint4 (u + 1 / 5) ≥ E.vint4 (v - 1 / 5) then ⌊u + 1 / 5⌋ else ⌊v - 1 / 5⌋)
          ≤ 1023 ∧
        (((if E.vint4 (u + 1 / 5) ≥ E.vint4 (v - 1 / 5) then ⌊u + 1 / 5⌋
          else ⌊v - 1 / 5⌋ : ℤ) : ℚ) < v))) := by
  have a1 : 0 ≤ ⌊u + 1 / 5⌋ := Int.floor_nonneg.2 (by linarith)
  have a2 : ⌊u + 1 / 5⌋ ≤ 1024 := by
    have : ⌊u + 1 / 5⌋ < 1025 := Int.floor_lt.2 (by push_cast; linarith)
    omega
  have a3 : u < (⌊u + 1 / 5⌋ : ℚ) + 1 := by
    have := Int.lt_floor_add_one (u + 1 / 5)
    linarith
  refine ⟨a1, a2, a3, ?_⟩
  by_cases hsel : E.vint4 (u + 1 / 5) ≥ E.vint4 (v - 1 / 5)
  · left
    rw [if_pos hsel]
  · right
    rw [if_neg hsel]
    have hlt : u + 1 / 5 < v - 1 / 5 := by
      by_contra hcon
      exact hsel (hmono (not_lt.1 hcon))
    refine ⟨Int.floor_le_floor (le_of_lt hlt), ?_, ?_⟩
    · have : ⌊v - 1 / 5⌋ < 1024 := Int.floor_lt.2 (by push_cast; linarith)
      omega
    · have := Int.floor_le (v - 1 / 5)
      linarith
/-- Grid position of the split for grid points that on every axis coincide (at
a coordinate up to 1024) or are ordered inside `[0, 1023]`. -/
theorem splitGridPosition_inside (ilower iupper : Vec3ia)
    (hx : 0 ≤ ilower.x ∧ ilower.x ≤ 1024 ∧
      (iupper.x = ilower.x ∨ (ilower.x ≤ iupper.x ∧ iupper.x ≤ 1023)))
    (hy : 0 ≤ ilower.y ∧ ilower.y ≤ 1024 ∧
      (iupper.y = ilower.y ∨ (ilower.y ≤ iupper.y ∧ iupper.y ≤ 1023)))
    (hz : 0 ≤ ilower.z ∧ ilower.z ≤ 1024 ∧
      (iupper.z = ilower.z ∨ (ilower.z ≤ iupper.z ∧ iupper.z ≤ 1023)))
    (hne : interleaveBits 10 (toUInt32 ilower.x) (toUInt32 ilower.y) (toUInt32 ilower.z)
      ≠ interleaveBits 10 (toUInt32 iupper.x) (toUInt32 iupper.y) (toUInt32 iupper.z)) :
    ilower.get (splitGridPosition iupper
        (interleaveBits 10 (toUInt32 ilower.x) (toUInt32 ilower.y) (toUInt32 ilower.z))
        (interleaveBits 10 (toUInt32 iupper.x) (toUInt32 iupper.y) (toUInt32 iupper.z))).1
      < ((splitGridPosition iupper
        (interleaveBits 10 (toUInt32 ilower.x) (toUInt32 ilower.y) (toUInt32 ilower.z))
        (interleaveBits 10 (toUInt32 iupper.x) (toUInt32 iupper.y) (toUInt32 iupper.z))).2 : ℤ) ∧
    ((splitGridPosition iupper
        (interleaveBits 10 (toUInt32 ilower.x) (toUInt32 ilower.y) (toUInt32 ilower.z))
        (interleaveBits 10 (toUInt32 iupper.x) (toUInt32 iupper.y) (toUInt32 iupper.z))).2 : ℤ)
      ≤ iupper.get (splitGridPosition iupper
        (interleaveBits 10 (toUInt32 ilower.x) (toUInt32 ilower.y) (toUInt32 ilower.z))
        (interleaveBits 10 (toUInt32 iupper.x) (toUInt32 iupper.y) (toUInt32 iupper.z))).1 := by
  obtain ⟨hlx, hlx2, hcx⟩ := hx
  obtain ⟨hly, hly2, hcy⟩ := hy
  obtain ⟨hlz, hlz2, hcz⟩ := hz
  have hux : 0 ≤ iupper.x ∧ iupper.x ≤ 1024 := by omega
  have huy : 0 ≤ iupper.y ∧ iupper.y ≤ 1024 := by omega
  have huz : 0 ≤ iupper.z ∧ iupper.z ≤ 1024 := by omega
  have elx := toUInt32_of_nonneg hlx (by omega)
  have ely := toUInt32_of_nonneg hly (by omega)
  have elz := toUInt32_of_nonneg hlz (by omega)
  have eux := toUInt32_of_nonneg hux.1 (by omega)
  have euy := toUInt32_of_nonneg huy.1 (by omega)
  have euz := toUInt32_of_nonneg huz.1 (by omega)
  rw [elx, ely, elz, eux, euy, euz] at hne ⊢
  obtain ⟨hlev, h1, h2⟩ := morton_split_axis ilower.x.toNat ilower.y.toNat ilower.z.toNat
    iupper.x.toNat iupper.y.toNat iupper.z.toNat (by omega) (by omega) (by omega) hne
  simp only [splitGridPosition]
  rw [toUInt32_get, eux, euy, euz]
  generalize highBit (interleaveBits 10 ilower.x.toNat ilower.y.toNat ilower.z.toNat
    ^^^ interleaveBits 10 iupper.x.toNat iupper.y.toNat iupper.z.toNat) = d at *
  have hub : (if d % 3 = 0 then iupper.x.toNat else if d % 3 = 1 then iupper.y.toNat
      else iupper.z.toNat) < 2 ^ 32 := by
    split_ifs <;> omega
  rw [and_high_mask hub (by omega)]
  have ea : ilower.get (d % 3)
      = ((if d % 3 = 0 then ilower.x.toNat else if d % 3 = 1 then ilower.y.toNat
        else ilower.z.toNat : ℕ) : ℤ) := by
    unfold Vec3ia.get
    split_ifs <;> omega
  have eb : iupper.get (d % 3)
      = ((if d % 3 = 0 then iupper.x.toNat else if d % 3 = 1 then iupper.y.toNat
        else iupper.z.toNat : ℕ) : ℤ) := by
    unfold Vec3ia.get
    split_ifs <;> omega
  rw [ea, eb]
  exact ⟨by exact_mod_cast h1, by exact_mod_cast h2⟩

/-- Scaled distance from the grid base of a coordinate inside the grid. -/
theorem grid_coordinate_range {base extend scale lo up : ℚ} (hext : 0 < extend)
    (hscale : scale = GRID_SIZE / extend) (h1 : base ≤ lo) (h2 : lo ≤ up)
    (h3 : up ≤ base + extend) :
    0 ≤ (lo - base) * scale ∧ (lo - base) * scale ≤ (up - base) * scale ∧
    (up - base) * scale ≤ 1024 ∧
    lo = base + (lo - base) * scale * (1 / GRID_SIZE) * extend ∧
    up = base + (up - base) * scale * (1 / GRID_SIZE) * extend := by
  have hs : 0 < scale := by
    rw [hscale]
    exact div_pos (by norm_num [GRID_SIZE]) hext
  have hse : scale * extend = 1024 := by
    rw [hscale]
    field_simp
    norm_num [GRID_SIZE]
  refine ⟨mul_nonneg (by linarith) hs.le, mul_le_mul_of_nonneg_right (by linarith) hs.le, ?_,
    ?_, ?_⟩
  · calc (up - base) * scale ≤ extend * scale := mul_le_mul_of_nonneg_right (by linarith) hs.le
      _ = 1024 := by rw [mul_comm]; exact hse
  · have : (lo - base) * scale * (1 / GRID_SIZE) * extend
        = (lo - base) * (scale * extend) * (1 / 1024) := by
      simp only [GRID_SIZE]; push_cast; ring
    rw [this, hse]; ring
  · have : (up - base) * scale * (1 / GRID_SIZE) * extend
        = (up - base) * (scale * extend) * (1 / 1024) := by
      simp only [GRID_SIZE]; push_cast; ring
    rw [this, hse]; ring

/-- Step of the split plane proof on one axis: a grid position strictly above
the lower grid coordinate and at most the upper one maps to a world position
between the bounds. -/
theorem fsplit_between_on_axis {base extend lo up u v : ℚ} {il iu : ℤ} {S : ℕ}
    (hext : 0 < extend)
    (elo : lo = base + u * (1 / GRID_SIZE) * extend)
    (eup : up = base + v * (1 / GRID_SIZE) * extend)
    (hu : u < (il : ℚ) + 1)
    (hc : iu = il ∨ (il ≤ iu ∧ iu ≤ 1023 ∧ (iu : ℚ) < v))
    (hS1 : il < (S : ℤ)) (hS2 : (S : ℤ) ≤ iu) :
    lo ≤ base + (S : ℚ) * (1 / GRID_SIZE) * extend ∧
    base + (S : ℚ) * (1 / GRID_SIZE) * extend ≤ up := by
  have hk : (0 : ℚ) < 1 / GRID_SIZE * extend := by
    apply mul_pos _ hext
    norm_num [GRID_SIZE]
  rcases hc with hc | ⟨-, -, hv⟩
  · omega
  · have s1 : (il : ℚ) + 1 ≤ (S : ℚ) := by exact_mod_cast hS1
    have s2 : (S : ℚ) ≤ (iu : ℚ) := by exact_mod_cast hS2
    rw [elo, eup]
    constructor
    · have : u * (1 / GRID_SIZE * extend) ≤ (S : ℚ) * (1 / GRID_SIZE * extend) :=
        mul_le_mul_of_nonneg_right (by linarith) hk.le
      linarith
    · have : (S : ℚ) * (1 / GRID_SIZE * extend) ≤ v * (1 / GRID_SIZE * extend) :=
        mul_le_mul_of_nonneg_right (by linarith) hk.le
      linarith
/-- The split plane of a box inside the grid lies between the bounds of the box
on the split axis. -/
theorem splitPlane_between (E : Env) (hmono : Monotone E.vint4)
    (hbi : E.bitInterleave = interleaveBits 10)
    (grid_base : Vec3fa) (grid_scale grid_extend : ℚ) (prim : PrimRef)
    (hext : 0 < grid_extend) (hscale : grid_scale = GRID_SIZE / grid_extend)
    (hx : grid_base.x ≤ prim.lower.x ∧ prim.lower.x ≤ prim.upper.x ∧
      prim.upper.x ≤ grid_base.x + grid_extend)
    (hy : grid_base.y ≤ prim.lower.y ∧ prim.lower.y ≤ prim.upper.y ∧
      prim.upper.y ≤ grid_base.y + grid_extend)
    (hz : grid_base.z ≤ prim.lower.z ∧ prim.lower.z ≤ prim.upper.z ∧
      prim.upper.z ≤ grid_base.z + grid_extend)
    (hne : (splitPrimitiveCodes E grid_base grid_scale prim).2.2.1
      ≠ (splitPrimitiveCodes E grid_base grid_scale prim).2.2.2) :
    prim.lower.get (splitPlane grid_base grid_extend
        (splitPrimitiveCodes E grid_base grid_scale prim).2.1
        (splitPrimitiveCodes E grid_base grid_scale prim).2.2.1
        (splitPrimitiveCodes E grid_base grid_scale prim).2.2.2).1
      ≤ (splitPlane grid_base grid_extend
        (splitPrimitiveCodes E grid_base grid_scale prim).2.1
        (splitPrimitiveCodes E grid_base grid_scale prim).2.2.1
        (splitPrimitiveCodes E grid_base grid_scale prim).2.2.2).2 ∧
    (splitPlane grid_base grid_extend
        (splitPrimitiveCodes E grid_base grid_scale prim).2.1
        (splitPrimitiveCodes E grid_base grid_scale prim).2.2.1
        (splitPrimitiveCodes E grid_base grid_scale prim).2.2.2).2
      ≤ prim.upper.get (splitPlane grid_base grid_extend
        (splitPrimitiveCodes E grid_base grid_scale prim).2.1
        (splitPrimitiveCodes E grid_base grid_scale prim).2.2.1
        (splitPrimitiveCodes E grid_base grid_scale prim).2.2.2).1 := by
  obtain ⟨x0, x1, x2, xlo, xup⟩ := grid_coordinate_range hext hscale hx.1 hx.2.1 hx.2.2
  obtain ⟨y0, y1, y2, ylo, yup⟩ := grid_coordinate_range hext hscale hy.1 hy.2.1 hy.2.2
  obtain ⟨z0, z1, z2, zlo, zup⟩ := grid_coordinate_range hext hscale hz.1 hz.2.1 hz.2.2
  obtain ⟨ax0, ax1, ax2, ax3⟩ := grid_axis_facts E hmono _ _ x0 x1 x2
  obtain ⟨ay0, ay1, ay2, ay3⟩ := grid_axis_facts E hmono _ _ y0 y1 y2
  obtain ⟨az0, az1, az2, az3⟩ := grid_axis_facts E hmono _ _ z0 z1 z2
  simp only [splitPrimitiveCodes] at hne ⊢
  rw [hbi] at hne ⊢
  have hpos := splitGridPosition_inside
    ⟨⌊(prim.lower.x - grid_base.x) * grid_scale + 1 / 5⌋,
      ⌊(prim.lower.y - grid_base.y) * grid_scale + 1 / 5⌋,
      ⌊(prim.lower.z - grid_base.z) * grid_scale + 1 / 5⌋⟩
    ⟨if E.vint4 ((prim.lower.x - grid_base.x) * grid_scale + 1 / 5)
          ≥ E.vint4 ((prim.upper.x - grid_base.x) * grid_scale - 1 / 5)
        then ⌊(prim.lower.x - grid_base.x) * grid_scale + 1 / 5⌋
        else ⌊(prim.upper.x - grid_base.x) * grid_scale - 1 / 5⌋,
      if E.vint4 ((prim.lower.y - grid_base.y) * grid_scale + 1 / 5)
          ≥ E.vint4 ((prim.upper.y - grid_base.y) * grid_scale - 1 / 5)
        then ⌊(prim.lower.y - grid_base.y) * grid_scale + 1 / 5⌋
        else ⌊(prim.upper.y - grid_base.y) * grid_scale - 1 / 5⌋,
      if E.vint4 ((prim.lower.z - grid_base.z) * grid_scale + 1 / 5)
          ≥ E.vint4 ((prim.upper.z - grid_base.z) * grid_scale - 1 / 5)
        then ⌊(prim.lower.z - grid_base.z) * grid_scale + 1 / 5⌋
        else ⌊(prim.upper.z - grid_base.z) * grid_scale - 1 / 5⌋⟩
    ⟨ax0, ax1, ax3.imp id (fun h => ⟨h.1, h.2.1⟩)⟩
    ⟨ay0, ay1, ay3.imp id (fun h => ⟨h.1, h.2.1⟩)⟩
    ⟨az0, az1, az3.imp id (fun h => ⟨h.1, h.2.1⟩)⟩ hne
  simp only [splitPlane]
  revert hpos
  generalize splitGridPosition _ _ _ = pos
  intro hpos
  by_cases h0 : pos.1 = 0
  · simp only [Vec3fa.get, Vec3ia.get, h0, if_true] at hpos ⊢
    exact fsplit_between_on_axis hext xlo xup ax2 ax3 hpos.1 hpos.2
  · by_cases h1 : pos.1 = 1
    · simp only [Vec3fa.get, Vec3ia.get, h1, if_true, one_ne_zero, if_false] at hpos ⊢
      exact fsplit_between_on_axis hext ylo yup ay2 ay3 hpos.1 hpos.2
    · simp only [Vec3fa.get, Vec3ia.get, h0, h1, if_false] at hpos ⊢
      exact fsplit_between_on_axis hext zlo zup az2 az3 hpos.1 hpos.2
theorem not_mem_assertAt {line k : ℕ} {c : Prop} [Decidable c] {failed : List ℕ}
    (hk : k ≠ line) (h : k ∉ failed) : k ∉ assertAt line c failed := by
  intro hmem
  rcases assertAt_mem hmem with h1 | h1
  · exact h h1
  · exact hk h1.1

/-- C13: in exact arithmetic, for a grid with `grid_extend > 0` and
`grid_scale = GRID_SIZE / grid_extend` and a box inside the grid bounds whose
two grid codes differ, the split position `fsplit` computed by `splitPrimitive`
satisfies `prim.lower[dim] <= fsplit <= prim.upper[dim]`, and the assert of
lines 141-142 is not violated by a call with one split level.  The lane
conversion `vint4` is monotone and `bitInterleave` interleaves ten bits per
axis. -/
theorem split_plane_inside_box (E : Env) (hmono : Monotone E.vint4)
    (hbi : E.bitInterleave = interleaveBits 10)
    (grid_base : Vec3fa) (grid_scale grid_extend : ℚ) (prim : PrimRef)
    (hext : 0 < grid_extend) (hscale : grid_scale = GRID_SIZE / grid_extend)
    (hx : grid_base.x ≤ prim.lower.x ∧ prim.lower.x ≤ prim.upper.x ∧
      prim.upper.x ≤ grid_base.x + grid_extend)
    (hy : grid_base.y ≤ prim.lower.y ∧ prim.lower.y ≤ prim.upper.y ∧
      prim.upper.y ≤ grid_base.y + grid_extend)
    (hz : grid_base.z ≤ prim.lower.z ∧ prim.lower.z ≤ prim.upper.z ∧
      prim.upper.z ≤ grid_base.z + grid_extend)
    (hne : (splitPrimitiveCodes E grid_base grid_scale prim).2.2.1
      ≠ (splitPrimitiveCodes E grid_base grid_scale prim).2.2.2) :
    (prim.lower.get (splitPlane grid_base grid_extend
        (splitPrimitiveCodes E grid_base grid_scale prim).2.1
        (splitPrimitiveCodes E grid_base grid_scale prim).2.2.1
        (splitPrimitiveCodes E grid_base grid_scale prim).2.2.2).1
      ≤ (splitPlane grid_base grid_extend
        (splitPrimitiveCodes E grid_base grid_scale prim).2.1
        (splitPrimitiveCodes E grid_base grid_scale prim).2.2.1
        (splitPrimitiveCodes E grid_base grid_scale prim).2.2.2).2 ∧
    (splitPlane grid_base grid_extend
        (splitPrimitiveCodes E grid_base grid_scale prim).2.1
        (splitPrimitiveCodes E grid_base grid_scale prim).2.2.1
        (splitPrimitiveCodes E grid_base grid_scale prim).2.2.2).2
      ≤ prim.upper.get (splitPlane grid_base grid_extend
        (splitPrimitiveCodes E grid_base grid_scale prim).2.1
        (splitPrimitiveCodes E grid_base grid_scale prim).2.2.1
        (splitPrimitiveCodes E grid_base grid_scale prim).2.2.2).1) ∧
    (∀ geomID primID : ℕ,
      141 ∉ (splitPrimitive E prim geomID primID 1 grid_base grid_scale grid_extend
        ⟨[], []⟩).failed) := by
  have key := splitPlane_between E hmono hbi grid_base grid_scale grid_extend prim hext hscale
    hx hy hz hne
  refine ⟨key, ?_⟩
  intro geomID primID
  simp only [splitPrimitive, hne, if_false]
  rw [assertAt_of_true (show _ ∧ _ from ⟨key.1, key.2⟩)]
  apply not_mem_assertAt (by decide)
  apply not_mem_assertAt (by decide)
  apply not_mem_assertAt (by decide)
  apply not_mem_assertAt (by decide)
  apply not_mem_assertAt (by decide)
  apply not_mem_assertAt (by decide)
  apply not_mem_assertAt (by decide)
  exact List.not_mem_nil _

/-- C13 for the unit cube in the grid of the unit cube: the split is on the
axis `z` at `1/2`. -/
theorem split_plane_inside_box_witness :
    Monotone sampleEnv.vint4 ∧ sampleEnv.bitInterleave = interleaveBits 10 ∧
    (0 : ℚ) < 1 ∧ (1024 : ℚ) = GRID_SIZE / 1 ∧
    (splitPrimitiveCodes sampleEnv ⟨0, 0, 0⟩ 1024 sampleCube).2.2.1
      ≠ (splitPrimitiveCodes sampleEnv ⟨0, 0, 0⟩ 1024 sampleCube).2.2.2 ∧
    splitPlane ⟨0, 0, 0⟩ 1
        (splitPrimitiveCodes sampleEnv ⟨0, 0, 0⟩ 1024 sampleCube).2.1
        (splitPrimitiveCodes sampleEnv ⟨0, 0, 0⟩ 1024 sampleCube).2.2.1
        (splitPrimitiveCodes sampleEnv ⟨0, 0, 0⟩ 1024 sampleCube).2.2.2 = (2, 1 / 2) ∧
    ((sampleCube.lower.get (splitPlane ⟨0, 0, 0⟩ 1
        (splitPrimitiveCodes sampleEnv ⟨0, 0, 0⟩ 1024 sampleCube).2.1
        (splitPrimitiveCodes sampleEnv ⟨0, 0, 0⟩ 1024 sampleCube).2.2.1
        (splitPrimitiveCodes sampleEnv ⟨0, 0, 0⟩ 1024 sampleCube).2.2.2).1
      ≤ (splitPlane ⟨0, 0, 0⟩ 1
        (splitPrimitiveCodes sampleEnv ⟨0, 0, 0⟩ 1024 sampleCube).2.1
        (splitPrimitiveCodes sampleEnv ⟨0, 0, 0⟩ 1024 sampleCube).2.2.1
        (splitPrimitiveCodes sampleEnv ⟨0, 0, 0⟩ 1024 sampleCube).2.2.2).2 ∧
    (splitPlane ⟨0, 0, 0⟩ 1
        (splitPrimitiveCodes sampleEnv ⟨0, 0, 0⟩ 1024 sampleCube).2.1
        (splitPrimitiveCodes sampleEnv ⟨0, 0, 0⟩ 1024 sampleCube).2.2.1
        (splitPrimitiveCodes sampleEnv ⟨0, 0, 0⟩ 1024 sampleCube).2.2.2).2
      ≤ sampleCube.upper.get (splitPlane ⟨0, 0, 0⟩ 1
        (splitPrimitiveCodes sampleEnv ⟨0, 0, 0⟩ 1024 sampleCube).2.1
        (splitPrimitiveCodes sampleEnv ⟨0, 0, 0⟩ 1024 sampleCube).2.2.1
        (splitPrimitiveCodes sampleEnv ⟨0, 0, 0⟩ 1024 sampleCube).2.2.2).1) ∧
    (∀ geomID primID : ℕ,
      141 ∉ (splitPrimitive sampleEnv sampleCube geomID primID 1 ⟨0, 0, 0⟩ 1024 1
        ⟨[], []⟩).failed)) :=
  ⟨sampleEnv_vint4_mono, rfl, by norm_num, by norm_num [GRID_SIZE], by decide!, by decide!,
    split_plane_inside_box sampleEnv sampleEnv_vint4_mono rfl ⟨0, 0, 0⟩ 1024 1 sampleCube
      (by norm_num) (by norm_num [GRID_SIZE]) (by decide!) (by decide!) (by decide!)
      (by decide!)⟩
theorem extra_eq (it : PresplitItem) :
    it.data >>> MAX_PRESPLITS_PER_PRIMITIVE_LOG = it.extra := rfl

theorem depth_mask_eq (it : PresplitItem) :
    it.data &&& ((1 <<< MAX_PRESPLITS_PER_PRIMITIVE_LOG) - 1) = it.depth := rfl

/-- C15: for every extra count `e` in `[0, 31]` and every depth `d` in `[1, 5]`
the packed value `data = (e << 5) | d` satisfies `data >> 5 == e` and
`data & 31 == d` and fits the 32 bit word it is stored in; hence for an item
measured with `e` extra sub-primitives at depth `d` the expression
`data >> MAX_PRESPLITS_PER_PRIMITIVE_LOG` of the correction loop (line 337)
reads `e` and the expression `data & ((1 << MAX_PRESPLITS_PER_PRIMITIVE_LOG) - 1)`
of the commit loop (line 356) reads `d`. -/
theorem packed_measurement_round_trip (e d : ℕ) (he : e ≤ 31) (hd1 : 1 ≤ d) (hd5 : d ≤ 5) :
    ((e <<< MAX_PRESPLITS_PER_PRIMITIVE_LOG) ||| d) >>> MAX_PRESPLITS_PER_PRIMITIVE_LOG = e ∧
    ((e <<< MAX_PRESPLITS_PER_PRIMITIVE_LOG) ||| d) &&& 31 = d ∧
    ((e <<< MAX_PRESPLITS_PER_PRIMITIVE_LOG) ||| d) < 2 ^ 32 ∧
    (∀ (E : Env) (g : Grid) (prims : List PrimRef) (it : PresplitItem),
      (measureItem E g prims it).2.1 = e → ⌊it.priority⌋₊ = d →
      (measureItem E g prims it).1.data >>> MAX_PRESPLITS_PER_PRIMITIVE_LOG = e ∧
      (measureItem E g prims it).1.data &&& ((1 <<< MAX_PRESPLITS_PER_PRIMITIVE_LOG) - 1) = d) := by
  have hraw : ∀ e : Fin 32, ∀ d : Fin 6,
      (((e : ℕ) <<< MAX_PRESPLITS_PER_PRIMITIVE_LOG) ||| (d : ℕ))
          >>> MAX_PRESPLITS_PER_PRIMITIVE_LOG = e ∧
      (((e : ℕ) <<< MAX_PRESPLITS_PER_PRIMITIVE_LOG) ||| (d : ℕ)) &&& 31 = d ∧
      (((e : ℕ) <<< MAX_PRESPLITS_PER_PRIMITIVE_LOG) ||| (d : ℕ)) < 2 ^ 32 := by
    decide
  obtain ⟨r1, r2, r3⟩ := hraw ⟨e, by omega⟩ ⟨d, by omega⟩
  refine ⟨r1, r2, r3, ?_⟩
  intro E g prims it h1 h2
  have hd : ⌊it.priority⌋₊ ≤ 5 := by omega
  have s := measureItem_stored E g prims it hd
  have hx := measureItem_extra E g prims it hd
  exact ⟨(extra_eq _).trans (s.1.trans (hx.symm.trans h1)),
    (depth_mask_eq _).trans (s.2.trans h2)⟩

/-- C15 for 3 extra sub-primitives at depth 2: the packed word is 98. -/
theorem packed_measurement_round_trip_witness :
    (3 ≤ 31 ∧ 1 ≤ 2 ∧ 2 ≤ 5) ∧ ((3 <<< MAX_PRESPLITS_PER_PRIMITIVE_LOG) ||| 2) = 98 ∧
    (((3 <<< MAX_PRESPLITS_PER_PRIMITIVE_LOG) ||| 2) >>> MAX_PRESPLITS_PER_PRIMITIVE_LOG = 3 ∧
    ((3 <<< MAX_PRESPLITS_PER_PRIMITIVE_LOG) ||| 2) &&& 31 = 2 ∧
    ((3 <<< MAX_PRESPLITS_PER_PRIMITIVE_LOG) ||| 2) < 2 ^ 32 ∧
    (∀ (E : Env) (g : Grid) (prims : List PrimRef) (it : PresplitItem),
      (measureItem E g prims it).2.1 = 3 → ⌊it.priority⌋₊ = 2 →
      (measureItem E g prims it).1.data >>> MAX_PRESPLITS_PER_PRIMITIVE_LOG = 3 ∧
      (measureItem E g prims it).1.data &&& ((1 <<< MAX_PRESPLITS_PER_PRIMITIVE_LOG) - 1) = 2)) :=
  ⟨by decide, by decide, packed_measurement_round_trip 3 2 (by decide) (by decide) (by decide)⟩
/-- The measurement of the unit cube at depth 2 stores 3 extra sub-primitives
and the depth in the word 98, from which both are read back. -/
theorem sample_measure_stores_98 :
    measureItem sampleEnv ⟨⟨0, 0, 0⟩, 1024, 1⟩ samplePrims ⟨.priority 2, 1⟩
      = (⟨.data 98, 1⟩, 3, []) ∧
    (98 >>> MAX_PRESPLITS_PER_PRIMITIVE_LOG = 3 ∧
      98 &&& ((1 <<< MAX_PRESPLITS_PER_PRIMITIVE_LOG) - 1) = 2) := by
  constructor
  · decide!
  · decide
/-! ## Priorities that are NaN -/

/-- For a radicand that is not negative the priority is the number of the
exact model. -/
theorem compute_priority_num (E : Env) (ref : PrimRef) (mc : ℕ × ℕ)
    (h : 0 ≤ (E.area ref.bounds - 2 * E.projectedPrimitiveArea ref.geomID ref.primID)
      * E.powf (3 / 2) (highBit (mc.1 ^^^ mc.2))) :
    ieee.PresplitItem.compute_priority E ref mc
      = .num (PresplitItem.compute_priority E ref mc) := by
  simp only [ieee.PresplitItem.compute_priority, PresplitItem.compute_priority, ieee.powf,
    ieee.Float32.mul]
  have h1 : ¬ ((3 / 2 : ℚ) < 0 ∧ ((highBit (mc.1 ^^^ mc.2) : ℕ) : ℚ).den ≠ 1) := by
    rintro ⟨h, -⟩
    norm_num at h
  rw [if_neg h1]
  simp only [ieee.Float32.mul, ieee.powf]
  rw [if_neg (fun hc => absurd hc.1 (not_lt.2 h))]

/-- For a negative radicand the priority is NaN: `powf` has no fourth root of
a negative number. -/
theorem compute_priority_nan (E : Env) (ref : PrimRef) (mc : ℕ × ℕ)
    (h : (E.area ref.bounds - 2 * E.projectedPrimitiveArea ref.geomID ref.primID)
      * E.powf (3 / 2) (highBit (mc.1 ^^^ mc.2)) < 0) :
    ieee.PresplitItem.compute_priority E ref mc = .nan := by
  simp only [ieee.PresplitItem.compute_priority, ieee.powf, ieee.Float32.mul]
  have h1 : ¬ ((3 / 2 : ℚ) < 0 ∧ ((highBit (mc.1 ^^^ mc.2) : ℕ) : ℚ).den ≠ 1) := by
    rintro ⟨h, -⟩
    norm_num at h
  rw [if_neg h1]
  simp only [ieee.Float32.mul, ieee.powf]
  rw [if_pos ⟨h, by norm_num⟩]

/-- C12: the unit square in the plane `z = 0` has the box area `B = 2`, a mesh
may report the projected area `A = 2` for it, and its two grid codes differ;
`B - 2A` is negative and `compute_priority` returns NaN, not a score that is
at least 0. -/
theorem compute_priority_nan_when_box_below_twice_area :
    0 ≤ quadEnv.area sampleQuad.bounds ∧
    0 ≤ quadEnv.projectedPrimitiveArea sampleQuad.geomID sampleQuad.primID ∧
    quadEnv.area sampleQuad.bounds
      - 2 * quadEnv.projectedPrimitiveArea sampleQuad.geomID sampleQuad.primID = -2 ∧
    (computeMC quadEnv (computeGrid quadPrimInfo).grid_base (computeGrid quadPrimInfo).grid_scale
      sampleQuad).1
      ≠ (computeMC quadEnv (computeGrid quadPrimInfo).grid_base
          (computeGrid quadPrimInfo).grid_scale sampleQuad).2 ∧
    ieee.PresplitItem.compute_priority quadEnv sampleQuad
      (computeMC quadEnv (computeGrid quadPrimInfo).grid_base
        (computeGrid quadPrimInfo).grid_scale sampleQuad) = .nan ∧
    ieee.Float32.ge (ieee.PresplitItem.compute_priority quadEnv sampleQuad
      (computeMC quadEnv (computeGrid quadPrimInfo).grid_base
        (computeGrid quadPrimInfo).grid_scale sampleQuad)) (.num 0) = false := by
  decide!

/-- C6: on the input of a point and the unit square with capacity 4 the
priority of the square is NaN; it is left in place by lines 264-275, the sort
puts it last, the binary search selects it (`r = 1 < 2`), and the split depth
used for it is 0, outside `[1, 5]`, in the measurement (`(unsigned)priority`)
and in the commit (`data & 31`); the asserts of lines 306, 314 and 358 are
violated. -/
theorem nan_priority_selected_with_depth_zero :
    ieee.initPresplitItems quadEnv (computeGrid quadPrimInfo) quadPrims quadPrimInfo.size
      = [⟨.priority (.num 0), 0⟩, ⟨.priority .nan, 1⟩] ∧
    (ieee.createPrimRefArray_presplit quadEnv ieee.sortItems quadPrimInfo quadPrims).sorted
      = [⟨.priority (.num 0), 0⟩, ⟨.priority .nan, 1⟩] ∧
    (ieee.createPrimRefArray_presplit quadEnv ieee.sortItems quadPrimInfo quadPrims).searched
      = 1 ∧
    (ieee.createPrimRefArray_presplit quadEnv ieee.sortItems quadPrimInfo quadPrims).r = 1 ∧
    ieee.Float32.toUInt
      (((ieee.createPrimRefArray_presplit quadEnv ieee.sortItems quadPrimInfo
        quadPrims).sorted.getD 1 default).priority) = 0 ∧
    ((ieee.createPrimRefArray_presplit quadEnv ieee.sortItems quadPrimInfo
        quadPrims).presplitItem.getD 1 default).data &&& 31 = 0 ∧
    (ieee.createPrimRefArray_presplit quadEnv ieee.sortItems quadPrimInfo quadPrims).failed
      = [306, 314, 358] := by
  decide!
/-! ## Runs without NaN: the exact model -/

theorem toIeee_priority (it : PresplitItem) :
    (PresplitItem.toIeee it).priority = .num it.priority := by
  obtain ⟨v, i⟩ := it
  cases v <;> rfl

theorem toIeee_data (it : PresplitItem) : (PresplitItem.toIeee it).data = it.data := by
  obtain ⟨v, i⟩ := it
  cases v <;> rfl

theorem toIeee_index (it : PresplitItem) : (PresplitItem.toIeee it).index = it.index := by
  obtain ⟨v, i⟩ := it
  cases v <;> rfl

theorem toIeee_default : PresplitItem.toIeee default = default := rfl

theorem getD_map_toIeee (l : List PresplitItem) (i : ℕ) :
    (l.map PresplitItem.toIeee).getD i default = PresplitItem.toIeee (l.getD i default) := by
  rw [List.getD_eq_getElem?_getD, List.getD_eq_getElem?_getD, List.getElem?_map]
  cases l[i]? <;> rfl

theorem assertAt_congr {line : ℕ} {c d : Prop} [Decidable c] [Decidable d] (h : c ↔ d)
    (failed : List ℕ) : assertAt line c failed = assertAt line d failed := by
  unfold assertAt
  by_cases hc : c
  · rw [if_pos hc, if_pos (h.1 hc)]
  · rw [if_neg hc, if_neg (fun hd => hc (h.2 hd))]

theorem float_min_num (a b : ℚ) :
    ieee.Float32.min (.num a) (.num b) = .num (min a b) := by
  unfold ieee.Float32.min ieee.Float32.lt
  by_cases h : a < b
  · simp [h, min_eq_left h.le]
  · simp [h, min_eq_right (not_lt.1 h)]

theorem float_max_num (a b : ℚ) :
    ieee.Float32.max (.num a) (.num b) = .num (max a b) := by
  unfold ieee.Float32.max ieee.Float32.lt
  by_cases h : a < b
  · simp [h, max_eq_right h.le]
  · simp [h, max_eq_left (not_lt.1 h)]

theorem initPresplitItems_toIeee (E : Env) (g : Grid) (prims : List PrimRef) (n : ℕ)
    (hnum : ∀ i, i < n →
      (computeMC E g.grid_base g.grid_scale (prims.getD i default)).1
        ≠ (computeMC E g.grid_base g.grid_scale (prims.getD i default)).2 →
      0 ≤ (E.area (prims.getD i default).bounds
          - 2 * E.projectedPrimitiveArea (prims.getD i default).geomID
            (prims.getD i default).primID)
        * E.powf (3 / 2) (highBit
          ((computeMC E g.grid_base g.grid_scale (prims.getD i default)).1
            ^^^ (computeMC E g.grid_base g.grid_scale (prims.getD i default)).2))) :
    ieee.initPresplitItems E g prims n = (initPresplitItems E g prims n).map PresplitItem.toIeee := by
  unfold ieee.initPresplitItems initPresplitItems
  rw [List.map_map]
  apply List.map_congr_left
  intro i hi
  have hin : i < n := List.mem_range.1 hi
  simp only [Function.comp]
  by_cases hne : (computeMC E g.grid_base g.grid_scale (prims.getD i default)).1
      ≠ (computeMC E g.grid_base g.grid_scale (prims.getD i default)).2
  · rw [if_pos hne, if_pos hne, compute_priority_num E _ _ (hnum i hin hne)]
    rfl
  · rw [if_neg hne, if_neg hne]
    rfl

theorem foldl_add_num (l : List PresplitItem) :
    ∀ acc : ℚ, ((l.map PresplitItem.toIeee).map ieee.PresplitItem.priority).foldl ieee.Float32.add
        (.num acc) = .num (acc + (l.map PresplitItem.priority).sum) := by
  induction l with
  | nil => intro acc; simp
  | cons a l ih =>
    intro acc
    simp only [List.map_cons, List.foldl_cons, List.sum_cons, toIeee_priority,
      ieee.Float32.add]
    rw [ih, add_assoc]

theorem prioritySum_toIeee (l : List PresplitItem) :
    ieee.prioritySum (l.map PresplitItem.toIeee) = .num (prioritySum l) := by
  unfold ieee.prioritySum prioritySum
  rw [foldl_add_num, zero_add]
theorem assignSplitLevel_toIeee (b : ℕ) (inv : ℚ) (it : PresplitItem) :
    ieee.assignSplitLevel b (.num inv) it.toIeee
      = ((assignSplitLevel b inv it).1.toIeee, (assignSplitLevel b inv it).2) := by
  unfold ieee.assignSplitLevel assignSplitLevel
  rw [toIeee_priority]
  by_cases h1 : it.priority > 0
  · have g1 : ieee.Float32.gt (.num it.priority) (.num 0) = true := by
      simpa [ieee.Float32.gt, ieee.Float32.lt] using h1
    rw [if_pos g1, if_pos h1]
    simp only [ieee.Float32.mul]
    by_cases h2 : (b : ℚ) * it.priority * inv ≥ PRIORITY_CUTOFF_THRESHOLD
    · have g2 : ieee.Float32.ge (.num ((b : ℚ) * it.priority * inv))
          (.num PRIORITY_CUTOFF_THRESHOLD) = true := by
        simpa [ieee.Float32.ge, ieee.Float32.le] using h2
      rw [if_pos g2, if_pos h2]
      simp only [ieee.ceilLog2, float_min_num, float_max_num, toIeee_index]
      refine Prod.ext rfl ?_
      apply assertAt_congr
      simp [ieee.Float32.ge, ieee.Float32.le]
    · have g2 : ¬ ieee.Float32.ge (.num ((b : ℚ) * it.priority * inv))
          (.num PRIORITY_CUTOFF_THRESHOLD) = true := by
        simpa [ieee.Float32.ge, ieee.Float32.le] using h2
      rw [if_neg g2, if_neg h2, toIeee_index]
      rfl
  · have g1 : ¬ ieee.Float32.gt (.num it.priority) (.num 0) = true := by
      simpa [ieee.Float32.gt, ieee.Float32.lt] using h1
    rw [if_neg g1, if_neg h1]

theorem computeSplitLevels_toIeee (b : ℕ) (items : List PresplitItem) :
    ieee.computeSplitLevels b (items.map PresplitItem.toIeee)
      = ((computeSplitLevels b items).1.map PresplitItem.toIeee,
          (computeSplitLevels b items).2) := by
  unfold ieee.computeSplitLevels computeSplitLevels
  simp only [prioritySum_toIeee, ieee.Float32.div, List.map_map]
  have e : (ieee.assignSplitLevel b (.num (1 / prioritySum items)) ∘ PresplitItem.toIeee)
      = fun it => ((assignSplitLevel b (1 / prioritySum items) it).1.toIeee,
          (assignSplitLevel b (1 / prioritySum items) it).2) := by
    funext it
    exact assignSplitLevel_toIeee _ _ _
  refine Prod.ext ?_ ?_
  · simp only [e, List.map_map, Function.comp_def]
  · simp only [e, List.map_map, Function.comp_def]

theorem binarySearch_toIeee (items : List PresplitItem) :
    ∀ fuel l r : ℕ, ieee.binarySearch (items.map PresplitItem.toIeee) fuel l r
      = binarySearch items fuel l r := by
  intro fuel
  induction fuel with
  | zero => intro l r; rfl
  | succ fuel ih =>
    intro l r
    simp only [ieee.binarySearch, binarySearch, getD_map_toIeee, toIeee_priority]
    by_cases hc : l + 1 < r
    · rw [if_pos hc, if_pos hc]
      by_cases hp : (items.getD ((l + r) / 2) default).priority < PRIORITY_BINARY_SEACH_THRESHOLD
      · have g : ieee.Float32.lt (.num (items.getD ((l + r) / 2) default).priority)
            (.num PRIORITY_BINARY_SEACH_THRESHOLD) = true := by
          simpa [ieee.Float32.lt] using hp
        rw [if_pos g, if_pos hp, ih]
      · have g : ¬ ieee.Float32.lt (.num (items.getD ((l + r) / 2) default).priority)
            (.num PRIORITY_BINARY_SEACH_THRESHOLD) = true := by
          simpa [ieee.Float32.lt] using hp
        rw [if_neg g, if_neg hp, ih]
    · rw [if_neg hc, if_neg hc]
theorem measureItem_toIeee (E : Env) (g : Grid) (prims : List PrimRef) (it : PresplitItem) :
    ieee.measureItem E g prims it.toIeee
      = ((measureItem E g prims it).1.toIeee, (measureItem E g prims it).2.1,
          (measureItem E g prims it).2.2) := by
  have ha : assertAt 314 (ieee.Float32.ge (.num it.priority) (.num 1) = true) []
      = assertAt 314 (it.priority ≥ 1) [] :=
    assertAt_congr (by simp [ieee.Float32.ge, ieee.Float32.le]) []
  simp only [ieee.measureItem, measureItem, toIeee_priority, toIeee_index, ieee.Float32.toUInt,
    ha]
  rfl

theorem measureRange_toIeee (E : Env) (g : Grid) (prims : List PrimRef)
    (items : List PresplitItem) (r : ℕ) :
    ieee.measureRange E g prims (items.map PresplitItem.toIeee) r
      = ((measureRange E g prims items r).1.map PresplitItem.toIeee,
          (measureRange E g prims items r).2.1, (measureRange E g prims items r).2.2) := by
  have e : (ieee.measureItem E g prims ∘ PresplitItem.toIeee)
      = fun it => ((measureItem E g prims it).1.toIeee, (measureItem E g prims it).2.1,
          (measureItem E g prims it).2.2) := by
    funext it
    exact measureItem_toIeee E g prims it
  simp only [ieee.measureRange, measureRange, ← List.map_drop, ← List.map_take, List.map_map,
    List.map_append, e, Function.comp_def]

theorem shrinkLoop_toIeee (items : List PresplitItem) (r b : ℕ) :
    ∀ fuel new_r sum : ℕ,
      ieee.shrinkLoop (items.map PresplitItem.toIeee) r b fuel new_r sum
        = shrinkLoop items r b fuel new_r sum := by
  intro fuel
  induction fuel with
  | zero => intro new_r sum; rfl
  | succ fuel ih =>
    intro new_r sum
    simp only [ieee.shrinkLoop, shrinkLoop, getD_map_toIeee, toIeee_data, ih]

theorem shrinkRange_toIeee (items : List PresplitItem) (r n b total : ℕ) :
    ieee.shrinkRange (items.map PresplitItem.toIeee) r n b total
      = shrinkRange items r n b total := by
  simp only [ieee.shrinkRange, shrinkRange, shrinkLoop_toIeee]

theorem commitItem_toIeee (E : Env) (g : Grid) (n alloc : ℕ) (st : CommitState)
    (it : PresplitItem) :
    ieee.commitItem E g n alloc st it.toIeee = commitItem E g n alloc st it := by
  simp only [ieee.commitItem, commitItem, toIeee_index, toIeee_data]

theorem commitRange_toIeee (E : Env) (g : Grid) (n alloc : ℕ) (prims : List PrimRef)
    (items : List PresplitItem) (r : ℕ) (failed : List ℕ) :
    ieee.commitRange E g n alloc prims (items.map PresplitItem.toIeee) r failed
      = commitRange E g n alloc prims items r failed := by
  unfold ieee.commitRange commitRange
  rw [← List.map_drop, List.foldl_map]
  congr 1
  funext st it
  exact commitItem_toIeee E g n alloc st it
/-- A run in which no priority is NaN is the run of the exact model: when the
radicand of line 70 is not negative for every reference whose grid codes
differ, and the sort treats numbers as `radix_sort_u32` of the exact model
does, the run on priorities that may be NaN yields the values of
`createPrimRefArray_presplit`. -/
theorem run_toIeee (E : Env) (sortF : List ieee.PresplitItem → List ieee.PresplitItem)
    (pinfo : PrimInfo) (prims : List PrimRef)
    (hnum : ∀ i, i < pinfo.size →
      (computeMC E (computeGrid pinfo).grid_base (computeGrid pinfo).grid_scale
          (prims.getD i default)).1
        ≠ (computeMC E (computeGrid pinfo).grid_base (computeGrid pinfo).grid_scale
          (prims.getD i default)).2 →
      0 ≤ (E.area (prims.getD i default).bounds
          - 2 * E.projectedPrimitiveArea (prims.getD i default).geomID
            (prims.getD i default).primID)
        * E.powf (3 / 2) (highBit
          ((computeMC E (computeGrid pinfo).grid_base (computeGrid pinfo).grid_scale
              (prims.getD i default)).1
            ^^^ (computeMC E (computeGrid pinfo).grid_base (computeGrid pinfo).grid_scale
              (prims.getD i default)).2)))
    (hsort : ∀ l : List PresplitItem,
      sortF (l.map PresplitItem.toIeee) = (E.radix_sort_u32 l).map PresplitItem.toIeee) :
    ieee.createPrimRefArray_presplit E sortF pinfo prims
      = (createPrimRefArray_presplit E pinfo prims).toIeee := by
  have h306 : ∀ (p : ℚ) (failed : List ℕ),
      assertAt 306 (ieee.Float32.ge (.num p) (.num 1) = true) failed
        = assertAt 306 (p ≥ 1) failed :=
    fun p failed => assertAt_congr (by simp [ieee.Float32.ge, ieee.Float32.le]) failed
  unfold ieee.createPrimRefArray_presplit createPrimRefArray_presplit
  simp only [initPresplitItems_toIeee E _ prims _ hnum, computeSplitLevels_toIeee, hsort,
    binarySearch_toIeee, getD_map_toIeee, toIeee_priority, measureRange_toIeee,
    shrinkRange_toIeee, commitRange_toIeee, h306]
  split <;> rfl
theorem insertItem_toIeee (a : PresplitItem) (l : List PresplitItem) :
    ieee.insertItem a.toIeee (l.map PresplitItem.toIeee)
      = (insertItem a l).map PresplitItem.toIeee := by
  induction l with
  | nil => rfl
  | cons b l ih =>
    simp only [List.map_cons, ieee.insertItem, insertItem, toIeee_priority, ieee.keyLe]
    by_cases h : a.priority ≤ b.priority
    · simp [h]
    · simp [h, ih]

theorem sortItems_toIeee (l : List PresplitItem) :
    ieee.sortItems (l.map PresplitItem.toIeee) = (sortItems l).map PresplitItem.toIeee := by
  induction l with
  | nil => rfl
  | cons a l ih =>
    simp only [List.map_cons, ieee.sortItems, sortItems, ih, insertItem_toIeee]

/-- On the sample input of four references no priority is NaN, and the run on
priorities that may be NaN is the run of the exact model. -/
theorem sample4_run_without_nan :
    ieee.createPrimRefArray_presplit sampleEnv ieee.sortItems samplePrimInfo4 samplePrims4
      = (createPrimRefArray_presplit sampleEnv samplePrimInfo4 samplePrims4).toIeee :=
  run_toIeee sampleEnv ieee.sortItems samplePrimInfo4 samplePrims4 (by decide!)
    sortItems_toIeee

end embree
